import Mathlib

/-!
# Verification of megaplot's `runRemoval` batch task

A shallow embedding of `src/lib/tasks/run-removal.ts` together with the
auxiliary data structures it operates on (`NumericRange`, the sprite
lifecycle phases and the per-sprite internal properties), and proofs of
the spec-level properties of the removal task.

The removal task scans the span of sprite indices summarized by the
`toBeRemovedIndexRange` dirty range, zeroes the attribute memory of every
sprite that is marked for removal, is in the `Rest` phase and whose
transition time has elapsed, advances such sprites to `NeedsTextureSync`,
and folds every sprite that is not yet due (or not yet visited when the
frame budget runs out) back into the dirty ranges before rescheduling
itself.
-/

namespace Megaplot

/-- Lifecycle phases of a sprite (`lib/lifecycle-phase.ts`). -/
inductive LifecyclePhase where
  | Created
  | HasCallback
  | NeedsRebase
  | NeedsTextureSync
  | Rest
deriving DecidableEq, Repr

/-- Modelled from the spec: the legal-transition table of the lifecycle
state machine, `Created → HasCallback → NeedsRebase → NeedsTextureSync →
Rest → (on exit) Rest[toBeRemoved] → NeedsTextureSync (zeroed) → Created
(free)` (the file `lib/lifecycle-phase.ts` is not part of the provided
sources). -/
def legalTransition : LifecyclePhase → LifecyclePhase → Bool
  | .Created, .HasCallback => true
  | .HasCallback, .NeedsRebase => true
  | .NeedsRebase, .NeedsTextureSync => true
  | .NeedsTextureSync, .Rest => true
  | .Rest, .NeedsTextureSync => true
  | .NeedsTextureSync, .Created => true
  | _, _ => false

/-- Modelled from the spec: the dirty-range tracker (`lib/numeric-range.ts`
is not part of the provided sources).  A mutable `[low, high]` bound over
an index or timestamp domain; "undefined" (empty) is a distinct state from
any concrete bound. -/
structure NumericRange (α : Type) where
  bounds : Option (α × α)
deriving DecidableEq, Repr

namespace NumericRange

/-- The cleared (undefined) range: `clear()` resets to this state. -/
def empty : NumericRange α := ⟨none⟩

/-- `isDefined` reports whether any value has been included since the last
`clear()`. -/
def isDefined (r : NumericRange α) : Bool := r.bounds.isSome

/-- `expandToInclude(value)` widens or initializes the bound. -/
def expandToInclude [Min α] [Max α] (r : NumericRange α) (v : α) :
    NumericRange α :=
  match r.bounds with
  | none => ⟨some (v, v)⟩
  | some (lo, hi) => ⟨some (min lo v, max hi v)⟩

/-- Whether `v` lies between the bounds of the range (false when the range
is undefined).  Callers of the dirty-range tracker re-derive membership by
scanning between the bounds, so this is the notion of a value being
"represented" in a range. -/
def containsVal [LinearOrder α] (r : NumericRange α) (v : α) : Bool :=
  match r.bounds with
  | none => false
  | some (lo, hi) => decide (lo ≤ v) && decide (v ≤ hi)

end NumericRange

/-- The slice of the generated `SpriteView` that the removal task touches:
the transition-time attribute and the raw attribute memory (the
`Float32Array` behind `DataViewSymbol`, here a list of integer samples). -/
structure SpriteView where
  TransitionTimeMs : Int
  dataView : List Int
deriving DecidableEq, Repr

/-- `spriteView[DataViewSymbol].fill(0)`: attribute memory flashed to
zero. -/
def SpriteView.fillZero (sv : SpriteView) : SpriteView :=
  { sv with dataView := sv.dataView.map fun _ => 0 }

/-- The internal properties of a sprite (`sprite[InternalPropertiesSymbol]`)
that `runRemoval` reads or writes: the `toBeRemoved` and `zeroed` flags,
the lifecycle phase, the optional sprite view and the optional swatch
index. -/
structure SpriteProperties where
  toBeRemoved : Bool
  lifecyclePhase : LifecyclePhase
  zeroed : Bool
  spriteView : Option SpriteView
  index : Option Nat
deriving DecidableEq, Repr

/-- The outcome of `runRemoval` when it throws: the three `InternalError`
sites of the source, plus the JavaScript `TypeError` that accessing the
internal properties of a missing array element would raise. -/
inductive RunError where
  | noSpritesQueued
  | missingProperties
  | lacksSpriteView
  | typeError
deriving DecidableEq, Repr

/-- The `CoordinatorAPI` surface that `runRemoval` operates on, plus two
counters recording how many times `queueRemovalTask` and
`queueTextureSync` have been invoked. -/
structure Coordinator where
  sprites : List SpriteProperties
  toBeRemovedIndexRange : NumericRange Nat
  toBeRemovedTsRange : NumericRange Int
  needsTextureSyncIndexRange : NumericRange Nat
  queuedRemovalTasks : Nat
  queuedTextureSyncs : Nat
deriving DecidableEq, Repr

/-- Result of the main `while` loop of `runRemoval`: the coordinator
state, the value of the shared `index` variable on leaving the loop (used
by the `finally` block), the number of calls made to `remaining()`, and
the error if an `InternalError` was thrown. -/
structure LoopResult where
  coord : Coordinator
  idx : Nat
  calls : Nat
  err : Option RunError
deriving DecidableEq, Repr

/-- The `while (index <= highIndex)` loop of `runRemoval` (source lines
95-137).  `remaining` is indexed by the number of calls made so far; `sbc`
is `stepsBetweenChecks` and `now` the value of
`coordinator.elapsedTimeMs()` read before the loop. -/
def mainLoop (remaining : Nat → Int) (sbc : Nat) (now : Int)
    (highIndex : Nat) (c : Coordinator) (index step calls : Nat) :
    LoopResult :=
  if _h : index ≤ highIndex then
    match c.sprites[index]? with
    | none => ⟨c, index + 1, calls, some .typeError⟩
    | some p =>
      if !p.toBeRemoved || p.lifecyclePhase != LifecyclePhase.Rest then
        -- Skip sprites that are not both in Rest phase and toBeRemoved.
        mainLoop remaining sbc now highIndex c (index + 1) step calls
      else
        match p.spriteView, p.index with
        | some sv, some pidx =>
          if sv.TransitionTimeMs > now then
            -- Not yet due: add the sprite back to the removal ranges.
            mainLoop remaining sbc now highIndex
              { c with
                toBeRemovedIndexRange :=
                  c.toBeRemovedIndexRange.expandToInclude index,
                toBeRemovedTsRange :=
                  c.toBeRemovedTsRange.expandToInclude sv.TransitionTimeMs }
              (index + 1) step calls
          else
            -- Due: flash zeros, set flags, mark for texture sync.
            let c' : Coordinator :=
              { c with
                sprites := c.sprites.set index
                  { p with
                    spriteView := some sv.fillZero,
                    zeroed := true,
                    lifecyclePhase := LifecyclePhase.NeedsTextureSync },
                needsTextureSyncIndexRange :=
                  c.needsTextureSyncIndexRange.expandToInclude pidx }
            if step % sbc = 0 then
              if remaining calls ≤ 0 then
                ⟨c', index + 1, calls + 1, none⟩
              else
                mainLoop remaining sbc now highIndex c'
                  (index + 1) (step + 1) (calls + 1)
            else
              mainLoop remaining sbc now highIndex c'
                (index + 1) (step + 1) calls
        | _, _ => ⟨c, index + 1, calls, some .missingProperties⟩
  else ⟨c, index, calls, none⟩
termination_by highIndex + 1 - index

/-- The `for (let i = index; i <= highIndex; i++)` cleanup loop of the
`finally` block (source lines 141-163): re-adds every not-yet-visited
to-be-removed resting sprite to the removal ranges. -/
def cleanupLoop (highIndex : Nat) (c : Coordinator) (i : Nat) :
    Coordinator × Option RunError :=
  if _h : i ≤ highIndex then
    match c.sprites[i]? with
    | none => (c, some .typeError)
    | some p =>
      if !p.toBeRemoved || p.lifecyclePhase != LifecyclePhase.Rest then
        cleanupLoop highIndex c (i + 1)
      else
        match p.spriteView with
        | none => (c, some .lacksSpriteView)
        | some sv =>
          cleanupLoop highIndex
            { c with
              toBeRemovedIndexRange :=
                c.toBeRemovedIndexRange.expandToInclude i,
              toBeRemovedTsRange :=
                c.toBeRemovedTsRange.expandToInclude sv.TransitionTimeMs }
            (i + 1)
  else (c, none)
termination_by highIndex + 1 - i

/-- `runRemoval` (source lines 57-175).  Returns the final coordinator
state together with the error that propagated to the caller, if any.
State mutations made before a throw remain committed, as in the source,
where the coordinator is mutated in place. -/
def runRemoval (c0 : Coordinator) (remaining : Nat → Int) (sbc : Nat)
    (now : Int) : Coordinator × Option RunError :=
  match c0.toBeRemovedIndexRange.bounds, c0.toBeRemovedTsRange.bounds with
  | some (lowIndex, highIndex), some (lowTs, _) =>
    if now < lowTs then
      -- None of the sprites have reached their target times yet.
      ({ c0 with queuedRemovalTasks := c0.queuedRemovalTasks + 1 }, none)
    else
      let c1 : Coordinator :=
        { c0 with
          toBeRemovedIndexRange := NumericRange.empty,
          toBeRemovedTsRange := NumericRange.empty }
      let r := mainLoop remaining sbc now highIndex c1 lowIndex 1 0
      match cleanupLoop highIndex r.coord r.idx with
      | (c3, some e) =>
        -- The finally block itself threw; its error replaces the loop's.
        (c3, some e)
      | (c3, none) =>
        let c4 : Coordinator :=
          if c3.needsTextureSyncIndexRange.isDefined then
            { c3 with queuedTextureSyncs := c3.queuedTextureSyncs + 1 }
          else c3
        let c5 : Coordinator :=
          if c4.toBeRemovedIndexRange.isDefined then
            { c4 with queuedRemovalTasks := c4.queuedRemovalTasks + 1 }
          else c4
        (c5, r.err)
  | _, _ => (c0, some .noSpritesQueued)

/-- A sprite matches the removal task's responsibility when it is marked
`toBeRemoved` and is in the `Rest` lifecycle phase. -/
def matchesRemoval (p : SpriteProperties) : Bool :=
  p.toBeRemoved && p.lifecyclePhase == LifecyclePhase.Rest

/-- Well-formedness of the scanned span: every index of the span holds a
sprite, and every sprite of the span that matches the removal task's
responsibility has its sprite view and its swatch index populated (the
spec's invariant that a `Rest`-phase slot always has a populated attribute
view). -/
def SpanWellFormed (sprites : List SpriteProperties) (lo hi : Nat) : Prop :=
  ∀ k, lo ≤ k → k ≤ hi → ∃ p, sprites[k]? = some p ∧
    (matchesRemoval p = true →
      p.spriteView.isSome = true ∧ p.index.isSome = true)

/-! ## Basic lemmas about the dirty-range tracker -/

namespace NumericRange

theorem isDefined_expand [Min α] [Max α] (r : NumericRange α) (v : α) :
    (r.expandToInclude v).isDefined = true := by
  cases hb : r.bounds with
  | none => simp [expandToInclude, isDefined, hb]
  | some lh => obtain ⟨lo, hi⟩ := lh; simp [expandToInclude, isDefined, hb]

theorem containsVal_expand_self [LinearOrder α] (r : NumericRange α)
    (v : α) : (r.expandToInclude v).containsVal v = true := by
  cases hb : r.bounds with
  | none => simp [expandToInclude, containsVal, hb]
  | some lh =>
    obtain ⟨lo, hi⟩ := lh
    simp [expandToInclude, containsVal, hb, min_le_right, le_max_right]

theorem containsVal_of_bounds [LinearOrder α] (r : NumericRange α)
    (lo hi v : α) (hb : r.bounds = some (lo, hi)) (h1 : lo ≤ v)
    (h2 : v ≤ hi) : r.containsVal v = true := by
  simp [containsVal, hb, h1, h2]

theorem containsVal_expand_mono [LinearOrder α] (r : NumericRange α)
    (v w : α) (h : r.containsVal w = true) :
    (r.expandToInclude v).containsVal w = true := by
  cases hb : r.bounds with
  | none => simp [containsVal, hb] at h
  | some lh =>
    obtain ⟨lo, hi⟩ := lh
    simp [containsVal, hb] at h
    have hb' : (r.expandToInclude v).bounds = some (min lo v, max hi v) := by
      simp [expandToInclude, hb]
    exact containsVal_of_bounds _ _ _ _ hb'
      (le_trans (min_le_left _ _) h.1) (le_trans h.2 (le_max_left _ _))

theorem isDefined_of_containsVal [LinearOrder α] (r : NumericRange α)
    (v : α) (h : r.containsVal v = true) : r.isDefined = true := by
  cases hb : r.bounds with
  | none => simp [containsVal, hb] at h
  | some lh => simp [isDefined, hb]

end NumericRange

/-- The loop's skip condition is the negation of `matchesRemoval`. -/
theorem skipCond_eq_not_matches (p : SpriteProperties) :
    (!p.toBeRemoved || p.lifecyclePhase != LifecyclePhase.Rest) =
      !matchesRemoval p := by
  unfold matchesRemoval
  cases p.toBeRemoved <;> simp [bne]


section MainLoopEqs

theorem matchesRemoval_true_iff (p : SpriteProperties) :
    matchesRemoval p = true ↔
      (p.toBeRemoved = true ∧ p.lifecyclePhase = LifecyclePhase.Rest) := by
  unfold matchesRemoval
  simp

theorem matchesRemoval_false_iff (p : SpriteProperties) :
    matchesRemoval p = false ↔
      (p.toBeRemoved = false ∨ p.lifecyclePhase ≠ LifecyclePhase.Rest) := by
  unfold matchesRemoval
  cases htb : p.toBeRemoved <;> simp


variable (remaining : Nat → Int) (sbc : Nat) (now : Int) (highIndex : Nat)

/-- A sprite record after the zeroing mutation of the main loop: zeros
flashed to the data view, `zeroed` set, phase advanced to
`NeedsTextureSync`. -/
def zeroSprite (p : SpriteProperties) (sv : SpriteView) : SpriteProperties :=
  { p with
    spriteView := some sv.fillZero,
    zeroed := true,
    lifecyclePhase := LifecyclePhase.NeedsTextureSync }

/-- One zeroing step of the main loop: the sprite's updated properties and
the coordinator after the mutation. -/
def zeroStep (c : Coordinator) (index : Nat) (p : SpriteProperties)
    (sv : SpriteView) (pidx : Nat) : Coordinator :=
  { c with
    sprites := c.sprites.set index (zeroSprite p sv),
    needsTextureSyncIndexRange :=
      c.needsTextureSyncIndexRange.expandToInclude pidx }

theorem mainLoop_eq_exit (c : Coordinator) (index step calls : Nat)
    (h : ¬ index ≤ highIndex) :
    mainLoop remaining sbc now highIndex c index step calls =
      ⟨c, index, calls, none⟩ := by
  rw [mainLoop, dif_neg h]

theorem mainLoop_eq_oob (c : Coordinator) (index step calls : Nat)
    (h : index ≤ highIndex) (hp : c.sprites[index]? = none) :
    mainLoop remaining sbc now highIndex c index step calls =
      ⟨c, index + 1, calls, some .typeError⟩ := by
  rw [mainLoop, dif_pos h]
  simp only [hp]

theorem mainLoop_eq_skip (c : Coordinator) (index step calls : Nat)
    (p : SpriteProperties) (h : index ≤ highIndex)
    (hp : c.sprites[index]? = some p) (hm : matchesRemoval p = false) :
    mainLoop remaining sbc now highIndex c index step calls =
      mainLoop remaining sbc now highIndex c (index + 1) step calls := by
  rw [mainLoop, dif_pos h]
  simp only [hp]
  simp only [skipCond_eq_not_matches, hm, Bool.not_false, if_true]

theorem mainLoop_eq_missing (c : Coordinator) (index step calls : Nat)
    (p : SpriteProperties) (h : index ≤ highIndex)
    (hp : c.sprites[index]? = some p) (hm : matchesRemoval p = true)
    (hv : p.spriteView = none ∨ p.index = none) :
    mainLoop remaining sbc now highIndex c index step calls =
      ⟨c, index + 1, calls, some .missingProperties⟩ := by
  rw [mainLoop, dif_pos h]
  simp only [hp]
  simp only [skipCond_eq_not_matches, hm, Bool.not_true, Bool.false_eq_true, if_false]
  rcases hv with hv | hv <;>
    rcases hsv : p.spriteView with _ | sv <;>
    rcases hix : p.index with _ | pidx <;>
    simp_all

theorem mainLoop_eq_readd (c : Coordinator) (index step calls : Nat)
    (p : SpriteProperties) (sv : SpriteView) (pidx : Nat)
    (h : index ≤ highIndex) (hp : c.sprites[index]? = some p)
    (hm : matchesRemoval p = true) (hsv : p.spriteView = some sv)
    (hix : p.index = some pidx) (ht : now < sv.TransitionTimeMs) :
    mainLoop remaining sbc now highIndex c index step calls =
      mainLoop remaining sbc now highIndex
        { c with
          toBeRemovedIndexRange :=
            c.toBeRemovedIndexRange.expandToInclude index,
          toBeRemovedTsRange :=
            c.toBeRemovedTsRange.expandToInclude sv.TransitionTimeMs }
        (index + 1) step calls := by
  rw [mainLoop, dif_pos h]
  simp only [hp]
  simp only [skipCond_eq_not_matches, hm, Bool.not_true, Bool.false_eq_true, if_false]
  simp only [hsv, hix]
  rw [if_pos ht]

theorem mainLoop_eq_break (c : Coordinator) (index step calls : Nat)
    (p : SpriteProperties) (sv : SpriteView) (pidx : Nat)
    (h : index ≤ highIndex) (hp : c.sprites[index]? = some p)
    (hm : matchesRemoval p = true) (hsv : p.spriteView = some sv)
    (hix : p.index = some pidx) (ht : ¬ now < sv.TransitionTimeMs)
    (hstep : step % sbc = 0) (hrem : remaining calls ≤ 0) :
    mainLoop remaining sbc now highIndex c index step calls =
      ⟨zeroStep c index p sv pidx, index + 1, calls + 1, none⟩ := by
  rw [mainLoop, dif_pos h]
  simp only [hp]
  simp only [skipCond_eq_not_matches, hm, Bool.not_true, Bool.false_eq_true, if_false]
  simp only [hsv, hix]
  rw [if_neg ht, if_pos hstep, if_pos hrem]
  simp [zeroStep, zeroSprite, hix]

theorem mainLoop_eq_zero_checked (c : Coordinator) (index step calls : Nat)
    (p : SpriteProperties) (sv : SpriteView) (pidx : Nat)
    (h : index ≤ highIndex) (hp : c.sprites[index]? = some p)
    (hm : matchesRemoval p = true) (hsv : p.spriteView = some sv)
    (hix : p.index = some pidx) (ht : ¬ now < sv.TransitionTimeMs)
    (hstep : step % sbc = 0) (hrem : ¬ remaining calls ≤ 0) :
    mainLoop remaining sbc now highIndex c index step calls =
      mainLoop remaining sbc now highIndex (zeroStep c index p sv pidx)
        (index + 1) (step + 1) (calls + 1) := by
  rw [mainLoop, dif_pos h]
  simp only [hp]
  simp only [skipCond_eq_not_matches, hm, Bool.not_true, Bool.false_eq_true, if_false]
  simp only [hsv, hix]
  rw [if_neg ht, if_pos hstep, if_neg hrem]
  simp [zeroStep, zeroSprite, hix]

theorem mainLoop_eq_zero (c : Coordinator) (index step calls : Nat)
    (p : SpriteProperties) (sv : SpriteView) (pidx : Nat)
    (h : index ≤ highIndex) (hp : c.sprites[index]? = some p)
    (hm : matchesRemoval p = true) (hsv : p.spriteView = some sv)
    (hix : p.index = some pidx) (ht : ¬ now < sv.TransitionTimeMs)
    (hstep : ¬ step % sbc = 0) :
    mainLoop remaining sbc now highIndex c index step calls =
      mainLoop remaining sbc now highIndex (zeroStep c index p sv pidx)
        (index + 1) (step + 1) calls := by
  rw [mainLoop, dif_pos h]
  simp only [hp]
  simp only [skipCond_eq_not_matches, hm, Bool.not_true, Bool.false_eq_true, if_false]
  simp only [hsv, hix]
  rw [if_neg ht, if_neg hstep]
  simp [zeroStep, zeroSprite, hix]

end MainLoopEqs



section CleanupLoopEqs

variable (highIndex : Nat)

theorem cleanupLoop_eq_exit (c : Coordinator) (i : Nat)
    (h : ¬ i ≤ highIndex) : cleanupLoop highIndex c i = (c, none) := by
  rw [cleanupLoop, dif_neg h]

theorem cleanupLoop_eq_oob (c : Coordinator) (i : Nat)
    (h : i ≤ highIndex) (hp : c.sprites[i]? = none) :
    cleanupLoop highIndex c i = (c, some .typeError) := by
  rw [cleanupLoop, dif_pos h]
  simp only [hp]

theorem cleanupLoop_eq_skip (c : Coordinator) (i : Nat)
    (p : SpriteProperties) (h : i ≤ highIndex)
    (hp : c.sprites[i]? = some p) (hm : matchesRemoval p = false) :
    cleanupLoop highIndex c i = cleanupLoop highIndex c (i + 1) := by
  rw [cleanupLoop, dif_pos h]
  simp only [hp]
  simp only [skipCond_eq_not_matches, hm, Bool.not_false, if_true]

theorem cleanupLoop_eq_missing (c : Coordinator) (i : Nat)
    (p : SpriteProperties) (h : i ≤ highIndex)
    (hp : c.sprites[i]? = some p) (hm : matchesRemoval p = true)
    (hv : p.spriteView = none) :
    cleanupLoop highIndex c i = (c, some .lacksSpriteView) := by
  rw [cleanupLoop, dif_pos h]
  simp only [hp]
  simp only [skipCond_eq_not_matches, hm, Bool.not_true, Bool.false_eq_true,
    if_false]
  simp only [hv]

theorem cleanupLoop_eq_readd (c : Coordinator) (i : Nat)
    (p : SpriteProperties) (sv : SpriteView) (h : i ≤ highIndex)
    (hp : c.sprites[i]? = some p) (hm : matchesRemoval p = true)
    (hsv : p.spriteView = some sv) :
    cleanupLoop highIndex c i =
      cleanupLoop highIndex
        { c with
          toBeRemovedIndexRange := c.toBeRemovedIndexRange.expandToInclude i,
          toBeRemovedTsRange :=
            c.toBeRemovedTsRange.expandToInclude sv.TransitionTimeMs }
        (i + 1) := by
  rw [cleanupLoop, dif_pos h]
  simp only [hp]
  simp only [skipCond_eq_not_matches, hm, Bool.not_true, Bool.false_eq_true,
    if_false]
  simp only [hsv]

end CleanupLoopEqs


/-! ## Helpers for converting the loop conditions -/

theorem not_matches_of_skip {p : SpriteProperties}
    (h : (!p.toBeRemoved || p.lifecyclePhase != LifecyclePhase.Rest) = true) :
    matchesRemoval p = false := by
  rw [skipCond_eq_not_matches] at h
  simp at h
  exact h

theorem matches_of_not_skip {p : SpriteProperties}
    (h : ¬ ((!p.toBeRemoved || p.lifecyclePhase != LifecyclePhase.Rest)
        = true)) : matchesRemoval p = true := by
  rw [skipCond_eq_not_matches] at h
  simp at h
  exact h

theorem getElem?_some_lt {l : List SpriteProperties} {i : Nat}
    {p : SpriteProperties} (h : l[i]? = some p) : i < l.length := by
  by_contra hc
  push_neg at hc
  rw [List.getElem?_eq_none hc] at h
  exact Option.noConfusion h

/-! ## Structural lemmas about the main loop -/

section MainLoopStructure

variable (remaining : Nat → Int) (sbc : Nat) (now : Int) (highIndex : Nat)

/-- The shared `index` variable only ever advances. -/
theorem mainLoop_idx_lb (c : Coordinator) (index step calls : Nat) :
    index ≤ (mainLoop remaining sbc now highIndex c index step calls).idx := by
  induction c, index, step, calls using mainLoop.induct remaining sbc now highIndex with
  | case1 c index step calls h hp =>
    rw [mainLoop_eq_oob remaining sbc now highIndex c index step calls h hp]
    exact Nat.le_succ index
  | case2 c index step calls h p hp hskip ih =>
    rw [mainLoop_eq_skip remaining sbc now highIndex c index step calls p h hp
      (not_matches_of_skip hskip)]
    omega
  | case3 c index step calls h p hp hskip sv pidx hix hsv ht ih =>
    rw [mainLoop_eq_readd remaining sbc now highIndex c index step calls p sv
      pidx h hp (matches_of_not_skip hskip) hsv hix ht]
    omega
  | case4 c index step calls h p hp hskip sv pidx hix hsv ht hstep hrem =>
    rw [mainLoop_eq_break remaining sbc now highIndex c index step calls p sv
      pidx h hp (matches_of_not_skip hskip) hsv hix ht hstep hrem]
    exact Nat.le_succ index
  | case5 c index step calls h p hp hskip sv pidx hix hsv ht c' hstep hrem ih =>
    rw [mainLoop_eq_zero_checked remaining sbc now highIndex c index step calls
      p sv pidx h hp (matches_of_not_skip hskip) hsv hix ht hstep hrem]
    have ih' : index + 1 ≤ (mainLoop remaining sbc now highIndex
        (zeroStep c index p sv pidx) (index + 1) (step + 1) (calls + 1)).idx := ih
    omega
  | case6 c index step calls h p hp hskip sv pidx hix hsv ht c' hstep ih =>
    rw [mainLoop_eq_zero remaining sbc now highIndex c index step calls p sv
      pidx h hp (matches_of_not_skip hskip) hsv hix ht hstep]
    have ih' : index + 1 ≤ (mainLoop remaining sbc now highIndex
        (zeroStep c index p sv pidx) (index + 1) (step + 1) calls).idx := ih
    omega
  | case7 c index step calls h p hp hskip hcontra =>
    have hm := matches_of_not_skip hskip
    have hv : p.spriteView = none ∨ p.index = none := by
      rcases hsv : p.spriteView with _ | sv
      · exact Or.inl rfl
      · rcases hix : p.index with _ | pidx
        · exact Or.inr rfl
        · exact absurd trivial (fun _ => hcontra sv pidx hsv hix)
    rw [mainLoop_eq_missing remaining sbc now highIndex c index step calls p h
      hp hm hv]
    exact Nat.le_succ index
  | case8 c index step calls h =>
    rw [mainLoop_eq_exit remaining sbc now highIndex c index step calls h]


/-- Upper bound for the loop exit index. -/
theorem mainLoop_idx_ub (c : Coordinator) (index step calls : Nat)
    (hub : index ≤ highIndex + 1) :
    (mainLoop remaining sbc now highIndex c index step calls).idx
      ≤ highIndex + 1 := by
  induction c, index, step, calls using mainLoop.induct remaining sbc now highIndex with
  | case1 c index step calls h hp =>
    rw [mainLoop_eq_oob remaining sbc now highIndex c index step calls h hp]
    show index + 1 ≤ highIndex + 1
    omega
  | case2 c index step calls h p hp hskip ih =>
    rw [mainLoop_eq_skip remaining sbc now highIndex c index step calls p h hp
      (not_matches_of_skip hskip)]
    exact ih (by omega)
  | case3 c index step calls h p hp hskip sv pidx hix hsv ht ih =>
    rw [mainLoop_eq_readd remaining sbc now highIndex c index step calls p sv
      pidx h hp (matches_of_not_skip hskip) hsv hix ht]
    exact ih (by omega)
  | case4 c index step calls h p hp hskip sv pidx hix hsv ht hstep hrem =>
    rw [mainLoop_eq_break remaining sbc now highIndex c index step calls p sv
      pidx h hp (matches_of_not_skip hskip) hsv hix ht hstep hrem]
    show index + 1 ≤ highIndex + 1
    omega
  | case5 c index step calls h p hp hskip sv pidx hix hsv ht c' hstep hrem ih =>
    rw [mainLoop_eq_zero_checked remaining sbc now highIndex c index step calls
      p sv pidx h hp (matches_of_not_skip hskip) hsv hix ht hstep hrem]
    exact ih (by omega)
  | case6 c index step calls h p hp hskip sv pidx hix hsv ht c' hstep ih =>
    rw [mainLoop_eq_zero remaining sbc now highIndex c index step calls p sv
      pidx h hp (matches_of_not_skip hskip) hsv hix ht hstep]
    exact ih (by omega)
  | case7 c index step calls h p hp hskip hcontra =>
    have hm := matches_of_not_skip hskip
    have hv : p.spriteView = none ∨ p.index = none := by
      rcases hsv : p.spriteView with _ | sv
      · exact Or.inl rfl
      · rcases hix : p.index with _ | pidx
        · exact Or.inr rfl
        · exact absurd trivial (fun _ => hcontra sv pidx hsv hix)
    rw [mainLoop_eq_missing remaining sbc now highIndex c index step calls p h
      hp hm hv]
    show index + 1 ≤ highIndex + 1
    omega
  | case8 c index step calls h =>
    rw [mainLoop_eq_exit remaining sbc now highIndex c index step calls h]
    exact hub

/-- The loop never touches the task-queue counters. -/
theorem mainLoop_queued_removal (c : Coordinator) (index step calls : Nat) :
    (mainLoop remaining sbc now highIndex c index step calls).coord.queuedRemovalTasks
      = c.queuedRemovalTasks := by
  induction c, index, step, calls using mainLoop.induct remaining sbc now highIndex with
  | case1 c index step calls h hp =>
    rw [mainLoop_eq_oob remaining sbc now highIndex c index step calls h hp]
  | case2 c index step calls h p hp hskip ih =>
    rw [mainLoop_eq_skip remaining sbc now highIndex c index step calls p h hp
      (not_matches_of_skip hskip)]
    exact ih
  | case3 c index step calls h p hp hskip sv pidx hix hsv ht ih =>
    rw [mainLoop_eq_readd remaining sbc now highIndex c index step calls p sv
      pidx h hp (matches_of_not_skip hskip) hsv hix ht]
    exact ih
  | case4 c index step calls h p hp hskip sv pidx hix hsv ht hstep hrem =>
    rw [mainLoop_eq_break remaining sbc now highIndex c index step calls p sv
      pidx h hp (matches_of_not_skip hskip) hsv hix ht hstep hrem]
    rfl
  | case5 c index step calls h p hp hskip sv pidx hix hsv ht c' hstep hrem ih =>
    rw [mainLoop_eq_zero_checked remaining sbc now highIndex c index step calls
      p sv pidx h hp (matches_of_not_skip hskip) hsv hix ht hstep hrem]
    exact ih
  | case6 c index step calls h p hp hskip sv pidx hix hsv ht c' hstep ih =>
    rw [mainLoop_eq_zero remaining sbc now highIndex c index step calls p sv
      pidx h hp (matches_of_not_skip hskip) hsv hix ht hstep]
    exact ih
  | case7 c index step calls h p hp hskip hcontra =>
    have hm := matches_of_not_skip hskip
    have hv : p.spriteView = none ∨ p.index = none := by
      rcases hsv : p.spriteView with _ | sv
      · exact Or.inl rfl
      · rcases hix : p.index with _ | pidx
        · exact Or.inr rfl
        · exact absurd trivial (fun _ => hcontra sv pidx hsv hix)
    rw [mainLoop_eq_missing remaining sbc now highIndex c index step calls p h
      hp hm hv]
  | case8 c index step calls h =>
    rw [mainLoop_eq_exit remaining sbc now highIndex c index step calls h]

/-- The loop never touches the texture-sync queue counter either. -/
theorem mainLoop_queued_sync (c : Coordinator) (index step calls : Nat) :
    (mainLoop remaining sbc now highIndex c index step calls).coord.queuedTextureSyncs
      = c.queuedTextureSyncs := by
  induction c, index, step, calls using mainLoop.induct remaining sbc now highIndex with
  | case1 c index step calls h hp =>
    rw [mainLoop_eq_oob remaining sbc now highIndex c index step calls h hp]
  | case2 c index step calls h p hp hskip ih =>
    rw [mainLoop_eq_skip remaining sbc now highIndex c index step calls p h hp
      (not_matches_of_skip hskip)]
    exact ih
  | case3 c index step calls h p hp hskip sv pidx hix hsv ht ih =>
    rw [mainLoop_eq_readd remaining sbc now highIndex c index step calls p sv
      pidx h hp (matches_of_not_skip hskip) hsv hix ht]
    exact ih
  | case4 c index step calls h p hp hskip sv pidx hix hsv ht hstep hrem =>
    rw [mainLoop_eq_break remaining sbc now highIndex c index step calls p sv
      pidx h hp (matches_of_not_skip hskip) hsv hix ht hstep hrem]
    rfl
  | case5 c index step calls h p hp hskip sv pidx hix hsv ht c' hstep hrem ih =>
    rw [mainLoop_eq_zero_checked remaining sbc now highIndex c index step calls
      p sv pidx h hp (matches_of_not_skip hskip) hsv hix ht hstep hrem]
    exact ih
  | case6 c index step calls h p hp hskip sv pidx hix hsv ht c' hstep ih =>
    rw [mainLoop_eq_zero remaining sbc now highIndex c index step calls p sv
      pidx h hp (matches_of_not_skip hskip) hsv hix ht hstep]
    exact ih
  | case7 c index step calls h p hp hskip hcontra =>
    have hm := matches_of_not_skip hskip
    have hv : p.spriteView = none ∨ p.index = none := by
      rcases hsv : p.spriteView with _ | sv
      · exact Or.inl rfl
      · rcases hix : p.index with _ | pidx
        · exact Or.inr rfl
        · exact absurd trivial (fun _ => hcontra sv pidx hsv hix)
    rw [mainLoop_eq_missing remaining sbc now highIndex c index step calls p h
      hp hm hv]
  | case8 c index step calls h =>
    rw [mainLoop_eq_exit remaining sbc now highIndex c index step calls h]


/-- Sprites below the starting index or at/after the exit index are left
untouched by the loop. -/
theorem mainLoop_sprites_preserved (c : Coordinator)
    (index step calls : Nat) :
    ∀ k, (k < index ∨
        (mainLoop remaining sbc now highIndex c index step calls).idx ≤ k) →
      (mainLoop remaining sbc now highIndex c index step calls).coord.sprites[k]?
        = c.sprites[k]? := by
  induction c, index, step, calls using mainLoop.induct remaining sbc now highIndex with
  | case1 c index step calls h hp =>
    rw [mainLoop_eq_oob remaining sbc now highIndex c index step calls h hp]
    intro k _
    rfl
  | case2 c index step calls h p hp hskip ih =>
    rw [mainLoop_eq_skip remaining sbc now highIndex c index step calls p h hp
      (not_matches_of_skip hskip)]
    intro k hk
    exact ih k (by omega)
  | case3 c index step calls h p hp hskip sv pidx hix hsv ht ih =>
    rw [mainLoop_eq_readd remaining sbc now highIndex c index step calls p sv
      pidx h hp (matches_of_not_skip hskip) hsv hix ht]
    intro k hk
    exact ih k (by omega)
  | case4 c index step calls h p hp hskip sv pidx hix hsv ht hstep hrem =>
    rw [mainLoop_eq_break remaining sbc now highIndex c index step calls p sv
      pidx h hp (matches_of_not_skip hskip) hsv hix ht hstep hrem]
    intro k hk
    have hk' : k < index ∨ index + 1 ≤ k := hk
    exact List.getElem?_set_ne (by omega)
  | case5 c index step calls h p hp hskip sv pidx hix hsv ht c' hstep hrem ih =>
    rw [mainLoop_eq_zero_checked remaining sbc now highIndex c index step calls
      p sv pidx h hp (matches_of_not_skip hskip) hsv hix ht hstep hrem]
    have ihz : ∀ k, (k < index + 1 ∨
        (mainLoop remaining sbc now highIndex (zeroStep c index p sv pidx)
          (index + 1) (step + 1) (calls + 1)).idx ≤ k) →
        (mainLoop remaining sbc now highIndex (zeroStep c index p sv pidx)
          (index + 1) (step + 1) (calls + 1)).coord.sprites[k]?
          = (zeroStep c index p sv pidx).sprites[k]? := ih
    have hlb := mainLoop_idx_lb remaining sbc now highIndex
      (zeroStep c index p sv pidx) (index + 1) (step + 1) (calls + 1)
    intro k hk
    rw [ihz k (by omega)]
    exact List.getElem?_set_ne (by omega)
  | case6 c index step calls h p hp hskip sv pidx hix hsv ht c' hstep ih =>
    rw [mainLoop_eq_zero remaining sbc now highIndex c index step calls p sv
      pidx h hp (matches_of_not_skip hskip) hsv hix ht hstep]
    have ihz : ∀ k, (k < index + 1 ∨
        (mainLoop remaining sbc now highIndex (zeroStep c index p sv pidx)
          (index + 1) (step + 1) calls).idx ≤ k) →
        (mainLoop remaining sbc now highIndex (zeroStep c index p sv pidx)
          (index + 1) (step + 1) calls).coord.sprites[k]?
          = (zeroStep c index p sv pidx).sprites[k]? := ih
    have hlb := mainLoop_idx_lb remaining sbc now highIndex
      (zeroStep c index p sv pidx) (index + 1) (step + 1) calls
    intro k hk
    rw [ihz k (by omega)]
    exact List.getElem?_set_ne (by omega)
  | case7 c index step calls h p hp hskip hcontra =>
    have hm := matches_of_not_skip hskip
    have hv : p.spriteView = none ∨ p.index = none := by
      rcases hsv : p.spriteView with _ | sv
      · exact Or.inl rfl
      · rcases hix : p.index with _ | pidx
        · exact Or.inr rfl
        · exact absurd trivial (fun _ => hcontra sv pidx hsv hix)
    rw [mainLoop_eq_missing remaining sbc now highIndex c index step calls p h
      hp hm hv]
    intro k _
    rfl
  | case8 c index step calls h =>
    rw [mainLoop_eq_exit remaining sbc now highIndex c index step calls h]
    intro k _
    rfl

/-- Sprites that do not match the removal task's responsibility are left
untouched wherever they live. -/
theorem mainLoop_nonmatching_preserved (c : Coordinator)
    (index step calls : Nat) :
    ∀ (k : Nat) (q : SpriteProperties), c.sprites[k]? = some q →
      matchesRemoval q = false →
      (mainLoop remaining sbc now highIndex c index step calls).coord.sprites[k]?
        = some q := by
  induction c, index, step, calls using mainLoop.induct remaining sbc now highIndex with
  | case1 c index step calls h hp =>
    rw [mainLoop_eq_oob remaining sbc now highIndex c index step calls h hp]
    intro k q hq _
    exact hq
  | case2 c index step calls h p hp hskip ih =>
    rw [mainLoop_eq_skip remaining sbc now highIndex c index step calls p h hp
      (not_matches_of_skip hskip)]
    exact ih
  | case3 c index step calls h p hp hskip sv pidx hix hsv ht ih =>
    rw [mainLoop_eq_readd remaining sbc now highIndex c index step calls p sv
      pidx h hp (matches_of_not_skip hskip) hsv hix ht]
    exact ih
  | case4 c index step calls h p hp hskip sv pidx hix hsv ht hstep hrem =>
    rw [mainLoop_eq_break remaining sbc now highIndex c index step calls p sv
      pidx h hp (matches_of_not_skip hskip) hsv hix ht hstep hrem]
    intro k q hq hmq
    have hm := matches_of_not_skip hskip
    rcases eq_or_ne k index with hk | hk
    · subst hk
      rw [hp] at hq
      injection hq with hq
      subst hq
      rw [hm] at hmq
      exact Bool.noConfusion hmq
    · show (c.sprites.set index (zeroSprite p sv))[k]? = some q
      rw [List.getElem?_set_ne (Ne.symm hk)]
      exact hq
  | case5 c index step calls h p hp hskip sv pidx hix hsv ht c' hstep hrem ih =>
    rw [mainLoop_eq_zero_checked remaining sbc now highIndex c index step calls
      p sv pidx h hp (matches_of_not_skip hskip) hsv hix ht hstep hrem]
    have ihz : ∀ (k : Nat) (q : SpriteProperties),
        (zeroStep c index p sv pidx).sprites[k]? = some q →
        matchesRemoval q = false →
        (mainLoop remaining sbc now highIndex (zeroStep c index p sv pidx)
          (index + 1) (step + 1) (calls + 1)).coord.sprites[k]? = some q := ih
    intro k q hq hmq
    have hm := matches_of_not_skip hskip
    rcases eq_or_ne k index with hk | hk
    · subst hk
      rw [hp] at hq
      injection hq with hq
      subst hq
      rw [hm] at hmq
      exact Bool.noConfusion hmq
    · refine ihz k q ?_ hmq
      show (c.sprites.set index (zeroSprite p sv))[k]? = some q
      rw [List.getElem?_set_ne (Ne.symm hk)]
      exact hq
  | case6 c index step calls h p hp hskip sv pidx hix hsv ht c' hstep ih =>
    rw [mainLoop_eq_zero remaining sbc now highIndex c index step calls p sv
      pidx h hp (matches_of_not_skip hskip) hsv hix ht hstep]
    have ihz : ∀ (k : Nat) (q : SpriteProperties),
        (zeroStep c index p sv pidx).sprites[k]? = some q →
        matchesRemoval q = false →
        (mainLoop remaining sbc now highIndex (zeroStep c index p sv pidx)
          (index + 1) (step + 1) calls).coord.sprites[k]? = some q := ih
    intro k q hq hmq
    have hm := matches_of_not_skip hskip
    rcases eq_or_ne k index with hk | hk
    · subst hk
      rw [hp] at hq
      injection hq with hq
      subst hq
      rw [hm] at hmq
      exact Bool.noConfusion hmq
    · refine ihz k q ?_ hmq
      show (c.sprites.set index (zeroSprite p sv))[k]? = some q
      rw [List.getElem?_set_ne (Ne.symm hk)]
      exact hq
  | case7 c index step calls h p hp hskip hcontra =>
    have hm := matches_of_not_skip hskip
    have hv : p.spriteView = none ∨ p.index = none := by
      rcases hsv : p.spriteView with _ | sv
      · exact Or.inl rfl
      · rcases hix : p.index with _ | pidx
        · exact Or.inr rfl
        · exact absurd trivial (fun _ => hcontra sv pidx hsv hix)
    rw [mainLoop_eq_missing remaining sbc now highIndex c index step calls p h
      hp hm hv]
    intro k q hq _
    exact hq
  | case8 c index step calls h =>
    rw [mainLoop_eq_exit remaining sbc now highIndex c index step calls h]
    intro k q hq _
    exact hq


/-- Values represented in the to-be-removed index range stay represented
through the loop (the range is only ever expanded there). -/
theorem mainLoop_tbrIdx_mono (v : Nat) (c : Coordinator)
    (index step calls : Nat) :
    c.toBeRemovedIndexRange.containsVal v = true →
      (mainLoop remaining sbc now highIndex c index step calls).coord.toBeRemovedIndexRange.containsVal v
        = true := by
  induction c, index, step, calls using mainLoop.induct remaining sbc now highIndex with
  | case1 c index step calls h hp =>
    rw [mainLoop_eq_oob remaining sbc now highIndex c index step calls h hp]
    exact id
  | case2 c index step calls h p hp hskip ih =>
    rw [mainLoop_eq_skip remaining sbc now highIndex c index step calls p h hp
      (not_matches_of_skip hskip)]
    exact ih
  | case3 c index step calls h p hp hskip sv pidx hix hsv ht ih =>
    rw [mainLoop_eq_readd remaining sbc now highIndex c index step calls p sv
      pidx h hp (matches_of_not_skip hskip) hsv hix ht]
    intro hv
    exact ih (NumericRange.containsVal_expand_mono c.toBeRemovedIndexRange
      index v hv)
  | case4 c index step calls h p hp hskip sv pidx hix hsv ht hstep hrem =>
    rw [mainLoop_eq_break remaining sbc now highIndex c index step calls p sv
      pidx h hp (matches_of_not_skip hskip) hsv hix ht hstep hrem]
    exact id
  | case5 c index step calls h p hp hskip sv pidx hix hsv ht c' hstep hrem ih =>
    rw [mainLoop_eq_zero_checked remaining sbc now highIndex c index step calls
      p sv pidx h hp (matches_of_not_skip hskip) hsv hix ht hstep hrem]
    exact ih
  | case6 c index step calls h p hp hskip sv pidx hix hsv ht c' hstep ih =>
    rw [mainLoop_eq_zero remaining sbc now highIndex c index step calls p sv
      pidx h hp (matches_of_not_skip hskip) hsv hix ht hstep]
    exact ih
  | case7 c index step calls h p hp hskip hcontra =>
    have hm := matches_of_not_skip hskip
    have hv : p.spriteView = none ∨ p.index = none := by
      rcases hsv : p.spriteView with _ | sv
      · exact Or.inl rfl
      · rcases hix : p.index with _ | pidx
        · exact Or.inr rfl
        · exact absurd trivial (fun _ => hcontra sv pidx hsv hix)
    rw [mainLoop_eq_missing remaining sbc now highIndex c index step calls p h
      hp hm hv]
    exact id
  | case8 c index step calls h =>
    rw [mainLoop_eq_exit remaining sbc now highIndex c index step calls h]
    exact id

/-- Values represented in the to-be-removed timestamp range stay
represented through the loop. -/
theorem mainLoop_tbrTs_mono (v : Int) (c : Coordinator)
    (index step calls : Nat) :
    c.toBeRemovedTsRange.containsVal v = true →
      (mainLoop remaining sbc now highIndex c index step calls).coord.toBeRemovedTsRange.containsVal v
        = true := by
  induction c, index, step, calls using mainLoop.induct remaining sbc now highIndex with
  | case1 c index step calls h hp =>
    rw [mainLoop_eq_oob remaining sbc now highIndex c index step calls h hp]
    exact id
  | case2 c index step calls h p hp hskip ih =>
    rw [mainLoop_eq_skip remaining sbc now highIndex c index step calls p h hp
      (not_matches_of_skip hskip)]
    exact ih
  | case3 c index step calls h p hp hskip sv pidx hix hsv ht ih =>
    rw [mainLoop_eq_readd remaining sbc now highIndex c index step calls p sv
      pidx h hp (matches_of_not_skip hskip) hsv hix ht]
    intro hv
    exact ih (NumericRange.containsVal_expand_mono c.toBeRemovedTsRange
      sv.TransitionTimeMs v hv)
  | case4 c index step calls h p hp hskip sv pidx hix hsv ht hstep hrem =>
    rw [mainLoop_eq_break remaining sbc now highIndex c index step calls p sv
      pidx h hp (matches_of_not_skip hskip) hsv hix ht hstep hrem]
    exact id
  | case5 c index step calls h p hp hskip sv pidx hix hsv ht c' hstep hrem ih =>
    rw [mainLoop_eq_zero_checked remaining sbc now highIndex c index step calls
      p sv pidx h hp (matches_of_not_skip hskip) hsv hix ht hstep hrem]
    exact ih
  | case6 c index step calls h p hp hskip sv pidx hix hsv ht c' hstep ih =>
    rw [mainLoop_eq_zero remaining sbc now highIndex c index step calls p sv
      pidx h hp (matches_of_not_skip hskip) hsv hix ht hstep]
    exact ih
  | case7 c index step calls h p hp hskip hcontra =>
    have hm := matches_of_not_skip hskip
    have hv : p.spriteView = none ∨ p.index = none := by
      rcases hsv : p.spriteView with _ | sv
      · exact Or.inl rfl
      · rcases hix : p.index with _ | pidx
        · exact Or.inr rfl
        · exact absurd trivial (fun _ => hcontra sv pidx hsv hix)
    rw [mainLoop_eq_missing remaining sbc now highIndex c index step calls p h
      hp hm hv]
    exact id
  | case8 c index step calls h =>
    rw [mainLoop_eq_exit remaining sbc now highIndex c index step calls h]
    exact id

/-- Values represented in the needs-texture-sync index range stay
represented through the loop. -/
theorem mainLoop_sync_mono (v : Nat) (c : Coordinator)
    (index step calls : Nat) :
    c.needsTextureSyncIndexRange.containsVal v = true →
      (mainLoop remaining sbc now highIndex c index step calls).coord.needsTextureSyncIndexRange.containsVal v
        = true := by
  induction c, index, step, calls using mainLoop.induct remaining sbc now highIndex with
  | case1 c index step calls h hp =>
    rw [mainLoop_eq_oob remaining sbc now highIndex c index step calls h hp]
    exact id
  | case2 c index step calls h p hp hskip ih =>
    rw [mainLoop_eq_skip remaining sbc now highIndex c index step calls p h hp
      (not_matches_of_skip hskip)]
    exact ih
  | case3 c index step calls h p hp hskip sv pidx hix hsv ht ih =>
    rw [mainLoop_eq_readd remaining sbc now highIndex c index step calls p sv
      pidx h hp (matches_of_not_skip hskip) hsv hix ht]
    exact ih
  | case4 c index step calls h p hp hskip sv pidx hix hsv ht hstep hrem =>
    rw [mainLoop_eq_break remaining sbc now highIndex c index step calls p sv
      pidx h hp (matches_of_not_skip hskip) hsv hix ht hstep hrem]
    intro hv
    exact NumericRange.containsVal_expand_mono c.needsTextureSyncIndexRange
      pidx v hv
  | case5 c index step calls h p hp hskip sv pidx hix hsv ht c' hstep hrem ih =>
    rw [mainLoop_eq_zero_checked remaining sbc now highIndex c index step calls
      p sv pidx h hp (matches_of_not_skip hskip) hsv hix ht hstep hrem]
    intro hv
    exact ih (NumericRange.containsVal_expand_mono c.needsTextureSyncIndexRange
      pidx v hv)
  | case6 c index step calls h p hp hskip sv pidx hix hsv ht c' hstep ih =>
    rw [mainLoop_eq_zero remaining sbc now highIndex c index step calls p sv
      pidx h hp (matches_of_not_skip hskip) hsv hix ht hstep]
    intro hv
    exact ih (NumericRange.containsVal_expand_mono c.needsTextureSyncIndexRange
      pidx v hv)
  | case7 c index step calls h p hp hskip hcontra =>
    have hm := matches_of_not_skip hskip
    have hv : p.spriteView = none ∨ p.index = none := by
      rcases hsv : p.spriteView with _ | sv
      · exact Or.inl rfl
      · rcases hix : p.index with _ | pidx
        · exact Or.inr rfl
        · exact absurd trivial (fun _ => hcontra sv pidx hsv hix)
    rw [mainLoop_eq_missing remaining sbc now highIndex c index step calls p h
      hp hm hv]
    exact id
  | case8 c index step calls h =>
    rw [mainLoop_eq_exit remaining sbc now highIndex c index step calls h]
    exact id

/-- The two to-be-removed ranges are defined or undefined together: the
loop always expands them in lockstep. -/
theorem mainLoop_defined_together (c : Coordinator)
    (index step calls : Nat) :
    c.toBeRemovedIndexRange.isDefined = c.toBeRemovedTsRange.isDefined →
      (mainLoop remaining sbc now highIndex c index step calls).coord.toBeRemovedIndexRange.isDefined
        = (mainLoop remaining sbc now highIndex c index step calls).coord.toBeRemovedTsRange.isDefined := by
  induction c, index, step, calls using mainLoop.induct remaining sbc now highIndex with
  | case1 c index step calls h hp =>
    rw [mainLoop_eq_oob remaining sbc now highIndex c index step calls h hp]
    exact id
  | case2 c index step calls h p hp hskip ih =>
    rw [mainLoop_eq_skip remaining sbc now highIndex c index step calls p h hp
      (not_matches_of_skip hskip)]
    exact ih
  | case3 c index step calls h p hp hskip sv pidx hix hsv ht ih =>
    rw [mainLoop_eq_readd remaining sbc now highIndex c index step calls p sv
      pidx h hp (matches_of_not_skip hskip) hsv hix ht]
    intro _
    refine ih ?_
    show (c.toBeRemovedIndexRange.expandToInclude index).isDefined
      = (c.toBeRemovedTsRange.expandToInclude sv.TransitionTimeMs).isDefined
    rw [NumericRange.isDefined_expand, NumericRange.isDefined_expand]
  | case4 c index step calls h p hp hskip sv pidx hix hsv ht hstep hrem =>
    rw [mainLoop_eq_break remaining sbc now highIndex c index step calls p sv
      pidx h hp (matches_of_not_skip hskip) hsv hix ht hstep hrem]
    exact id
  | case5 c index step calls h p hp hskip sv pidx hix hsv ht c' hstep hrem ih =>
    rw [mainLoop_eq_zero_checked remaining sbc now highIndex c index step calls
      p sv pidx h hp (matches_of_not_skip hskip) hsv hix ht hstep hrem]
    exact ih
  | case6 c index step calls h p hp hskip sv pidx hix hsv ht c' hstep ih =>
    rw [mainLoop_eq_zero remaining sbc now highIndex c index step calls p sv
      pidx h hp (matches_of_not_skip hskip) hsv hix ht hstep]
    exact ih
  | case7 c index step calls h p hp hskip hcontra =>
    have hm := matches_of_not_skip hskip
    have hv : p.spriteView = none ∨ p.index = none := by
      rcases hsv : p.spriteView with _ | sv
      · exact Or.inl rfl
      · rcases hix : p.index with _ | pidx
        · exact Or.inr rfl
        · exact absurd trivial (fun _ => hcontra sv pidx hsv hix)
    rw [mainLoop_eq_missing remaining sbc now highIndex c index step calls p h
      hp hm hv]
    exact id
  | case8 c index step calls h =>
    rw [mainLoop_eq_exit remaining sbc now highIndex c index step calls h]
    exact id


/-- Complete characterization of per-sprite change across the main loop:
a sprite is either untouched, or it matched the removal responsibility,
its transition time had elapsed, and it was zeroed and advanced to
`NeedsTextureSync`. -/
theorem mainLoop_sprite_change (c : Coordinator) (index step calls : Nat) :
    ∀ (k : Nat) (q q' : SpriteProperties), c.sprites[k]? = some q →
      (mainLoop remaining sbc now highIndex c index step calls).coord.sprites[k]?
        = some q' →
      q' = q ∨ (matchesRemoval q = true ∧ ∃ sv, q.spriteView = some sv ∧
        sv.TransitionTimeMs ≤ now ∧ q' = zeroSprite q sv) := by
  induction c, index, step, calls using mainLoop.induct remaining sbc now highIndex with
  | case1 c index step calls h hp =>
    rw [mainLoop_eq_oob remaining sbc now highIndex c index step calls h hp]
    intro k q q' hq hq'
    rw [hq] at hq'
    injection hq' with e
    exact Or.inl e.symm
  | case2 c index step calls h p hp hskip ih =>
    rw [mainLoop_eq_skip remaining sbc now highIndex c index step calls p h hp
      (not_matches_of_skip hskip)]
    exact ih
  | case3 c index step calls h p hp hskip sv pidx hix hsv ht ih =>
    rw [mainLoop_eq_readd remaining sbc now highIndex c index step calls p sv
      pidx h hp (matches_of_not_skip hskip) hsv hix ht]
    exact ih
  | case4 c index step calls h p hp hskip sv pidx hix hsv ht hstep hrem =>
    rw [mainLoop_eq_break remaining sbc now highIndex c index step calls p sv
      pidx h hp (matches_of_not_skip hskip) hsv hix ht hstep hrem]
    intro k q q' hq hq'
    have hm := matches_of_not_skip hskip
    rcases eq_or_ne k index with hk | hk
    · subst hk
      have hpq : p = q := by
        rw [hp] at hq
        exact Option.some.inj hq
      subst hpq
      have hset : (c.sprites.set k (zeroSprite p sv))[k]? =
          some (zeroSprite p sv) :=
        List.getElem?_set_eq (getElem?_some_lt hp)
      have hq'2 : (c.sprites.set k (zeroSprite p sv))[k]? = some q' := hq'
      rw [hset] at hq'2
      injection hq'2 with e
      exact Or.inr ⟨hm, sv, hsv, le_of_not_lt ht, e.symm⟩
    · have hq'2 : (c.sprites.set index (zeroSprite p sv))[k]? = some q' := hq'
      rw [List.getElem?_set_ne (Ne.symm hk)] at hq'2
      rw [hq] at hq'2
      injection hq'2 with e
      exact Or.inl e.symm
  | case5 c index step calls h p hp hskip sv pidx hix hsv ht c' hstep hrem ih =>
    rw [mainLoop_eq_zero_checked remaining sbc now highIndex c index step calls
      p sv pidx h hp (matches_of_not_skip hskip) hsv hix ht hstep hrem]
    have ihz : ∀ (k : Nat) (q q' : SpriteProperties),
        (zeroStep c index p sv pidx).sprites[k]? = some q →
        (mainLoop remaining sbc now highIndex (zeroStep c index p sv pidx)
          (index + 1) (step + 1) (calls + 1)).coord.sprites[k]? = some q' →
        q' = q ∨ (matchesRemoval q = true ∧ ∃ sw, q.spriteView = some sw ∧
          sw.TransitionTimeMs ≤ now ∧ q' = zeroSprite q sw) := ih
    intro k q q' hq hq'
    have hm := matches_of_not_skip hskip
    rcases eq_or_ne k index with hk | hk
    · subst hk
      have hpq : p = q := by
        rw [hp] at hq
        exact Option.some.inj hq
      subst hpq
      have hset : (zeroStep c k p sv pidx).sprites[k]? =
          some (zeroSprite p sv) := by
        show (c.sprites.set k (zeroSprite p sv))[k]? = some (zeroSprite p sv)
        exact List.getElem?_set_eq (getElem?_some_lt hp)
      rcases ihz k (zeroSprite p sv) q' hset hq' with e | ⟨hmz, _, _, _, _⟩
      · exact Or.inr ⟨hm, sv, hsv, le_of_not_lt ht, e⟩
      · simp [matchesRemoval, zeroSprite] at hmz
    · refine ihz k q q' ?_ hq'
      show (c.sprites.set index (zeroSprite p sv))[k]? = some q
      rw [List.getElem?_set_ne (Ne.symm hk)]
      exact hq
  | case6 c index step calls h p hp hskip sv pidx hix hsv ht c' hstep ih =>
    rw [mainLoop_eq_zero remaining sbc now highIndex c index step calls p sv
      pidx h hp (matches_of_not_skip hskip) hsv hix ht hstep]
    have ihz : ∀ (k : Nat) (q q' : SpriteProperties),
        (zeroStep c index p sv pidx).sprites[k]? = some q →
        (mainLoop remaining sbc now highIndex (zeroStep c index p sv pidx)
          (index + 1) (step + 1) calls).coord.sprites[k]? = some q' →
        q' = q ∨ (matchesRemoval q = true ∧ ∃ sw, q.spriteView = some sw ∧
          sw.TransitionTimeMs ≤ now ∧ q' = zeroSprite q sw) := ih
    intro k q q' hq hq'
    have hm := matches_of_not_skip hskip
    rcases eq_or_ne k index with hk | hk
    · subst hk
      have hpq : p = q := by
        rw [hp] at hq
        exact Option.some.inj hq
      subst hpq
      have hset : (zeroStep c k p sv pidx).sprites[k]? =
          some (zeroSprite p sv) := by
        show (c.sprites.set k (zeroSprite p sv))[k]? = some (zeroSprite p sv)
        exact List.getElem?_set_eq (getElem?_some_lt hp)
      rcases ihz k (zeroSprite p sv) q' hset hq' with e | ⟨hmz, _, _, _, _⟩
      · exact Or.inr ⟨hm, sv, hsv, le_of_not_lt ht, e⟩
      · simp [matchesRemoval, zeroSprite] at hmz
    · refine ihz k q q' ?_ hq'
      show (c.sprites.set index (zeroSprite p sv))[k]? = some q
      rw [List.getElem?_set_ne (Ne.symm hk)]
      exact hq
  | case7 c index step calls h p hp hskip hcontra =>
    have hm := matches_of_not_skip hskip
    have hv : p.spriteView = none ∨ p.index = none := by
      rcases hsv : p.spriteView with _ | sv
      · exact Or.inl rfl
      · rcases hix : p.index with _ | pidx
        · exact Or.inr rfl
        · exact absurd trivial (fun _ => hcontra sv pidx hsv hix)
    rw [mainLoop_eq_missing remaining sbc now highIndex c index step calls p h
      hp hm hv]
    intro k q q' hq hq'
    rw [hq] at hq'
    injection hq' with e
    exact Or.inl e.symm
  | case8 c index step calls h =>
    rw [mainLoop_eq_exit remaining sbc now highIndex c index step calls h]
    intro k q q' hq hq'
    rw [hq] at hq'
    injection hq' with e
    exact Or.inl e.symm


/-- Span well-formedness is antitone in the lower bound. -/
theorem spanWF_mono_lo {s : List SpriteProperties} {lo lo' hi : Nat}
    (h : SpanWellFormed s lo hi) (hl : lo ≤ lo') : SpanWellFormed s lo' hi :=
  fun k hk1 hk2 => h k (le_trans hl hk1) hk2

/-- Span well-formedness is monotone in the upper bound. -/
theorem spanWF_mono_hi {s : List SpriteProperties} {lo hi hi' : Nat}
    (h : SpanWellFormed s lo hi) (hh : hi' ≤ hi) : SpanWellFormed s lo hi' :=
  fun k hk1 hk2 => h k hk1 (le_trans hk2 hh)

/-- Setting a slot below the span preserves span well-formedness. -/
theorem spanWF_set_below {s : List SpriteProperties}
    {q : SpriteProperties} {index lo hi : Nat}
    (h : SpanWellFormed s lo hi) (hindex : index < lo) :
    SpanWellFormed (s.set index q) lo hi := by
  intro k hk1 hk2
  obtain ⟨w, hw, hreq⟩ := h k hk1 hk2
  refine ⟨w, ?_, hreq⟩
  rw [List.getElem?_set_ne (by omega)]
  exact hw

/-- On a well-formed span, the main loop never throws. -/
theorem mainLoop_noerr (c : Coordinator) (index step calls : Nat) :
    SpanWellFormed c.sprites index highIndex →
      (mainLoop remaining sbc now highIndex c index step calls).err = none := by
  induction c, index, step, calls using mainLoop.induct remaining sbc now highIndex with
  | case1 c index step calls h hp =>
    intro hwf
    obtain ⟨p0, hp0, _⟩ := hwf index le_rfl h
    rw [hp] at hp0
    exact Option.noConfusion hp0
  | case2 c index step calls h p hp hskip ih =>
    rw [mainLoop_eq_skip remaining sbc now highIndex c index step calls p h hp
      (not_matches_of_skip hskip)]
    intro hwf
    exact ih (spanWF_mono_lo hwf (Nat.le_succ index))
  | case3 c index step calls h p hp hskip sv pidx hix hsv ht ih =>
    rw [mainLoop_eq_readd remaining sbc now highIndex c index step calls p sv
      pidx h hp (matches_of_not_skip hskip) hsv hix ht]
    intro hwf
    exact ih (spanWF_mono_lo hwf (Nat.le_succ index))
  | case4 c index step calls h p hp hskip sv pidx hix hsv ht hstep hrem =>
    rw [mainLoop_eq_break remaining sbc now highIndex c index step calls p sv
      pidx h hp (matches_of_not_skip hskip) hsv hix ht hstep hrem]
    intro _
    rfl
  | case5 c index step calls h p hp hskip sv pidx hix hsv ht c' hstep hrem ih =>
    rw [mainLoop_eq_zero_checked remaining sbc now highIndex c index step calls
      p sv pidx h hp (matches_of_not_skip hskip) hsv hix ht hstep hrem]
    have ihz : SpanWellFormed (zeroStep c index p sv pidx).sprites (index + 1)
          highIndex →
        (mainLoop remaining sbc now highIndex (zeroStep c index p sv pidx)
          (index + 1) (step + 1) (calls + 1)).err = none := ih
    intro hwf
    exact ihz (spanWF_set_below (spanWF_mono_lo hwf (Nat.le_succ index))
      (Nat.lt_succ_self index))
  | case6 c index step calls h p hp hskip sv pidx hix hsv ht c' hstep ih =>
    rw [mainLoop_eq_zero remaining sbc now highIndex c index step calls p sv
      pidx h hp (matches_of_not_skip hskip) hsv hix ht hstep]
    have ihz : SpanWellFormed (zeroStep c index p sv pidx).sprites (index + 1)
          highIndex →
        (mainLoop remaining sbc now highIndex (zeroStep c index p sv pidx)
          (index + 1) (step + 1) calls).err = none := ih
    intro hwf
    exact ihz (spanWF_set_below (spanWF_mono_lo hwf (Nat.le_succ index))
      (Nat.lt_succ_self index))
  | case7 c index step calls h p hp hskip hcontra =>
    intro hwf
    have hm := matches_of_not_skip hskip
    obtain ⟨p0, hp0, hreq⟩ := hwf index le_rfl h
    rw [hp] at hp0
    have hpp : p = p0 := Option.some.inj hp0
    subst hpp
    obtain ⟨h1, h2⟩ := hreq hm
    obtain ⟨sv, hsv⟩ := Option.isSome_iff_exists.mp h1
    obtain ⟨pidx, hix⟩ := Option.isSome_iff_exists.mp h2
    exact (hcontra sv pidx hsv hix).elim
  | case8 c index step calls h =>
    rw [mainLoop_eq_exit remaining sbc now highIndex c index step calls h]
    intro _
    rfl


/-- Core of the zeroing guarantee: with a positive budget throughout, the
loop reaches every due matching sprite of a well-formed prefix of the
span, zeroes it, and records its swatch index for texture sync. -/
theorem mainLoop_zeroes_due (hrem : ∀ n, 0 < remaining n) (c : Coordinator)
    (index step calls : Nat) :
    ∀ (i : Nat) (q : SpriteProperties) (sv : SpriteView) (pidx : Nat),
      index ≤ i → i ≤ highIndex →
      SpanWellFormed c.sprites index i →
      c.sprites[i]? = some q → matchesRemoval q = true →
      q.spriteView = some sv → sv.TransitionTimeMs ≤ now →
      q.index = some pidx →
      (mainLoop remaining sbc now highIndex c index step calls).coord.sprites[i]?
          = some (zeroSprite q sv) ∧
        (mainLoop remaining sbc now highIndex c index step calls).coord.needsTextureSyncIndexRange.containsVal pidx
          = true := by
  induction c, index, step, calls using mainLoop.induct remaining sbc now highIndex with
  | case1 c index step calls h hp =>
    intro i q sv pidx hi1 hi2 hwf hq hm hsv hdue hix
    obtain ⟨p0, hp0, _⟩ := hwf index le_rfl hi1
    rw [hp] at hp0
    exact Option.noConfusion hp0
  | case2 c index step calls h p hp hskip ih =>
    rw [mainLoop_eq_skip remaining sbc now highIndex c index step calls p h hp
      (not_matches_of_skip hskip)]
    intro i q sv pidx hi1 hi2 hwf hq hm hsv hdue hix
    rcases eq_or_ne index i with hii | hii
    · subst hii
      rw [hp] at hq
      have hpq : p = q := Option.some.inj hq
      subst hpq
      rw [not_matches_of_skip hskip] at hm
      exact Bool.noConfusion hm
    · exact ih i q sv pidx (by omega) hi2
        (spanWF_mono_lo hwf (Nat.le_succ index)) hq hm hsv hdue hix
  | case3 c index step calls h p hp hskip sv0 pidx0 hix0 hsv0 ht ih =>
    rw [mainLoop_eq_readd remaining sbc now highIndex c index step calls p sv0
      pidx0 h hp (matches_of_not_skip hskip) hsv0 hix0 ht]
    intro i q sv pidx hi1 hi2 hwf hq hm hsv hdue hix
    rcases eq_or_ne index i with hii | hii
    · subst hii
      rw [hp] at hq
      have hpq : p = q := Option.some.inj hq
      subst hpq
      rw [hsv0] at hsv
      have hsvq : sv0 = sv := Option.some.inj hsv
      subst hsvq
      omega
    · exact ih i q sv pidx (by omega) hi2
        (spanWF_mono_lo hwf (Nat.le_succ index)) hq hm hsv hdue hix
  | case4 c index step calls h p hp hskip sv0 pidx0 hix0 hsv0 ht hstep hrem0 =>
    intro i q sv pidx hi1 hi2 hwf hq hm hsv hdue hix
    have := hrem calls
    omega
  | case5 c index step calls h p hp hskip sv0 pidx0 hix0 hsv0 ht c' hstep hrem0 ih =>
    rw [mainLoop_eq_zero_checked remaining sbc now highIndex c index step calls
      p sv0 pidx0 h hp (matches_of_not_skip hskip) hsv0 hix0 ht hstep hrem0]
    have ihz : ∀ (i : Nat) (q : SpriteProperties) (sv : SpriteView)
        (pidx : Nat), index + 1 ≤ i → i ≤ highIndex →
        SpanWellFormed (zeroStep c index p sv0 pidx0).sprites (index + 1) i →
        (zeroStep c index p sv0 pidx0).sprites[i]? = some q →
        matchesRemoval q = true → q.spriteView = some sv →
        sv.TransitionTimeMs ≤ now → q.index = some pidx →
        (mainLoop remaining sbc now highIndex (zeroStep c index p sv0 pidx0)
            (index + 1) (step + 1) (calls + 1)).coord.sprites[i]?
            = some (zeroSprite q sv) ∧
          (mainLoop remaining sbc now highIndex (zeroStep c index p sv0 pidx0)
            (index + 1) (step + 1) (calls + 1)).coord.needsTextureSyncIndexRange.containsVal pidx
            = true := ih
    intro i q sv pidx hi1 hi2 hwf hq hm hsv hdue hix
    rcases eq_or_ne index i with hii | hii
    · subst hii
      rw [hp] at hq
      have hpq : p = q := Option.some.inj hq
      subst hpq
      rw [hsv0] at hsv
      have hsvq : sv0 = sv := Option.some.inj hsv
      subst hsvq
      rw [hix0] at hix
      have hpidx : pidx0 = pidx := Option.some.inj hix
      subst hpidx
      constructor
      · rw [mainLoop_sprites_preserved remaining sbc now highIndex
          (zeroStep c index p sv0 pidx0) (index + 1) (step + 1) (calls + 1)
          index (Or.inl (Nat.lt_succ_self index))]
        show (c.sprites.set index (zeroSprite p sv0))[index]?
          = some (zeroSprite p sv0)
        exact List.getElem?_set_eq (getElem?_some_lt hp)
      · refine mainLoop_sync_mono remaining sbc now highIndex pidx0
          (zeroStep c index p sv0 pidx0) (index + 1) (step + 1) (calls + 1) ?_
        show (c.needsTextureSyncIndexRange.expandToInclude pidx0).containsVal pidx0 = true
        exact NumericRange.containsVal_expand_self c.needsTextureSyncIndexRange
          pidx0
    · refine ihz i q sv pidx (by omega) hi2
        (spanWF_set_below (spanWF_mono_lo hwf (Nat.le_succ index))
          (Nat.lt_succ_self index)) ?_ hm hsv hdue hix
      show (c.sprites.set index (zeroSprite p sv0))[i]? = some q
      rw [List.getElem?_set_ne hii]
      exact hq
  | case6 c index step calls h p hp hskip sv0 pidx0 hix0 hsv0 ht c' hstep ih =>
    rw [mainLoop_eq_zero remaining sbc now highIndex c index step calls p sv0
      pidx0 h hp (matches_of_not_skip hskip) hsv0 hix0 ht hstep]
    have ihz : ∀ (i : Nat) (q : SpriteProperties) (sv : SpriteView)
        (pidx : Nat), index + 1 ≤ i → i ≤ highIndex →
        SpanWellFormed (zeroStep c index p sv0 pidx0).sprites (index + 1) i →
        (zeroStep c index p sv0 pidx0).sprites[i]? = some q →
        matchesRemoval q = true → q.spriteView = some sv →
        sv.TransitionTimeMs ≤ now → q.index = some pidx →
        (mainLoop remaining sbc now highIndex (zeroStep c index p sv0 pidx0)
            (index + 1) (step + 1) calls).coord.sprites[i]?
            = some (zeroSprite q sv) ∧
          (mainLoop remaining sbc now highIndex (zeroStep c index p sv0 pidx0)
            (index + 1) (step + 1) calls).coord.needsTextureSyncIndexRange.containsVal pidx
            = true := ih
    intro i q sv pidx hi1 hi2 hwf hq hm hsv hdue hix
    rcases eq_or_ne index i with hii | hii
    · subst hii
      rw [hp] at hq
      have hpq : p = q := Option.some.inj hq
      subst hpq
      rw [hsv0] at hsv
      have hsvq : sv0 = sv := Option.some.inj hsv
      subst hsvq
      rw [hix0] at hix
      have hpidx : pidx0 = pidx := Option.some.inj hix
      subst hpidx
      constructor
      · rw [mainLoop_sprites_preserved remaining sbc now highIndex
          (zeroStep c index p sv0 pidx0) (index + 1) (step + 1) calls
          index (Or.inl (Nat.lt_succ_self index))]
        show (c.sprites.set index (zeroSprite p sv0))[index]?
          = some (zeroSprite p sv0)
        exact List.getElem?_set_eq (getElem?_some_lt hp)
      · refine mainLoop_sync_mono remaining sbc now highIndex pidx0
          (zeroStep c index p sv0 pidx0) (index + 1) (step + 1) calls ?_
        show (c.needsTextureSyncIndexRange.expandToInclude pidx0).containsVal pidx0 = true
        exact NumericRange.containsVal_expand_self c.needsTextureSyncIndexRange
          pidx0
    · refine ihz i q sv pidx (by omega) hi2
        (spanWF_set_below (spanWF_mono_lo hwf (Nat.le_succ index))
          (Nat.lt_succ_self index)) ?_ hm hsv hdue hix
      show (c.sprites.set index (zeroSprite p sv0))[i]? = some q
      rw [List.getElem?_set_ne hii]
      exact hq
  | case7 c index step calls h p hp hskip hcontra =>
    intro i q sv pidx hi1 hi2 hwf hq hm hsv hdue hix
    have hmp := matches_of_not_skip hskip
    obtain ⟨p0, hp0, hreq⟩ := hwf index le_rfl hi1
    rw [hp] at hp0
    have hpp : p = p0 := Option.some.inj hp0
    subst hpp
    obtain ⟨h1, h2⟩ := hreq hmp
    obtain ⟨sv0, hsv0⟩ := Option.isSome_iff_exists.mp h1
    obtain ⟨pidx0, hix0⟩ := Option.isSome_iff_exists.mp h2
    exact (hcontra sv0 pidx0 hsv0 hix0).elim
  | case8 c index step calls h =>
    intro i q sv pidx hi1 hi2 hwf hq hm hsv hdue hix
    omega


/-- Core of the no-loss guarantee for pending sprites: a matching sprite
whose transition time is still in the future is either re-added to both
to-be-removed ranges by the loop, or left for the cleanup pass (the loop
broke off before reaching it, without an error). -/
theorem mainLoop_pending (c : Coordinator) (index step calls : Nat) :
    ∀ (i : Nat) (q : SpriteProperties) (sv : SpriteView),
      index ≤ i → i ≤ highIndex →
      SpanWellFormed c.sprites index i →
      c.sprites[i]? = some q → matchesRemoval q = true →
      q.spriteView = some sv → now < sv.TransitionTimeMs →
      ((mainLoop remaining sbc now highIndex c index step calls).coord.toBeRemovedIndexRange.containsVal i
            = true ∧
          (mainLoop remaining sbc now highIndex c index step calls).coord.toBeRemovedTsRange.containsVal sv.TransitionTimeMs
            = true) ∨
        ((mainLoop remaining sbc now highIndex c index step calls).idx ≤ i ∧
          (mainLoop remaining sbc now highIndex c index step calls).err
            = none) := by
  induction c, index, step, calls using mainLoop.induct remaining sbc now highIndex with
  | case1 c index step calls h hp =>
    intro i q sv hi1 hi2 hwf hq hm hsv hfut
    obtain ⟨p0, hp0, _⟩ := hwf index le_rfl hi1
    rw [hp] at hp0
    exact Option.noConfusion hp0
  | case2 c index step calls h p hp hskip ih =>
    rw [mainLoop_eq_skip remaining sbc now highIndex c index step calls p h hp
      (not_matches_of_skip hskip)]
    intro i q sv hi1 hi2 hwf hq hm hsv hfut
    rcases eq_or_ne index i with hii | hii
    · subst hii
      rw [hp] at hq
      have hpq : p = q := Option.some.inj hq
      subst hpq
      rw [not_matches_of_skip hskip] at hm
      exact Bool.noConfusion hm
    · exact ih i q sv (by omega) hi2 (spanWF_mono_lo hwf (Nat.le_succ index))
        hq hm hsv hfut
  | case3 c index step calls h p hp hskip sv0 pidx0 hix0 hsv0 ht ih =>
    rw [mainLoop_eq_readd remaining sbc now highIndex c index step calls p sv0
      pidx0 h hp (matches_of_not_skip hskip) hsv0 hix0 ht]
    intro i q sv hi1 hi2 hwf hq hm hsv hfut
    rcases eq_or_ne index i with hii | hii
    · subst hii
      rw [hp] at hq
      have hpq : p = q := Option.some.inj hq
      subst hpq
      rw [hsv0] at hsv
      have hsvq : sv0 = sv := Option.some.inj hsv
      subst hsvq
      refine Or.inl ⟨?_, ?_⟩
      · refine mainLoop_tbrIdx_mono remaining sbc now highIndex index _
          (index + 1) step calls ?_
        show (c.toBeRemovedIndexRange.expandToInclude index).containsVal index
          = true
        exact NumericRange.containsVal_expand_self c.toBeRemovedIndexRange
          index
      · refine mainLoop_tbrTs_mono remaining sbc now highIndex
          sv0.TransitionTimeMs _ (index + 1) step calls ?_
        show (c.toBeRemovedTsRange.expandToInclude sv0.TransitionTimeMs).containsVal sv0.TransitionTimeMs
          = true
        exact NumericRange.containsVal_expand_self c.toBeRemovedTsRange
          sv0.TransitionTimeMs
    · exact ih i q sv (by omega) hi2 (spanWF_mono_lo hwf (Nat.le_succ index))
        hq hm hsv hfut
  | case4 c index step calls h p hp hskip sv0 pidx0 hix0 hsv0 ht hstep hrem0 =>
    rw [mainLoop_eq_break remaining sbc now highIndex c index step calls p sv0
      pidx0 h hp (matches_of_not_skip hskip) hsv0 hix0 ht hstep hrem0]
    intro i q sv hi1 hi2 hwf hq hm hsv hfut
    rcases eq_or_ne index i with hii | hii
    · subst hii
      rw [hp] at hq
      have hpq : p = q := Option.some.inj hq
      subst hpq
      rw [hsv0] at hsv
      have hsvq : sv0 = sv := Option.some.inj hsv
      subst hsvq
      omega
    · refine Or.inr ⟨?_, rfl⟩
      show index + 1 ≤ i
      omega
  | case5 c index step calls h p hp hskip sv0 pidx0 hix0 hsv0 ht c' hstep hrem0 ih =>
    rw [mainLoop_eq_zero_checked remaining sbc now highIndex c index step calls
      p sv0 pidx0 h hp (matches_of_not_skip hskip) hsv0 hix0 ht hstep hrem0]
    have ihz : ∀ (i : Nat) (q : SpriteProperties) (sv : SpriteView),
        index + 1 ≤ i → i ≤ highIndex →
        SpanWellFormed (zeroStep c index p sv0 pidx0).sprites (index + 1) i →
        (zeroStep c index p sv0 pidx0).sprites[i]? = some q →
        matchesRemoval q = true → q.spriteView = some sv →
        now < sv.TransitionTimeMs →
        ((mainLoop remaining sbc now highIndex (zeroStep c index p sv0 pidx0)
              (index + 1) (step + 1) (calls + 1)).coord.toBeRemovedIndexRange.containsVal i
              = true ∧
            (mainLoop remaining sbc now highIndex (zeroStep c index p sv0 pidx0)
              (index + 1) (step + 1) (calls + 1)).coord.toBeRemovedTsRange.containsVal sv.TransitionTimeMs
              = true) ∨
          ((mainLoop remaining sbc now highIndex (zeroStep c index p sv0 pidx0)
              (index + 1) (step + 1) (calls + 1)).idx ≤ i ∧
            (mainLoop remaining sbc now highIndex (zeroStep c index p sv0 pidx0)
              (index + 1) (step + 1) (calls + 1)).err = none) := ih
    intro i q sv hi1 hi2 hwf hq hm hsv hfut
    rcases eq_or_ne index i with hii | hii
    · subst hii
      rw [hp] at hq
      have hpq : p = q := Option.some.inj hq
      subst hpq
      rw [hsv0] at hsv
      have hsvq : sv0 = sv := Option.some.inj hsv
      subst hsvq
      omega
    · refine ihz i q sv (by omega) hi2
        (spanWF_set_below (spanWF_mono_lo hwf (Nat.le_succ index))
          (Nat.lt_succ_self index)) ?_ hm hsv hfut
      show (c.sprites.set index (zeroSprite p sv0))[i]? = some q
      rw [List.getElem?_set_ne hii]
      exact hq
  | case6 c index step calls h p hp hskip sv0 pidx0 hix0 hsv0 ht c' hstep ih =>
    rw [mainLoop_eq_zero remaining sbc now highIndex c index step calls p sv0
      pidx0 h hp (matches_of_not_skip hskip) hsv0 hix0 ht hstep]
    have ihz : ∀ (i : Nat) (q : SpriteProperties) (sv : SpriteView),
        index + 1 ≤ i → i ≤ highIndex →
        SpanWellFormed (zeroStep c index p sv0 pidx0).sprites (index + 1) i →
        (zeroStep c index p sv0 pidx0).sprites[i]? = some q →
        matchesRemoval q = true → q.spriteView = some sv →
        now < sv.TransitionTimeMs →
        ((mainLoop remaining sbc now highIndex (zeroStep c index p sv0 pidx0)
              (index + 1) (step + 1) calls).coord.toBeRemovedIndexRange.containsVal i
              = true ∧
            (mainLoop remaining sbc now highIndex (zeroStep c index p sv0 pidx0)
              (index + 1) (step + 1) calls).coord.toBeRemovedTsRange.containsVal sv.TransitionTimeMs
              = true) ∨
          ((mainLoop remaining sbc now highIndex (zeroStep c index p sv0 pidx0)
              (index + 1) (step + 1) calls).idx ≤ i ∧
            (mainLoop remaining sbc now highIndex (zeroStep c index p sv0 pidx0)
              (index + 1) (step + 1) calls).err = none) := ih
    intro i q sv hi1 hi2 hwf hq hm hsv hfut
    rcases eq_or_ne index i with hii | hii
    · subst hii
      rw [hp] at hq
      have hpq : p = q := Option.some.inj hq
      subst hpq
      rw [hsv0] at hsv
      have hsvq : sv0 = sv := Option.some.inj hsv
      subst hsvq
      omega
    · refine ihz i q sv (by omega) hi2
        (spanWF_set_below (spanWF_mono_lo hwf (Nat.le_succ index))
          (Nat.lt_succ_self index)) ?_ hm hsv hfut
      show (c.sprites.set index (zeroSprite p sv0))[i]? = some q
      rw [List.getElem?_set_ne hii]
      exact hq
  | case7 c index step calls h p hp hskip hcontra =>
    intro i q sv hi1 hi2 hwf hq hm hsv hfut
    have hmp := matches_of_not_skip hskip
    obtain ⟨p0, hp0, hreq⟩ := hwf index le_rfl hi1
    rw [hp] at hp0
    have hpp : p = p0 := Option.some.inj hp0
    subst hpp
    obtain ⟨h1, h2⟩ := hreq hmp
    obtain ⟨sv0, hsv0⟩ := Option.isSome_iff_exists.mp h1
    obtain ⟨pidx0, hix0⟩ := Option.isSome_iff_exists.mp h2
    exact (hcontra sv0 pidx0 hsv0 hix0).elim
  | case8 c index step calls h =>
    intro i q sv hi1 hi2 hwf hq hm hsv hfut
    omega


/-- With a positive budget and a well-formed prefix, the loop reaches a
matching sprite that lacks its view or index, and throws there. -/
theorem mainLoop_err_at (hrem : ∀ n, 0 < remaining n) (c : Coordinator)
    (index step calls : Nat) :
    ∀ (j : Nat) (q : SpriteProperties), index ≤ j → j ≤ highIndex →
      (∀ k, index ≤ k → k < j → ∃ w, c.sprites[k]? = some w ∧
        (matchesRemoval w = true →
          w.spriteView.isSome = true ∧ w.index.isSome = true)) →
      c.sprites[j]? = some q → matchesRemoval q = true →
      (q.spriteView = none ∨ q.index = none) →
      (mainLoop remaining sbc now highIndex c index step calls).err
          = some RunError.missingProperties ∧
        (mainLoop remaining sbc now highIndex c index step calls).idx
          = j + 1 := by
  induction c, index, step, calls using mainLoop.induct remaining sbc now highIndex with
  | case1 c index step calls h hp =>
    intro j q hj1 hj2 hwf hq hm hfault
    rcases eq_or_ne index j with hij | hij
    · subst hij
      rw [hp] at hq
      exact Option.noConfusion hq
    · obtain ⟨p0, hp0, _⟩ := hwf index le_rfl (by omega)
      rw [hp] at hp0
      exact Option.noConfusion hp0
  | case2 c index step calls h p hp hskip ih =>
    rw [mainLoop_eq_skip remaining sbc now highIndex c index step calls p h hp
      (not_matches_of_skip hskip)]
    intro j q hj1 hj2 hwf hq hm hfault
    rcases eq_or_ne index j with hij | hij
    · subst hij
      rw [hp] at hq
      have hpq : p = q := Option.some.inj hq
      subst hpq
      rw [not_matches_of_skip hskip] at hm
      exact Bool.noConfusion hm
    · exact ih j q (by omega) hj2 (fun k hk1 hk2 => hwf k (by omega) hk2) hq
        hm hfault
  | case3 c index step calls h p hp hskip sv0 pidx0 hix0 hsv0 ht ih =>
    rw [mainLoop_eq_readd remaining sbc now highIndex c index step calls p sv0
      pidx0 h hp (matches_of_not_skip hskip) hsv0 hix0 ht]
    intro j q hj1 hj2 hwf hq hm hfault
    rcases eq_or_ne index j with hij | hij
    · subst hij
      rw [hp] at hq
      have hpq : p = q := Option.some.inj hq
      subst hpq
      rcases hfault with hf | hf
      · rw [hsv0] at hf
        exact Option.noConfusion hf
      · rw [hix0] at hf
        exact Option.noConfusion hf
    · exact ih j q (by omega) hj2 (fun k hk1 hk2 => hwf k (by omega) hk2) hq
        hm hfault
  | case4 c index step calls h p hp hskip sv0 pidx0 hix0 hsv0 ht hstep hrem0 =>
    intro j q hj1 hj2 hwf hq hm hfault
    have := hrem calls
    omega
  | case5 c index step calls h p hp hskip sv0 pidx0 hix0 hsv0 ht c' hstep hrem0 ih =>
    rw [mainLoop_eq_zero_checked remaining sbc now highIndex c index step calls
      p sv0 pidx0 h hp (matches_of_not_skip hskip) hsv0 hix0 ht hstep hrem0]
    have ihz : ∀ (j : Nat) (q : SpriteProperties), index + 1 ≤ j →
        j ≤ highIndex →
        (∀ k, index + 1 ≤ k → k < j →
          ∃ w, (zeroStep c index p sv0 pidx0).sprites[k]? = some w ∧
            (matchesRemoval w = true →
              w.spriteView.isSome = true ∧ w.index.isSome = true)) →
        (zeroStep c index p sv0 pidx0).sprites[j]? = some q →
        matchesRemoval q = true → (q.spriteView = none ∨ q.index = none) →
        (mainLoop remaining sbc now highIndex (zeroStep c index p sv0 pidx0)
            (index + 1) (step + 1) (calls + 1)).err
            = some RunError.missingProperties ∧
          (mainLoop remaining sbc now highIndex (zeroStep c index p sv0 pidx0)
            (index + 1) (step + 1) (calls + 1)).idx = j + 1 := ih
    intro j q hj1 hj2 hwf hq hm hfault
    rcases eq_or_ne index j with hij | hij
    · subst hij
      rw [hp] at hq
      have hpq : p = q := Option.some.inj hq
      subst hpq
      rcases hfault with hf | hf
      · rw [hsv0] at hf
        exact Option.noConfusion hf
      · rw [hix0] at hf
        exact Option.noConfusion hf
    · refine ihz j q (by omega) hj2 ?wfz ?_ hm hfault
      case wfz =>
        intro k hk1 hk2
        obtain ⟨w, hw, hreq⟩ := hwf k (by omega) hk2
        refine ⟨w, ?_, hreq⟩
        show (c.sprites.set index (zeroSprite p sv0))[k]? = some w
        rw [List.getElem?_set_ne (by omega : index ≠ k)]
        exact hw
      show (c.sprites.set index (zeroSprite p sv0))[j]? = some q
      rw [List.getElem?_set_ne hij]
      exact hq
  | case6 c index step calls h p hp hskip sv0 pidx0 hix0 hsv0 ht c' hstep ih =>
    rw [mainLoop_eq_zero remaining sbc now highIndex c index step calls p sv0
      pidx0 h hp (matches_of_not_skip hskip) hsv0 hix0 ht hstep]
    have ihz : ∀ (j : Nat) (q : SpriteProperties), index + 1 ≤ j →
        j ≤ highIndex →
        (∀ k, index + 1 ≤ k → k < j →
          ∃ w, (zeroStep c index p sv0 pidx0).sprites[k]? = some w ∧
            (matchesRemoval w = true →
              w.spriteView.isSome = true ∧ w.index.isSome = true)) →
        (zeroStep c index p sv0 pidx0).sprites[j]? = some q →
        matchesRemoval q = true → (q.spriteView = none ∨ q.index = none) →
        (mainLoop remaining sbc now highIndex (zeroStep c index p sv0 pidx0)
            (index + 1) (step + 1) calls).err
            = some RunError.missingProperties ∧
          (mainLoop remaining sbc now highIndex (zeroStep c index p sv0 pidx0)
            (index + 1) (step + 1) calls).idx = j + 1 := ih
    intro j q hj1 hj2 hwf hq hm hfault
    rcases eq_or_ne index j with hij | hij
    · subst hij
      rw [hp] at hq
      have hpq : p = q := Option.some.inj hq
      subst hpq
      rcases hfault with hf | hf
      · rw [hsv0] at hf
        exact Option.noConfusion hf
      · rw [hix0] at hf
        exact Option.noConfusion hf
    · refine ihz j q (by omega) hj2 ?wfz ?_ hm hfault
      case wfz =>
        intro k hk1 hk2
        obtain ⟨w, hw, hreq⟩ := hwf k (by omega) hk2
        refine ⟨w, ?_, hreq⟩
        show (c.sprites.set index (zeroSprite p sv0))[k]? = some w
        rw [List.getElem?_set_ne (by omega : index ≠ k)]
        exact hw
      show (c.sprites.set index (zeroSprite p sv0))[j]? = some q
      rw [List.getElem?_set_ne hij]
      exact hq
  | case7 c index step calls h p hp hskip hcontra =>
    intro j q hj1 hj2 hwf hq hm hfault
    have hmp := matches_of_not_skip hskip
    rcases eq_or_ne index j with hij | hij
    · subst hij
      rw [mainLoop_eq_missing remaining sbc now highIndex c index step calls p
        h hp hmp ?hv]
      case hv =>
        rcases hsv : p.spriteView with _ | sv
        · exact Or.inl rfl
        · rcases hix : p.index with _ | pidx
          · exact Or.inr rfl
          · exact absurd trivial (fun _ => hcontra sv pidx hsv hix)
      exact ⟨rfl, rfl⟩
    · obtain ⟨p0, hp0, hreq⟩ := hwf index le_rfl (by omega)
      rw [hp] at hp0
      have hpp : p = p0 := Option.some.inj hp0
      subst hpp
      obtain ⟨h1, h2⟩ := hreq hmp
      obtain ⟨sv0, hsv0⟩ := Option.isSome_iff_exists.mp h1
      obtain ⟨pidx0, hix0⟩ := Option.isSome_iff_exists.mp h2
      exact (hcontra sv0 pidx0 hsv0 hix0).elim
  | case8 c index step calls h =>
    intro j q hj1 hj2 hwf hq hm hfault
    omega

/-- With an exhausted budget from the first check onward, the loop mutates
at most `sbc - step + 1` sprites: there is a short list of indices outside
which every sprite is untouched. -/
theorem mainLoop_mutation_bound (hneg : ∀ n, remaining n ≤ 0)
    (c : Coordinator) (index step calls : Nat) :
    1 ≤ step → step ≤ sbc →
      ∃ l : List Nat, l.length + step ≤ sbc + 1 ∧
        ∀ j : Nat,
          (mainLoop remaining sbc now highIndex c index step calls).coord.sprites[j]?
            ≠ c.sprites[j]? → j ∈ l := by
  induction c, index, step, calls using mainLoop.induct remaining sbc now highIndex with
  | case1 c index step calls h hp =>
    rw [mainLoop_eq_oob remaining sbc now highIndex c index step calls h hp]
    intro h1 h2
    exact ⟨[], by simp only [List.length_nil]; omega, fun j hj => absurd rfl hj⟩
  | case2 c index step calls h p hp hskip ih =>
    rw [mainLoop_eq_skip remaining sbc now highIndex c index step calls p h hp
      (not_matches_of_skip hskip)]
    exact ih
  | case3 c index step calls h p hp hskip sv0 pidx0 hix0 hsv0 ht ih =>
    rw [mainLoop_eq_readd remaining sbc now highIndex c index step calls p sv0
      pidx0 h hp (matches_of_not_skip hskip) hsv0 hix0 ht]
    exact ih
  | case4 c index step calls h p hp hskip sv0 pidx0 hix0 hsv0 ht hstep hrem0 =>
    rw [mainLoop_eq_break remaining sbc now highIndex c index step calls p sv0
      pidx0 h hp (matches_of_not_skip hskip) hsv0 hix0 ht hstep hrem0]
    intro h1 h2
    refine ⟨[index], by simp; omega, ?_⟩
    intro j hj
    rcases eq_or_ne j index with hji | hji
    · rw [hji]
      exact List.mem_cons_self index []
    · exfalso
      apply hj
      show (c.sprites.set index (zeroSprite p sv0))[j]? = c.sprites[j]?
      exact List.getElem?_set_ne (Ne.symm hji)
  | case5 c index step calls h p hp hskip sv0 pidx0 hix0 hsv0 ht c' hstep hrem0 ih =>
    exact absurd (hneg calls) hrem0
  | case6 c index step calls h p hp hskip sv0 pidx0 hix0 hsv0 ht c' hstep ih =>
    rw [mainLoop_eq_zero remaining sbc now highIndex c index step calls p sv0
      pidx0 h hp (matches_of_not_skip hskip) hsv0 hix0 ht hstep]
    have ihz : 1 ≤ step + 1 → step + 1 ≤ sbc →
        ∃ l : List Nat, l.length + (step + 1) ≤ sbc + 1 ∧
          ∀ j : Nat,
            (mainLoop remaining sbc now highIndex (zeroStep c index p sv0 pidx0)
              (index + 1) (step + 1) calls).coord.sprites[j]?
              ≠ (zeroStep c index p sv0 pidx0).sprites[j]? → j ∈ l := ih
    intro h1 h2
    have hlt : step < sbc := by
      rcases eq_or_lt_of_le h2 with he | hl
      · exact absurd (by rw [he]; exact Nat.mod_self sbc) hstep
      · exact hl
    obtain ⟨l, hlen, hmem⟩ := ihz (by omega) (by omega)
    refine ⟨index :: l, by simp; omega, ?_⟩
    intro j hj
    by_cases hd : (mainLoop remaining sbc now highIndex
        (zeroStep c index p sv0 pidx0) (index + 1) (step + 1)
        calls).coord.sprites[j]? = (zeroStep c index p sv0 pidx0).sprites[j]?
    · rcases eq_or_ne j index with hji | hji
      · rw [hji]
        exact List.mem_cons_self index l
      · exfalso
        apply hj
        rw [hd]
        show (c.sprites.set index (zeroSprite p sv0))[j]? = c.sprites[j]?
        exact List.getElem?_set_ne (Ne.symm hji)
    · exact List.mem_cons_of_mem index (hmem j hd)
  | case7 c index step calls h p hp hskip hcontra =>
    have hm := matches_of_not_skip hskip
    have hv : p.spriteView = none ∨ p.index = none := by
      rcases hsv : p.spriteView with _ | sv
      · exact Or.inl rfl
      · rcases hix : p.index with _ | pidx
        · exact Or.inr rfl
        · exact absurd trivial (fun _ => hcontra sv pidx hsv hix)
    rw [mainLoop_eq_missing remaining sbc now highIndex c index step calls p h
      hp hm hv]
    intro h1 h2
    exact ⟨[], by simp only [List.length_nil]; omega, fun j hj => absurd rfl hj⟩
  | case8 c index step calls h =>
    rw [mainLoop_eq_exit remaining sbc now highIndex c index step calls h]
    intro h1 h2
    exact ⟨[], by simp only [List.length_nil]; omega, fun j hj => absurd rfl hj⟩

end MainLoopStructure


/-! ## Structural lemmas about the cleanup loop -/

section CleanupLoopStructure

variable (highIndex : Nat)

/-- The cleanup loop never modifies the sprite pool. -/
theorem cleanupLoop_sprites_eq (c : Coordinator) (i : Nat) :
    (cleanupLoop highIndex c i).1.sprites = c.sprites := by
  induction c, i using cleanupLoop.induct highIndex with
  | case1 c i h hp =>
    rw [cleanupLoop_eq_oob highIndex c i h hp]
  | case2 c i h p hp hskip ih =>
    rw [cleanupLoop_eq_skip highIndex c i p h hp (not_matches_of_skip hskip)]
    exact ih
  | case3 c i h p hp hskip hv =>
    rw [cleanupLoop_eq_missing highIndex c i p h hp
      (matches_of_not_skip hskip) hv]
  | case4 c i h p hp hskip sv hsv ih =>
    rw [cleanupLoop_eq_readd highIndex c i p sv h hp
      (matches_of_not_skip hskip) hsv]
    exact ih
  | case5 c i h =>
    rw [cleanupLoop_eq_exit highIndex c i h]

/-- The cleanup loop never touches the removal-task queue counter. -/
theorem cleanupLoop_queued_removal (c : Coordinator) (i : Nat) :
    (cleanupLoop highIndex c i).1.queuedRemovalTasks
      = c.queuedRemovalTasks := by
  induction c, i using cleanupLoop.induct highIndex with
  | case1 c i h hp =>
    rw [cleanupLoop_eq_oob highIndex c i h hp]
  | case2 c i h p hp hskip ih =>
    rw [cleanupLoop_eq_skip highIndex c i p h hp (not_matches_of_skip hskip)]
    exact ih
  | case3 c i h p hp hskip hv =>
    rw [cleanupLoop_eq_missing highIndex c i p h hp
      (matches_of_not_skip hskip) hv]
  | case4 c i h p hp hskip sv hsv ih =>
    rw [cleanupLoop_eq_readd highIndex c i p sv h hp
      (matches_of_not_skip hskip) hsv]
    exact ih
  | case5 c i h =>
    rw [cleanupLoop_eq_exit highIndex c i h]

/-- The cleanup loop never touches the texture-sync queue counter. -/
theorem cleanupLoop_queued_sync (c : Coordinator) (i : Nat) :
    (cleanupLoop highIndex c i).1.queuedTextureSyncs
      = c.queuedTextureSyncs := by
  induction c, i using cleanupLoop.induct highIndex with
  | case1 c i h hp =>
    rw [cleanupLoop_eq_oob highIndex c i h hp]
  | case2 c i h p hp hskip ih =>
    rw [cleanupLoop_eq_skip highIndex c i p h hp (not_matches_of_skip hskip)]
    exact ih
  | case3 c i h p hp hskip hv =>
    rw [cleanupLoop_eq_missing highIndex c i p h hp
      (matches_of_not_skip hskip) hv]
  | case4 c i h p hp hskip sv hsv ih =>
    rw [cleanupLoop_eq_readd highIndex c i p sv h hp
      (matches_of_not_skip hskip) hsv]
    exact ih
  | case5 c i h =>
    rw [cleanupLoop_eq_exit highIndex c i h]

/-- The cleanup loop never touches the needs-texture-sync range. -/
theorem cleanupLoop_sync_eq (c : Coordinator) (i : Nat) :
    (cleanupLoop highIndex c i).1.needsTextureSyncIndexRange
      = c.needsTextureSyncIndexRange := by
  induction c, i using cleanupLoop.induct highIndex with
  | case1 c i h hp =>
    rw [cleanupLoop_eq_oob highIndex c i h hp]
  | case2 c i h p hp hskip ih =>
    rw [cleanupLoop_eq_skip highIndex c i p h hp (not_matches_of_skip hskip)]
    exact ih
  | case3 c i h p hp hskip hv =>
    rw [cleanupLoop_eq_missing highIndex c i p h hp
      (matches_of_not_skip hskip) hv]
  | case4 c i h p hp hskip sv hsv ih =>
    rw [cleanupLoop_eq_readd highIndex c i p sv h hp
      (matches_of_not_skip hskip) hsv]
    exact ih
  | case5 c i h =>
    rw [cleanupLoop_eq_exit highIndex c i h]

/-- Values represented in the to-be-removed index range stay represented
through the cleanup loop. -/
theorem cleanupLoop_tbrIdx_mono (v : Nat) (c : Coordinator) (i : Nat) :
    c.toBeRemovedIndexRange.containsVal v = true →
      (cleanupLoop highIndex c i).1.toBeRemovedIndexRange.containsVal v
        = true := by
  induction c, i using cleanupLoop.induct highIndex with
  | case1 c i h hp =>
    rw [cleanupLoop_eq_oob highIndex c i h hp]
    exact id
  | case2 c i h p hp hskip ih =>
    rw [cleanupLoop_eq_skip highIndex c i p h hp (not_matches_of_skip hskip)]
    exact ih
  | case3 c i h p hp hskip hv =>
    rw [cleanupLoop_eq_missing highIndex c i p h hp
      (matches_of_not_skip hskip) hv]
    exact id
  | case4 c i h p hp hskip sv hsv ih =>
    rw [cleanupLoop_eq_readd highIndex c i p sv h hp
      (matches_of_not_skip hskip) hsv]
    intro hv2
    exact ih (NumericRange.containsVal_expand_mono c.toBeRemovedIndexRange i v
      hv2)
  | case5 c i h =>
    rw [cleanupLoop_eq_exit highIndex c i h]
    exact id

/-- Values represented in the to-be-removed timestamp range stay
represented through the cleanup loop. -/
theorem cleanupLoop_tbrTs_mono (v : Int) (c : Coordinator) (i : Nat) :
    c.toBeRemovedTsRange.containsVal v = true →
      (cleanupLoop highIndex c i).1.toBeRemovedTsRange.containsVal v
        = true := by
  induction c, i using cleanupLoop.induct highIndex with
  | case1 c i h hp =>
    rw [cleanupLoop_eq_oob highIndex c i h hp]
    exact id
  | case2 c i h p hp hskip ih =>
    rw [cleanupLoop_eq_skip highIndex c i p h hp (not_matches_of_skip hskip)]
    exact ih
  | case3 c i h p hp hskip hv =>
    rw [cleanupLoop_eq_missing highIndex c i p h hp
      (matches_of_not_skip hskip) hv]
    exact id
  | case4 c i h p hp hskip sv hsv ih =>
    rw [cleanupLoop_eq_readd highIndex c i p sv h hp
      (matches_of_not_skip hskip) hsv]
    intro hv2
    exact ih (NumericRange.containsVal_expand_mono c.toBeRemovedTsRange
      sv.TransitionTimeMs v hv2)
  | case5 c i h =>
    rw [cleanupLoop_eq_exit highIndex c i h]
    exact id

/-- The cleanup loop expands the two to-be-removed ranges in lockstep. -/
theorem cleanupLoop_defined_together (c : Coordinator) (i : Nat) :
    c.toBeRemovedIndexRange.isDefined = c.toBeRemovedTsRange.isDefined →
      (cleanupLoop highIndex c i).1.toBeRemovedIndexRange.isDefined
        = (cleanupLoop highIndex c i).1.toBeRemovedTsRange.isDefined := by
  induction c, i using cleanupLoop.induct highIndex with
  | case1 c i h hp =>
    rw [cleanupLoop_eq_oob highIndex c i h hp]
    exact id
  | case2 c i h p hp hskip ih =>
    rw [cleanupLoop_eq_skip highIndex c i p h hp (not_matches_of_skip hskip)]
    exact ih
  | case3 c i h p hp hskip hv =>
    rw [cleanupLoop_eq_missing highIndex c i p h hp
      (matches_of_not_skip hskip) hv]
    exact id
  | case4 c i h p hp hskip sv hsv ih =>
    rw [cleanupLoop_eq_readd highIndex c i p sv h hp
      (matches_of_not_skip hskip) hsv]
    intro _
    refine ih ?_
    show (c.toBeRemovedIndexRange.expandToInclude i).isDefined
      = (c.toBeRemovedTsRange.expandToInclude sv.TransitionTimeMs).isDefined
    rw [NumericRange.isDefined_expand, NumericRange.isDefined_expand]
  | case5 c i h =>
    rw [cleanupLoop_eq_exit highIndex c i h]
    exact id

/-- On a well-formed span the cleanup loop never throws. -/
theorem cleanupLoop_noerr (c : Coordinator) (i : Nat) :
    SpanWellFormed c.sprites i highIndex →
      (cleanupLoop highIndex c i).2 = none := by
  induction c, i using cleanupLoop.induct highIndex with
  | case1 c i h hp =>
    intro hwf
    obtain ⟨p0, hp0, _⟩ := hwf i le_rfl h
    rw [hp] at hp0
    exact Option.noConfusion hp0
  | case2 c i h p hp hskip ih =>
    rw [cleanupLoop_eq_skip highIndex c i p h hp (not_matches_of_skip hskip)]
    intro hwf
    exact ih (spanWF_mono_lo hwf (Nat.le_succ i))
  | case3 c i h p hp hskip hv =>
    intro hwf
    obtain ⟨p0, hp0, hreq⟩ := hwf i le_rfl h
    rw [hp] at hp0
    have hpp : p = p0 := Option.some.inj hp0
    subst hpp
    obtain ⟨h1, _⟩ := hreq (matches_of_not_skip hskip)
    rw [hv] at h1
    exact Bool.noConfusion h1
  | case4 c i h p hp hskip sv hsv ih =>
    rw [cleanupLoop_eq_readd highIndex c i p sv h hp
      (matches_of_not_skip hskip) hsv]
    intro hwf
    exact ih (spanWF_mono_lo hwf (Nat.le_succ i))
  | case5 c i h =>
    rw [cleanupLoop_eq_exit highIndex c i h]
    intro _
    rfl

/-- The cleanup loop re-adds every matching sprite of a well-formed span
to both to-be-removed ranges. -/
theorem cleanupLoop_pending (c : Coordinator) (i : Nat) :
    ∀ (k : Nat) (q : SpriteProperties) (sv : SpriteView),
      i ≤ k → k ≤ highIndex →
      SpanWellFormed c.sprites i k →
      c.sprites[k]? = some q → matchesRemoval q = true →
      q.spriteView = some sv →
      (cleanupLoop highIndex c i).1.toBeRemovedIndexRange.containsVal k
          = true ∧
        (cleanupLoop highIndex c i).1.toBeRemovedTsRange.containsVal sv.TransitionTimeMs
          = true := by
  induction c, i using cleanupLoop.induct highIndex with
  | case1 c i h hp =>
    intro k q sv hk1 hk2 hwf hq hm hsv
    obtain ⟨p0, hp0, _⟩ := hwf i le_rfl hk1
    rw [hp] at hp0
    exact Option.noConfusion hp0
  | case2 c i h p hp hskip ih =>
    rw [cleanupLoop_eq_skip highIndex c i p h hp (not_matches_of_skip hskip)]
    intro k q sv hk1 hk2 hwf hq hm hsv
    rcases eq_or_ne i k with hik | hik
    · subst hik
      rw [hp] at hq
      have hpq : p = q := Option.some.inj hq
      subst hpq
      rw [not_matches_of_skip hskip] at hm
      exact Bool.noConfusion hm
    · exact ih k q sv (by omega) hk2 (spanWF_mono_lo hwf (Nat.le_succ i)) hq
        hm hsv
  | case3 c i h p hp hskip hv =>
    intro k q sv hk1 hk2 hwf hq hm hsv
    obtain ⟨p0, hp0, hreq⟩ := hwf i le_rfl hk1
    rw [hp] at hp0
    have hpp : p = p0 := Option.some.inj hp0
    subst hpp
    obtain ⟨h1, _⟩ := hreq (matches_of_not_skip hskip)
    rw [hv] at h1
    exact Bool.noConfusion h1
  | case4 c i h p hp hskip sv0 hsv0 ih =>
    rw [cleanupLoop_eq_readd highIndex c i p sv0 h hp
      (matches_of_not_skip hskip) hsv0]
    intro k q sv hk1 hk2 hwf hq hm hsv
    rcases eq_or_ne i k with hik | hik
    · subst hik
      rw [hp] at hq
      have hpq : p = q := Option.some.inj hq
      subst hpq
      rw [hsv0] at hsv
      have hsvq : sv0 = sv := Option.some.inj hsv
      subst hsvq
      constructor
      · refine cleanupLoop_tbrIdx_mono highIndex i _ (i + 1) ?_
        show (c.toBeRemovedIndexRange.expandToInclude i).containsVal i = true
        exact NumericRange.containsVal_expand_self c.toBeRemovedIndexRange i
      · refine cleanupLoop_tbrTs_mono highIndex sv0.TransitionTimeMs _
          (i + 1) ?_
        show (c.toBeRemovedTsRange.expandToInclude sv0.TransitionTimeMs).containsVal sv0.TransitionTimeMs
          = true
        exact NumericRange.containsVal_expand_self c.toBeRemovedTsRange
          sv0.TransitionTimeMs
    · exact ih k q sv (by omega) hk2 (spanWF_mono_lo hwf (Nat.le_succ i)) hq
        hm hsv
  | case5 c i h =>
    intro k q sv hk1 hk2 hwf hq hm hsv
    omega

end CleanupLoopStructure


/-- The queue-scheduling checks at the end of the `finally` block (source
lines 165-173): schedule texture sync when its range is defined, and
reschedule the removal task when the to-be-removed index range is
defined. -/
def queueChecks (c3 : Coordinator) : Coordinator :=
  let c4 :=
    if c3.needsTextureSyncIndexRange.isDefined then
      { c3 with queuedTextureSyncs := c3.queuedTextureSyncs + 1 }
    else c3
  if c4.toBeRemovedIndexRange.isDefined then
    { c4 with queuedRemovalTasks := c4.queuedRemovalTasks + 1 }
  else c4

theorem queueChecks_sprites (c3 : Coordinator) :
    (queueChecks c3).sprites = c3.sprites := by
  unfold queueChecks
  by_cases h1 : c3.needsTextureSyncIndexRange.isDefined <;>
    simp only [h1, if_true, if_false] <;>
    by_cases h2 : c3.toBeRemovedIndexRange.isDefined <;>
    simp [h2]

theorem queueChecks_tbrIdx (c3 : Coordinator) :
    (queueChecks c3).toBeRemovedIndexRange = c3.toBeRemovedIndexRange := by
  unfold queueChecks
  by_cases h1 : c3.needsTextureSyncIndexRange.isDefined <;>
    simp only [h1, if_true, if_false] <;>
    by_cases h2 : c3.toBeRemovedIndexRange.isDefined <;>
    simp [h2]

theorem queueChecks_tbrTs (c3 : Coordinator) :
    (queueChecks c3).toBeRemovedTsRange = c3.toBeRemovedTsRange := by
  unfold queueChecks
  by_cases h1 : c3.needsTextureSyncIndexRange.isDefined <;>
    simp only [h1, if_true, if_false] <;>
    by_cases h2 : c3.toBeRemovedIndexRange.isDefined <;>
    simp [h2]

theorem queueChecks_sync (c3 : Coordinator) :
    (queueChecks c3).needsTextureSyncIndexRange
      = c3.needsTextureSyncIndexRange := by
  unfold queueChecks
  by_cases h1 : c3.needsTextureSyncIndexRange.isDefined <;>
    simp only [h1, if_true, if_false] <;>
    by_cases h2 : c3.toBeRemovedIndexRange.isDefined <;>
    simp [h2]

theorem queueChecks_queued_sync (c3 : Coordinator) :
    (queueChecks c3).queuedTextureSyncs = c3.queuedTextureSyncs
      + (if c3.needsTextureSyncIndexRange.isDefined then 1 else 0) := by
  unfold queueChecks
  by_cases h1 : c3.needsTextureSyncIndexRange.isDefined <;>
    simp only [h1, if_true, if_false] <;>
    by_cases h2 : c3.toBeRemovedIndexRange.isDefined <;>
    simp [h2]

theorem queueChecks_queued_removal (c3 : Coordinator) :
    (queueChecks c3).queuedRemovalTasks = c3.queuedRemovalTasks
      + (if c3.toBeRemovedIndexRange.isDefined then 1 else 0) := by
  unfold queueChecks
  by_cases h1 : c3.needsTextureSyncIndexRange.isDefined <;>
    simp only [h1, if_true, if_false] <;>
    by_cases h2 : c3.toBeRemovedIndexRange.isDefined <;>
    simp [h2]

/-! ## Unfolding equations for `runRemoval` -/

/-- Precondition failure: either governing dirty range undefined. -/
theorem runRemoval_eq_norange (c0 : Coordinator) (remaining : Nat → Int)
    (sbc : Nat) (now : Int)
    (h : c0.toBeRemovedIndexRange.isDefined = false ∨
      c0.toBeRemovedTsRange.isDefined = false) :
    runRemoval c0 remaining sbc now = (c0, some RunError.noSpritesQueued) := by
  rcases hb1 : c0.toBeRemovedIndexRange.bounds with _ | lh1
  · simp only [runRemoval, hb1]
  · rcases hb2 : c0.toBeRemovedTsRange.bounds with _ | lh2
    · obtain ⟨lo, hi⟩ := lh1
      simp only [runRemoval, hb1, hb2]
    · exfalso
      rcases h with h | h
      · rw [NumericRange.isDefined, hb1] at h
        exact Bool.noConfusion h
      · rw [NumericRange.isDefined, hb2] at h
        exact Bool.noConfusion h

/-- Early return: no marked sprite has reached its target time yet. -/
theorem runRemoval_eq_early (c0 : Coordinator) (remaining : Nat → Int)
    (sbc : Nat) (now : Int) (lo hi : Nat) (lowTs hiTs : Int)
    (hb1 : c0.toBeRemovedIndexRange.bounds = some (lo, hi))
    (hb2 : c0.toBeRemovedTsRange.bounds = some (lowTs, hiTs))
    (hnow : now < lowTs) :
    runRemoval c0 remaining sbc now =
      ({ c0 with queuedRemovalTasks := c0.queuedRemovalTasks + 1 }, none) := by
  simp only [runRemoval, hb1, hb2, if_pos hnow]

/-- Main path with a fault inside the cleanup pass: the queue checks are
skipped and the cleanup error propagates. -/
theorem runRemoval_eq_cleanup_fault (c0 : Coordinator)
    (remaining : Nat → Int) (sbc : Nat) (now : Int) (lo hi : Nat)
    (lowTs hiTs : Int) (c3 : Coordinator) (e : RunError)
    (hb1 : c0.toBeRemovedIndexRange.bounds = some (lo, hi))
    (hb2 : c0.toBeRemovedTsRange.bounds = some (lowTs, hiTs))
    (hnow : ¬ now < lowTs)
    (hcl : cleanupLoop hi
        (mainLoop remaining sbc now hi
          { c0 with
            toBeRemovedIndexRange := NumericRange.empty,
            toBeRemovedTsRange := NumericRange.empty } lo 1 0).coord
        (mainLoop remaining sbc now hi
          { c0 with
            toBeRemovedIndexRange := NumericRange.empty,
            toBeRemovedTsRange := NumericRange.empty } lo 1 0).idx
        = (c3, some e)) :
    runRemoval c0 remaining sbc now = (c3, some e) := by
  simp only [runRemoval, hb1, hb2, if_neg hnow, hcl]

/-- Main path with a fault-free cleanup: queue checks run, and the main
loop's own error (if any) propagates. -/
theorem runRemoval_eq_main (c0 : Coordinator) (remaining : Nat → Int)
    (sbc : Nat) (now : Int) (lo hi : Nat) (lowTs hiTs : Int)
    (c3 : Coordinator)
    (hb1 : c0.toBeRemovedIndexRange.bounds = some (lo, hi))
    (hb2 : c0.toBeRemovedTsRange.bounds = some (lowTs, hiTs))
    (hnow : ¬ now < lowTs)
    (hcl : cleanupLoop hi
        (mainLoop remaining sbc now hi
          { c0 with
            toBeRemovedIndexRange := NumericRange.empty,
            toBeRemovedTsRange := NumericRange.empty } lo 1 0).coord
        (mainLoop remaining sbc now hi
          { c0 with
            toBeRemovedIndexRange := NumericRange.empty,
            toBeRemovedTsRange := NumericRange.empty } lo 1 0).idx
        = (c3, none)) :
    runRemoval c0 remaining sbc now =
      (queueChecks c3,
        (mainLoop remaining sbc now hi
          { c0 with
            toBeRemovedIndexRange := NumericRange.empty,
            toBeRemovedTsRange := NumericRange.empty } lo 1 0).err) := by
  simp only [runRemoval, hb1, hb2, if_neg hnow, hcl]
  rfl


/-- On the main path, the final sprite pool is exactly the pool produced
by the main loop: neither the cleanup pass nor the queue checks touch
sprites. -/
theorem runRemoval_sprites_eq_mainLoop (c0 : Coordinator)
    (remaining : Nat → Int) (sbc : Nat) (now : Int) (lo hi : Nat)
    (lowTs hiTs : Int)
    (hb1 : c0.toBeRemovedIndexRange.bounds = some (lo, hi))
    (hb2 : c0.toBeRemovedTsRange.bounds = some (lowTs, hiTs))
    (hnow : ¬ now < lowTs) :
    (runRemoval c0 remaining sbc now).1.sprites
      = (mainLoop remaining sbc now hi
          { c0 with
            toBeRemovedIndexRange := NumericRange.empty,
            toBeRemovedTsRange := NumericRange.empty } lo 1 0).coord.sprites := by
  have hspr := cleanupLoop_sprites_eq hi
    (mainLoop remaining sbc now hi
      { c0 with
        toBeRemovedIndexRange := NumericRange.empty,
        toBeRemovedTsRange := NumericRange.empty } lo 1 0).coord
    (mainLoop remaining sbc now hi
      { c0 with
        toBeRemovedIndexRange := NumericRange.empty,
        toBeRemovedTsRange := NumericRange.empty } lo 1 0).idx
  rcases hcl : cleanupLoop hi
      (mainLoop remaining sbc now hi
        { c0 with
          toBeRemovedIndexRange := NumericRange.empty,
          toBeRemovedTsRange := NumericRange.empty } lo 1 0).coord
      (mainLoop remaining sbc now hi
        { c0 with
          toBeRemovedIndexRange := NumericRange.empty,
          toBeRemovedTsRange := NumericRange.empty } lo 1 0).idx
    with ⟨c3, _ | e⟩
  · rw [hcl] at hspr
    rw [runRemoval_eq_main c0 remaining sbc now lo hi lowTs hiTs c3 hb1 hb2
      hnow hcl]
    show (queueChecks c3).sprites = _
    rw [queueChecks_sprites]
    exact hspr
  · rw [hcl] at hspr
    rw [runRemoval_eq_cleanup_fault c0 remaining sbc now lo hi lowTs hiTs c3 e
      hb1 hb2 hnow hcl]
    exact hspr

/-- C8: `runRemoval` never regresses a sprite's lifecycle phase: the only
phase change it performs is `Rest → NeedsTextureSync`, a legal forward
transition, and only on sprites marked `toBeRemoved` whose transition
time has elapsed. -/
theorem runRemoval_no_phase_regression (c0 : Coordinator)
    (remaining : Nat → Int) (sbc : Nat) (now : Int) :
    ∀ (k : Nat) (q q' : SpriteProperties), c0.sprites[k]? = some q →
      (runRemoval c0 remaining sbc now).1.sprites[k]? = some q' →
      q'.lifecyclePhase = q.lifecyclePhase ∨
        (q.toBeRemoved = true ∧ q.lifecyclePhase = LifecyclePhase.Rest ∧
          q'.lifecyclePhase = LifecyclePhase.NeedsTextureSync ∧
          (∃ sv, q.spriteView = some sv ∧ sv.TransitionTimeMs ≤ now) ∧
          legalTransition q.lifecyclePhase q'.lifecyclePhase = true) := by
  intro k q q' hq hq'
  rcases hb1 : c0.toBeRemovedIndexRange.bounds with _ | lh1
  · rw [runRemoval_eq_norange c0 remaining sbc now
      (Or.inl (by simp [NumericRange.isDefined, hb1]))] at hq'
    have hq'2 : c0.sprites[k]? = some q' := hq'
    rw [hq] at hq'2
    have e := Option.some.inj hq'2
    exact Or.inl (by rw [e])
  · obtain ⟨lo, hi⟩ := lh1
    rcases hb2 : c0.toBeRemovedTsRange.bounds with _ | lh2
    · rw [runRemoval_eq_norange c0 remaining sbc now
        (Or.inr (by simp [NumericRange.isDefined, hb2]))] at hq'
      have hq'2 : c0.sprites[k]? = some q' := hq'
      rw [hq] at hq'2
      have e := Option.some.inj hq'2
      exact Or.inl (by rw [e])
    · obtain ⟨lowTs, hiTs⟩ := lh2
      by_cases hnow : now < lowTs
      · rw [runRemoval_eq_early c0 remaining sbc now lo hi lowTs hiTs hb1 hb2
          hnow] at hq'
        have hq'2 : c0.sprites[k]? = some q' := hq'
        rw [hq] at hq'2
        have e := Option.some.inj hq'2
        exact Or.inl (by rw [e])
      · rw [runRemoval_sprites_eq_mainLoop c0 remaining sbc now lo hi lowTs
          hiTs hb1 hb2 hnow] at hq'
        have hq1 : ({ c0 with
            toBeRemovedIndexRange := NumericRange.empty,
            toBeRemovedTsRange := NumericRange.empty } :
            Coordinator).sprites[k]? = some q := hq
        rcases mainLoop_sprite_change remaining sbc now hi
            { c0 with
              toBeRemovedIndexRange := NumericRange.empty,
              toBeRemovedTsRange := NumericRange.empty } lo 1 0 k q q' hq1 hq'
          with e | ⟨hm, sv, hsv, hdue, he⟩
        · exact Or.inl (by rw [e])
        · obtain ⟨htb, hph⟩ := (matchesRemoval_true_iff q).mp hm
          refine Or.inr ⟨htb, hph, ?_, ⟨sv, hsv, hdue⟩, ?_⟩
          · rw [he]
            rfl
          · rw [hph, he]
            rfl

theorem runRemoval_no_phase_regression_witness :
    ((⟨[⟨true, LifecyclePhase.Rest, false, some ⟨5, [1, 2]⟩, some 0⟩],
        ⟨some (0, 0)⟩, ⟨some (5, 5)⟩, ⟨none⟩, 0, 0⟩ :
        Coordinator).sprites[0]?
      = some ⟨true, LifecyclePhase.Rest, false, some ⟨5, [1, 2]⟩, some 0⟩) ∧
    ((runRemoval
        (⟨[⟨true, LifecyclePhase.Rest, false, some ⟨5, [1, 2]⟩, some 0⟩],
          ⟨some (0, 0)⟩, ⟨some (5, 5)⟩, ⟨none⟩, 0, 0⟩ : Coordinator)
        (fun _ => 1) 10 10).1.sprites[0]?
      = some ⟨true, LifecyclePhase.NeedsTextureSync, true, some ⟨5, [0, 0]⟩,
          some 0⟩) ∧
    ((⟨true, LifecyclePhase.NeedsTextureSync, true, some ⟨5, [0, 0]⟩,
        some 0⟩ : SpriteProperties).lifecyclePhase
        = (⟨true, LifecyclePhase.Rest, false, some ⟨5, [1, 2]⟩, some 0⟩ :
          SpriteProperties).lifecyclePhase ∨
      ((⟨true, LifecyclePhase.Rest, false, some ⟨5, [1, 2]⟩, some 0⟩ :
          SpriteProperties).toBeRemoved = true ∧
        (⟨true, LifecyclePhase.Rest, false, some ⟨5, [1, 2]⟩, some 0⟩ :
          SpriteProperties).lifecyclePhase = LifecyclePhase.Rest ∧
        (⟨true, LifecyclePhase.NeedsTextureSync, true, some ⟨5, [0, 0]⟩,
          some 0⟩ : SpriteProperties).lifecyclePhase
          = LifecyclePhase.NeedsTextureSync ∧
        (∃ sv, (⟨true, LifecyclePhase.Rest, false, some ⟨5, [1, 2]⟩, some 0⟩ :
          SpriteProperties).spriteView = some sv ∧
          sv.TransitionTimeMs ≤ 10) ∧
        legalTransition
          (⟨true, LifecyclePhase.Rest, false, some ⟨5, [1, 2]⟩, some 0⟩ :
            SpriteProperties).lifecyclePhase
          (⟨true, LifecyclePhase.NeedsTextureSync, true, some ⟨5, [0, 0]⟩,
            some 0⟩ : SpriteProperties).lifecyclePhase = true)) := by
  refine ⟨rfl, ?_, ?_⟩
  · simp [runRemoval, mainLoop, cleanupLoop, NumericRange.isDefined,
      NumericRange.empty, NumericRange.expandToInclude, zeroSprite,
      SpriteView.fillZero, queueChecks]
  · refine runRemoval_no_phase_regression
      (⟨[⟨true, LifecyclePhase.Rest, false, some ⟨5, [1, 2]⟩, some 0⟩],
        ⟨some (0, 0)⟩, ⟨some (5, 5)⟩, ⟨none⟩, 0, 0⟩ : Coordinator)
      (fun _ => 1) 10 10 0 _ _ rfl ?_
    simp [runRemoval, mainLoop, cleanupLoop, NumericRange.isDefined,
      NumericRange.empty, NumericRange.expandToInclude, zeroSprite,
      SpriteView.fillZero, queueChecks]


/-- C9: every sprite that is not both `toBeRemoved` and in phase `Rest`,
and every sprite whose index lies outside the scanned to-be-removed span,
is left entirely unchanged by `runRemoval`. -/
theorem runRemoval_skips_unmatched (c0 : Coordinator)
    (remaining : Nat → Int) (sbc : Nat) (now : Int) :
    ∀ (k : Nat) (q : SpriteProperties), c0.sprites[k]? = some q →
      ((q.toBeRemoved = false ∨ q.lifecyclePhase ≠ LifecyclePhase.Rest) ∨
        (∃ lo hi, c0.toBeRemovedIndexRange.bounds = some (lo, hi) ∧
          (k < lo ∨ hi < k))) →
      (runRemoval c0 remaining sbc now).1.sprites[k]? = some q := by
  intro k q hq hcond
  rcases hb1 : c0.toBeRemovedIndexRange.bounds with _ | lh1
  · rw [runRemoval_eq_norange c0 remaining sbc now
      (Or.inl (by simp [NumericRange.isDefined, hb1]))]
    exact hq
  · obtain ⟨lo, hi⟩ := lh1
    rcases hb2 : c0.toBeRemovedTsRange.bounds with _ | lh2
    · rw [runRemoval_eq_norange c0 remaining sbc now
        (Or.inr (by simp [NumericRange.isDefined, hb2]))]
      exact hq
    · obtain ⟨lowTs, hiTs⟩ := lh2
      by_cases hnow : now < lowTs
      · rw [runRemoval_eq_early c0 remaining sbc now lo hi lowTs hiTs hb1 hb2
          hnow]
        exact hq
      · rw [runRemoval_sprites_eq_mainLoop c0 remaining sbc now lo hi lowTs
          hiTs hb1 hb2 hnow]
        have hq1 : ({ c0 with
            toBeRemovedIndexRange := NumericRange.empty,
            toBeRemovedTsRange := NumericRange.empty } :
            Coordinator).sprites[k]? = some q := hq
        rcases hcond with hnm | ⟨lo', hi', hbb, hout⟩
        · exact mainLoop_nonmatching_preserved remaining sbc now hi _ lo 1 0
            k q hq1 ((matchesRemoval_false_iff q).mpr hnm)
        · rw [hb1] at hbb
          have e := Option.some.inj hbb
          have e1 : lo = lo' := congrArg Prod.fst e
          have e2 : hi = hi' := congrArg Prod.snd e
          subst e1
          subst e2
          by_cases hlh : lo ≤ hi + 1
          · have hub := mainLoop_idx_ub remaining sbc now hi
              { c0 with
                toBeRemovedIndexRange := NumericRange.empty,
                toBeRemovedTsRange := NumericRange.empty } lo 1 0 hlh
            rcases hout with ho | ho
            · rw [mainLoop_sprites_preserved remaining sbc now hi _ lo 1 0 k
                (Or.inl ho)]
              exact hq1
            · rw [mainLoop_sprites_preserved remaining sbc now hi _ lo 1 0 k
                (Or.inr (by omega))]
              exact hq1
          · rw [mainLoop_eq_exit remaining sbc now hi
              { c0 with
                toBeRemovedIndexRange := NumericRange.empty,
                toBeRemovedTsRange := NumericRange.empty } lo 1 0 (by omega)]
            exact hq1

theorem runRemoval_skips_unmatched_witness :
    ((⟨[⟨true, LifecyclePhase.NeedsTextureSync, false, some ⟨5, [1]⟩,
          some 0⟩],
        ⟨some (0, 0)⟩, ⟨some (5, 5)⟩, ⟨none⟩, 0, 0⟩ :
        Coordinator).sprites[0]?
      = some ⟨true, LifecyclePhase.NeedsTextureSync, false, some ⟨5, [1]⟩,
          some 0⟩) ∧
    ((⟨true, LifecyclePhase.NeedsTextureSync, false, some ⟨5, [1]⟩, some 0⟩ :
        SpriteProperties).toBeRemoved = false ∨
      (⟨true, LifecyclePhase.NeedsTextureSync, false, some ⟨5, [1]⟩,
        some 0⟩ : SpriteProperties).lifecyclePhase ≠ LifecyclePhase.Rest) ∧
    (runRemoval
        (⟨[⟨true, LifecyclePhase.NeedsTextureSync, false, some ⟨5, [1]⟩,
            some 0⟩],
          ⟨some (0, 0)⟩, ⟨some (5, 5)⟩, ⟨none⟩, 0, 0⟩ : Coordinator)
        (fun _ => 1) 10 10).1.sprites[0]?
      = some ⟨true, LifecyclePhase.NeedsTextureSync, false, some ⟨5, [1]⟩,
          some 0⟩ := by
  refine ⟨rfl, Or.inr (by decide), ?_⟩
  exact runRemoval_skips_unmatched
    (⟨[⟨true, LifecyclePhase.NeedsTextureSync, false, some ⟨5, [1]⟩,
        some 0⟩],
      ⟨some (0, 0)⟩, ⟨some (5, 5)⟩, ⟨none⟩, 0, 0⟩ : Coordinator)
    (fun _ => 1) 10 10 0 _ rfl (Or.inl (Or.inr (by decide)))


/-- A one-sprite coordinator whose sprite is due for removal. -/
def cW6 : Coordinator :=
  ⟨[⟨true, LifecyclePhase.Rest, false, some ⟨5, [1]⟩, some 0⟩],
    ⟨some (0, 0)⟩, ⟨some (5, 5)⟩, ⟨none⟩, 0, 0⟩

/-- The state of `cW6` after the main scan and cleanup pass: the sprite is
zeroed and marked for texture sync, the removal ranges are drained. -/
def c3W6 : Coordinator :=
  ⟨[⟨true, LifecyclePhase.NeedsTextureSync, true, some ⟨5, [0]⟩, some 0⟩],
    ⟨none⟩, ⟨none⟩, ⟨some (0, 0)⟩, 0, 0⟩

/-- C6 (amended): when `runRemoval` reaches its main scan and the cleanup
pass completes without a fault, it schedules the texture-sync task if and
only if the needs-texture-sync range is defined at cleanup time, and
reschedules the removal task if and only if the to-be-removed index range
is defined at cleanup time. -/
theorem runRemoval_cleanup_scheduling (c0 : Coordinator)
    (remaining : Nat → Int) (sbc : Nat) (now : Int) (lo hi : Nat)
    (lowTs hiTs : Int) (c3 : Coordinator)
    (hb1 : c0.toBeRemovedIndexRange.bounds = some (lo, hi))
    (hb2 : c0.toBeRemovedTsRange.bounds = some (lowTs, hiTs))
    (hnow : ¬ now < lowTs)
    (hcl : cleanupLoop hi
        (mainLoop remaining sbc now hi
          { c0 with
            toBeRemovedIndexRange := NumericRange.empty,
            toBeRemovedTsRange := NumericRange.empty } lo 1 0).coord
        (mainLoop remaining sbc now hi
          { c0 with
            toBeRemovedIndexRange := NumericRange.empty,
            toBeRemovedTsRange := NumericRange.empty } lo 1 0).idx
        = (c3, none)) :
    (runRemoval c0 remaining sbc now).1.queuedTextureSyncs
        = c0.queuedTextureSyncs
          + (if c3.needsTextureSyncIndexRange.isDefined then 1 else 0) ∧
      (runRemoval c0 remaining sbc now).1.queuedRemovalTasks
        = c0.queuedRemovalTasks
          + (if c3.toBeRemovedIndexRange.isDefined then 1 else 0) := by
  have ha := cleanupLoop_queued_sync hi
    (mainLoop remaining sbc now hi
      { c0 with
        toBeRemovedIndexRange := NumericRange.empty,
        toBeRemovedTsRange := NumericRange.empty } lo 1 0).coord
    (mainLoop remaining sbc now hi
      { c0 with
        toBeRemovedIndexRange := NumericRange.empty,
        toBeRemovedTsRange := NumericRange.empty } lo 1 0).idx
  have hbq := mainLoop_queued_sync remaining sbc now hi
    { c0 with
      toBeRemovedIndexRange := NumericRange.empty,
      toBeRemovedTsRange := NumericRange.empty } lo 1 0
  have ha2 := cleanupLoop_queued_removal hi
    (mainLoop remaining sbc now hi
      { c0 with
        toBeRemovedIndexRange := NumericRange.empty,
        toBeRemovedTsRange := NumericRange.empty } lo 1 0).coord
    (mainLoop remaining sbc now hi
      { c0 with
        toBeRemovedIndexRange := NumericRange.empty,
        toBeRemovedTsRange := NumericRange.empty } lo 1 0).idx
  have hbq2 := mainLoop_queued_removal remaining sbc now hi
    { c0 with
      toBeRemovedIndexRange := NumericRange.empty,
      toBeRemovedTsRange := NumericRange.empty } lo 1 0
  rw [hcl] at ha ha2
  have h1 : c3.queuedTextureSyncs = c0.queuedTextureSyncs := ha.trans hbq
  have h2 : c3.queuedRemovalTasks = c0.queuedRemovalTasks := ha2.trans hbq2
  rw [runRemoval_eq_main c0 remaining sbc now lo hi lowTs hiTs c3 hb1 hb2
    hnow hcl]
  constructor
  · show (queueChecks c3).queuedTextureSyncs = _
    rw [queueChecks_queued_sync, h1]
  · show (queueChecks c3).queuedRemovalTasks = _
    rw [queueChecks_queued_removal, h2]

theorem runRemoval_cleanup_scheduling_witness :
    cW6.toBeRemovedIndexRange.bounds = some (0, 0) ∧
    cW6.toBeRemovedTsRange.bounds = some (5, 5) ∧
    ¬ ((10 : Int) < 5) ∧
    cleanupLoop 0
        (mainLoop (fun _ => 1) 10 10 0
          { cW6 with
            toBeRemovedIndexRange := NumericRange.empty,
            toBeRemovedTsRange := NumericRange.empty } 0 1 0).coord
        (mainLoop (fun _ => 1) 10 10 0
          { cW6 with
            toBeRemovedIndexRange := NumericRange.empty,
            toBeRemovedTsRange := NumericRange.empty } 0 1 0).idx
      = (c3W6, none) ∧
    ((runRemoval cW6 (fun _ => 1) 10 10).1.queuedTextureSyncs
        = cW6.queuedTextureSyncs
          + (if c3W6.needsTextureSyncIndexRange.isDefined then 1 else 0) ∧
      (runRemoval cW6 (fun _ => 1) 10 10).1.queuedRemovalTasks
        = cW6.queuedRemovalTasks
          + (if c3W6.toBeRemovedIndexRange.isDefined then 1 else 0)) := by
  have hclproof : cleanupLoop 0
      (mainLoop (fun _ => 1) 10 10 0
        { cW6 with
          toBeRemovedIndexRange := NumericRange.empty,
          toBeRemovedTsRange := NumericRange.empty } 0 1 0).coord
      (mainLoop (fun _ => 1) 10 10 0
        { cW6 with
          toBeRemovedIndexRange := NumericRange.empty,
          toBeRemovedTsRange := NumericRange.empty } 0 1 0).idx
      = (c3W6, none) := by
    simp [mainLoop, cleanupLoop, cW6, c3W6, NumericRange.empty,
      NumericRange.expandToInclude, zeroSprite, SpriteView.fillZero]
  exact ⟨rfl, rfl, by norm_num, hclproof,
    runRemoval_cleanup_scheduling cW6 (fun _ => 1) 10 10 0 0 5 5 c3W6 rfl rfl
      (by norm_num) hclproof⟩

/-- A coordinator like `cW6` whose needs-texture-sync range is already
defined at entry (some other sprite, index 7, awaits a texture sync). -/
def cexC6 : Coordinator :=
  ⟨[⟨true, LifecyclePhase.Rest, false, some ⟨5, [1]⟩, some 0⟩],
    ⟨some (0, 0)⟩, ⟨some (5, 5)⟩, ⟨some (7, 7)⟩, 0, 0⟩

/-- C6 counterexample: the needs-texture-sync range is already defined
when `runRemoval` is invoked, so it does not *become* defined during the
invocation, yet the cleanup still schedules the texture-sync task: the
code tests `isDefined`, not "became defined during this invocation". -/
theorem runRemoval_sync_scheduled_though_defined_at_entry_cex :
    cexC6.needsTextureSyncIndexRange.isDefined = true ∧
    (runRemoval cexC6 (fun _ => 1) 10 10).1.queuedTextureSyncs
      = cexC6.queuedTextureSyncs + 1 := by
  refine ⟨rfl, ?_⟩
  simp [runRemoval, mainLoop, cleanupLoop, cexC6, NumericRange.isDefined,
    NumericRange.empty, NumericRange.expandToInclude, zeroSprite,
    SpriteView.fillZero, queueChecks]


/-- C1: with an unlimited budget, every sprite of the scanned (well
formed) span that is marked for removal, resting, and past its transition
time ends the invocation with zeroed attribute memory, its `zeroed` flag
set, phase `NeedsTextureSync`, and its swatch index represented in the
needs-texture-sync range; the invocation throws no error. -/
theorem runRemoval_zeroes_due_sprites (c0 : Coordinator)
    (remaining : Nat → Int) (sbc : Nat) (now : Int) (lo hi : Nat)
    (lowTs hiTs : Int) (i : Nat) (q : SpriteProperties) (sv : SpriteView)
    (pidx : Nat)
    (hb1 : c0.toBeRemovedIndexRange.bounds = some (lo, hi))
    (hb2 : c0.toBeRemovedTsRange.bounds = some (lowTs, hiTs))
    (hnow : lowTs ≤ now)
    (hrem : ∀ n, 0 < remaining n)
    (hwf : SpanWellFormed c0.sprites lo hi)
    (hi1 : lo ≤ i) (hi2 : i ≤ hi)
    (hq : c0.sprites[i]? = some q) (hm : matchesRemoval q = true)
    (hsv : q.spriteView = some sv) (hdue : sv.TransitionTimeMs ≤ now)
    (hix : q.index = some pidx) :
    (∃ (q' : SpriteProperties) (sv' : SpriteView),
        (runRemoval c0 remaining sbc now).1.sprites[i]? = some q' ∧
        q'.spriteView = some sv' ∧ (∀ x ∈ sv'.dataView, x = 0) ∧
        q'.zeroed = true ∧
        q'.lifecyclePhase = LifecyclePhase.NeedsTextureSync) ∧
      (runRemoval c0 remaining sbc now).1.needsTextureSyncIndexRange.containsVal pidx
        = true ∧
      (runRemoval c0 remaining sbc now).2 = none := by
  have hnow2 : ¬ now < lowTs := not_lt.mpr hnow
  have hwf1 : SpanWellFormed ({ c0 with
      toBeRemovedIndexRange := NumericRange.empty,
      toBeRemovedTsRange := NumericRange.empty } :
      Coordinator).sprites lo i := spanWF_mono_hi hwf hi2
  have hq1 : ({ c0 with
      toBeRemovedIndexRange := NumericRange.empty,
      toBeRemovedTsRange := NumericRange.empty } :
      Coordinator).sprites[i]? = some q := hq
  have hzero := mainLoop_zeroes_due remaining sbc now hi hrem
    { c0 with
      toBeRemovedIndexRange := NumericRange.empty,
      toBeRemovedTsRange := NumericRange.empty } lo 1 0 i q sv pidx hi1 hi2
    hwf1 hq1 hm hsv hdue hix
  have hlb := mainLoop_idx_lb remaining sbc now hi
    { c0 with
      toBeRemovedIndexRange := NumericRange.empty,
      toBeRemovedTsRange := NumericRange.empty } lo 1 0
  have hwfB : SpanWellFormed
      (mainLoop remaining sbc now hi
        { c0 with
          toBeRemovedIndexRange := NumericRange.empty,
          toBeRemovedTsRange := NumericRange.empty } lo 1 0).coord.sprites
      (mainLoop remaining sbc now hi
        { c0 with
          toBeRemovedIndexRange := NumericRange.empty,
          toBeRemovedTsRange := NumericRange.empty } lo 1 0).idx hi := by
    intro k hk1 hk2
    obtain ⟨w, hw, hreq⟩ := hwf k (by omega) hk2
    refine ⟨w, ?_, hreq⟩
    rw [mainLoop_sprites_preserved remaining sbc now hi _ lo 1 0 k
      (Or.inr hk1)]
    exact hw
  have hclerr := cleanupLoop_noerr hi
    (mainLoop remaining sbc now hi
      { c0 with
        toBeRemovedIndexRange := NumericRange.empty,
        toBeRemovedTsRange := NumericRange.empty } lo 1 0).coord
    (mainLoop remaining sbc now hi
      { c0 with
        toBeRemovedIndexRange := NumericRange.empty,
        toBeRemovedTsRange := NumericRange.empty } lo 1 0).idx hwfB
  rcases hcl : cleanupLoop hi
      (mainLoop remaining sbc now hi
        { c0 with
          toBeRemovedIndexRange := NumericRange.empty,
          toBeRemovedTsRange := NumericRange.empty } lo 1 0).coord
      (mainLoop remaining sbc now hi
        { c0 with
          toBeRemovedIndexRange := NumericRange.empty,
          toBeRemovedTsRange := NumericRange.empty } lo 1 0).idx
    with ⟨c3, e⟩
  rw [hcl] at hclerr
  have he : e = none := hclerr
  subst he
  refine ⟨⟨zeroSprite q sv, sv.fillZero, ?_, rfl, ?_, rfl, rfl⟩, ?_, ?_⟩
  · rw [runRemoval_sprites_eq_mainLoop c0 remaining sbc now lo hi lowTs hiTs
      hb1 hb2 hnow2]
    exact hzero.1
  · intro x hx
    obtain ⟨a, _, e2⟩ := List.mem_map.mp hx
    exact e2.symm
  · rw [runRemoval_eq_main c0 remaining sbc now lo hi lowTs hiTs c3 hb1 hb2
      hnow2 hcl]
    show (queueChecks c3).needsTextureSyncIndexRange.containsVal pidx = true
    rw [queueChecks_sync]
    have hsy := cleanupLoop_sync_eq hi
      (mainLoop remaining sbc now hi
        { c0 with
          toBeRemovedIndexRange := NumericRange.empty,
          toBeRemovedTsRange := NumericRange.empty } lo 1 0).coord
      (mainLoop remaining sbc now hi
        { c0 with
          toBeRemovedIndexRange := NumericRange.empty,
          toBeRemovedTsRange := NumericRange.empty } lo 1 0).idx
    rw [hcl] at hsy
    have hc3 : c3.needsTextureSyncIndexRange
        = (mainLoop remaining sbc now hi
          { c0 with
            toBeRemovedIndexRange := NumericRange.empty,
            toBeRemovedTsRange := NumericRange.empty } lo 1
          0).coord.needsTextureSyncIndexRange := hsy
    rw [hc3]
    exact hzero.2
  · rw [runRemoval_eq_main c0 remaining sbc now lo hi lowTs hiTs c3 hb1 hb2
      hnow2 hcl]
    show (mainLoop remaining sbc now hi
      { c0 with
        toBeRemovedIndexRange := NumericRange.empty,
        toBeRemovedTsRange := NumericRange.empty } lo 1 0).err = none
    refine mainLoop_noerr remaining sbc now hi _ lo 1 0 ?_
    intro k hk1 hk2
    exact hwf k hk1 hk2

theorem runRemoval_zeroes_due_sprites_witness :
    cW6.toBeRemovedIndexRange.bounds = some (0, 0) ∧
    cW6.toBeRemovedTsRange.bounds = some (5, 5) ∧
    ((5 : Int) ≤ 10) ∧
    (∀ n : Nat, (0 : Int) < (fun _ : Nat => (1 : Int)) n) ∧
    SpanWellFormed cW6.sprites 0 0 ∧
    (0 ≤ 0 ∧ 0 ≤ 0) ∧
    cW6.sprites[0]?
      = some ⟨true, LifecyclePhase.Rest, false, some ⟨5, [1]⟩, some 0⟩ ∧
    matchesRemoval
        (⟨true, LifecyclePhase.Rest, false, some ⟨5, [1]⟩, some 0⟩ :
          SpriteProperties) = true ∧
    ((⟨true, LifecyclePhase.Rest, false, some ⟨5, [1]⟩, some 0⟩ :
        SpriteProperties).spriteView = some ⟨5, [1]⟩) ∧
    ((⟨5, [1]⟩ : SpriteView).TransitionTimeMs ≤ 10) ∧
    ((⟨true, LifecyclePhase.Rest, false, some ⟨5, [1]⟩, some 0⟩ :
        SpriteProperties).index = some 0) ∧
    ((∃ (q' : SpriteProperties) (sv' : SpriteView),
        (runRemoval cW6 (fun _ => 1) 10 10).1.sprites[0]? = some q' ∧
        q'.spriteView = some sv' ∧ (∀ x ∈ sv'.dataView, x = 0) ∧
        q'.zeroed = true ∧
        q'.lifecyclePhase = LifecyclePhase.NeedsTextureSync) ∧
      (runRemoval cW6 (fun _ => 1) 10 10).1.needsTextureSyncIndexRange.containsVal 0
        = true ∧
      (runRemoval cW6 (fun _ => 1) 10 10).2 = none) := by
  have hwf : SpanWellFormed cW6.sprites 0 0 := by
    intro k hk1 hk2
    have hk : k = 0 := by omega
    subst hk
    exact ⟨_, rfl, fun _ => ⟨rfl, rfl⟩⟩
  exact ⟨rfl, rfl, by norm_num, fun n => by norm_num, hwf, ⟨le_rfl, le_rfl⟩,
    rfl, rfl, rfl, by norm_num, rfl,
    runRemoval_zeroes_due_sprites cW6 (fun _ => 1) 10 10 0 0 5 5 0 _ _ 0 rfl
      rfl (by norm_num) (fun n => by norm_num) hwf le_rfl le_rfl rfl rfl rfl
      (by norm_num) rfl⟩


/-- A two-sprite coordinator: sprite 0 is due for removal; sprite 1 is
marked `toBeRemoved` with a future transition time but sits in phase
`NeedsTextureSync` (its exit callback ran, texture sync has not happened
yet), and both are covered by the to-be-removed ranges. -/
def cexC3 : Coordinator :=
  ⟨[⟨true, LifecyclePhase.Rest, false, some ⟨5, [1]⟩, some 0⟩,
      ⟨true, LifecyclePhase.NeedsTextureSync, false, some ⟨20, [2]⟩,
        some 1⟩],
    ⟨some (0, 1)⟩, ⟨some (5, 20)⟩, ⟨none⟩, 0, 0⟩

/-- C3 counterexample: sprite 1 is marked `toBeRemoved`, its transition
time (20) exceeds the current time (10), and its index is inside the
to-be-removed index range, yet after one invocation of `runRemoval` its
index is no longer represented in the range and no follow-up removal task
was queued — because the sprite is not in phase `Rest`, both scans skip
it without re-adding it. -/
theorem runRemoval_pending_nonrest_dropped_cex :
    cexC3.sprites[1]?
      = some ⟨true, LifecyclePhase.NeedsTextureSync, false, some ⟨20, [2]⟩,
          some 1⟩ ∧
    ((20 : Int) > 10) ∧
    cexC3.toBeRemovedIndexRange.containsVal 1 = true ∧
    (runRemoval cexC3 (fun _ => 1) 10 10).1.toBeRemovedIndexRange.containsVal 1
      = false ∧
    (runRemoval cexC3 (fun _ => 1) 10 10).1.queuedRemovalTasks = 0 := by
  refine ⟨rfl, by norm_num, by decide, ?_, ?_⟩ <;>
    simp [runRemoval, mainLoop, cleanupLoop, cexC3, NumericRange.isDefined,
      NumericRange.containsVal, NumericRange.empty,
      NumericRange.expandToInclude, zeroSprite, SpriteView.fillZero,
      queueChecks]

/-- C3 (amended): for every sprite marked `toBeRemoved` *in phase `Rest`*
whose transition time is still in the future and whose index and
timestamp are represented in the to-be-removed ranges of a well-formed
span, one invocation of `runRemoval` keeps its index and timestamp
represented in those ranges and queues a follow-up removal task. -/
theorem runRemoval_preserves_pending_rest_sprites (c0 : Coordinator)
    (remaining : Nat → Int) (sbc : Nat) (now : Int) (lo hi : Nat)
    (lowTs hiTs : Int) (i : Nat) (q : SpriteProperties) (sv : SpriteView)
    (hb1 : c0.toBeRemovedIndexRange.bounds = some (lo, hi))
    (hb2 : c0.toBeRemovedTsRange.bounds = some (lowTs, hiTs))
    (hwf : SpanWellFormed c0.sprites lo hi)
    (hi1 : lo ≤ i) (hi2 : i ≤ hi)
    (hts0 : c0.toBeRemovedTsRange.containsVal sv.TransitionTimeMs = true)
    (hq : c0.sprites[i]? = some q) (hm : matchesRemoval q = true)
    (hsv : q.spriteView = some sv) (hfut : now < sv.TransitionTimeMs) :
    (runRemoval c0 remaining sbc now).1.toBeRemovedIndexRange.containsVal i
        = true ∧
      (runRemoval c0 remaining sbc now).1.toBeRemovedTsRange.containsVal sv.TransitionTimeMs
        = true ∧
      (runRemoval c0 remaining sbc now).1.queuedRemovalTasks
        = c0.queuedRemovalTasks + 1 := by
  by_cases hnow : now < lowTs
  · rw [runRemoval_eq_early c0 remaining sbc now lo hi lowTs hiTs hb1 hb2
      hnow]
    refine ⟨?_, ?_, rfl⟩
    · show c0.toBeRemovedIndexRange.containsVal i = true
      exact NumericRange.containsVal_of_bounds _ lo hi i hb1 hi1 hi2
    · show c0.toBeRemovedTsRange.containsVal sv.TransitionTimeMs = true
      exact hts0
  · have hwf1 : SpanWellFormed ({ c0 with
        toBeRemovedIndexRange := NumericRange.empty,
        toBeRemovedTsRange := NumericRange.empty } :
        Coordinator).sprites lo i := spanWF_mono_hi hwf hi2
    have hq1 : ({ c0 with
        toBeRemovedIndexRange := NumericRange.empty,
        toBeRemovedTsRange := NumericRange.empty } :
        Coordinator).sprites[i]? = some q := hq
    have hpend := mainLoop_pending remaining sbc now hi
      { c0 with
        toBeRemovedIndexRange := NumericRange.empty,
        toBeRemovedTsRange := NumericRange.empty } lo 1 0 i q sv hi1 hi2
      hwf1 hq1 hm hsv hfut
    have hlb := mainLoop_idx_lb remaining sbc now hi
      { c0 with
        toBeRemovedIndexRange := NumericRange.empty,
        toBeRemovedTsRange := NumericRange.empty } lo 1 0
    have hwfB : SpanWellFormed
        (mainLoop remaining sbc now hi
          { c0 with
            toBeRemovedIndexRange := NumericRange.empty,
            toBeRemovedTsRange := NumericRange.empty } lo 1 0).coord.sprites
        (mainLoop remaining sbc now hi
          { c0 with
            toBeRemovedIndexRange := NumericRange.empty,
            toBeRemovedTsRange := NumericRange.empty } lo 1 0).idx hi := by
      intro k hk1 hk2
      obtain ⟨w, hw, hreq⟩ := hwf k (by omega) hk2
      refine ⟨w, ?_, hreq⟩
      rw [mainLoop_sprites_preserved remaining sbc now hi _ lo 1 0 k
        (Or.inr hk1)]
      exact hw
    have hclerr := cleanupLoop_noerr hi
      (mainLoop remaining sbc now hi
        { c0 with
          toBeRemovedIndexRange := NumericRange.empty,
          toBeRemovedTsRange := NumericRange.empty } lo 1 0).coord
      (mainLoop remaining sbc now hi
        { c0 with
          toBeRemovedIndexRange := NumericRange.empty,
          toBeRemovedTsRange := NumericRange.empty } lo 1 0).idx hwfB
    rcases hcl : cleanupLoop hi
        (mainLoop remaining sbc now hi
          { c0 with
            toBeRemovedIndexRange := NumericRange.empty,
            toBeRemovedTsRange := NumericRange.empty } lo 1 0).coord
        (mainLoop remaining sbc now hi
          { c0 with
            toBeRemovedIndexRange := NumericRange.empty,
            toBeRemovedTsRange := NumericRange.empty } lo 1 0).idx
      with ⟨c3, e⟩
    rw [hcl] at hclerr
    have he : e = none := hclerr
    subst he
    have hc3 : c3.toBeRemovedIndexRange.containsVal i = true ∧
        c3.toBeRemovedTsRange.containsVal sv.TransitionTimeMs = true := by
      rcases hpend with ⟨hA1, hA2⟩ | ⟨hBidx, _⟩
      · have t1 := cleanupLoop_tbrIdx_mono hi i
          (mainLoop remaining sbc now hi
            { c0 with
              toBeRemovedIndexRange := NumericRange.empty,
              toBeRemovedTsRange := NumericRange.empty } lo 1 0).coord
          (mainLoop remaining sbc now hi
            { c0 with
              toBeRemovedIndexRange := NumericRange.empty,
              toBeRemovedTsRange := NumericRange.empty } lo 1 0).idx hA1
        have t2 := cleanupLoop_tbrTs_mono hi sv.TransitionTimeMs
          (mainLoop remaining sbc now hi
            { c0 with
              toBeRemovedIndexRange := NumericRange.empty,
              toBeRemovedTsRange := NumericRange.empty } lo 1 0).coord
          (mainLoop remaining sbc now hi
            { c0 with
              toBeRemovedIndexRange := NumericRange.empty,
              toBeRemovedTsRange := NumericRange.empty } lo 1 0).idx hA2
        rw [hcl] at t1 t2
        exact ⟨t1, t2⟩
      · have hqB : (mainLoop remaining sbc now hi
            { c0 with
              toBeRemovedIndexRange := NumericRange.empty,
              toBeRemovedTsRange := NumericRange.empty } lo 1
            0).coord.sprites[i]? = some q := by
          rw [mainLoop_sprites_preserved remaining sbc now hi _ lo 1 0 i
            (Or.inr hBidx)]
          exact hq1
        have hwfB2 : SpanWellFormed
            (mainLoop remaining sbc now hi
              { c0 with
                toBeRemovedIndexRange := NumericRange.empty,
                toBeRemovedTsRange := NumericRange.empty } lo 1
              0).coord.sprites
            (mainLoop remaining sbc now hi
              { c0 with
                toBeRemovedIndexRange := NumericRange.empty,
                toBeRemovedTsRange := NumericRange.empty } lo 1 0).idx i := by
          intro k hk1 hk2
          obtain ⟨w, hw, hreq⟩ := hwf k (by omega) (by omega)
          refine ⟨w, ?_, hreq⟩
          rw [mainLoop_sprites_preserved remaining sbc now hi _ lo 1 0 k
            (Or.inr hk1)]
          exact hw
        have t := cleanupLoop_pending hi
          (mainLoop remaining sbc now hi
            { c0 with
              toBeRemovedIndexRange := NumericRange.empty,
              toBeRemovedTsRange := NumericRange.empty } lo 1 0).coord
          (mainLoop remaining sbc now hi
            { c0 with
              toBeRemovedIndexRange := NumericRange.empty,
              toBeRemovedTsRange := NumericRange.empty } lo 1 0).idx i q sv
          hBidx hi2 hwfB2 hqB hm hsv
        rw [hcl] at t
        exact t
    have hqrA := cleanupLoop_queued_removal hi
      (mainLoop remaining sbc now hi
        { c0 with
          toBeRemovedIndexRange := NumericRange.empty,
          toBeRemovedTsRange := NumericRange.empty } lo 1 0).coord
      (mainLoop remaining sbc now hi
        { c0 with
          toBeRemovedIndexRange := NumericRange.empty,
          toBeRemovedTsRange := NumericRange.empty } lo 1 0).idx
    have hqrB := mainLoop_queued_removal remaining sbc now hi
      { c0 with
        toBeRemovedIndexRange := NumericRange.empty,
        toBeRemovedTsRange := NumericRange.empty } lo 1 0
    rw [hcl] at hqrA
    have hq2 : c3.queuedRemovalTasks = c0.queuedRemovalTasks :=
      hqrA.trans hqrB
    have hdef : c3.toBeRemovedIndexRange.isDefined = true :=
      NumericRange.isDefined_of_containsVal _ i hc3.1
    refine ⟨?_, ?_, ?_⟩
    · rw [runRemoval_eq_main c0 remaining sbc now lo hi lowTs hiTs c3 hb1 hb2
        hnow hcl]
      show (queueChecks c3).toBeRemovedIndexRange.containsVal i = true
      rw [queueChecks_tbrIdx]
      exact hc3.1
    · rw [runRemoval_eq_main c0 remaining sbc now lo hi lowTs hiTs c3 hb1 hb2
        hnow hcl]
      show (queueChecks c3).toBeRemovedTsRange.containsVal sv.TransitionTimeMs
        = true
      rw [queueChecks_tbrTs]
      exact hc3.2
    · rw [runRemoval_eq_main c0 remaining sbc now lo hi lowTs hiTs c3 hb1 hb2
        hnow hcl]
      show (queueChecks c3).queuedRemovalTasks = c0.queuedRemovalTasks + 1
      rw [queueChecks_queued_removal]
      simp [hdef, hq2]

/-- A one-sprite coordinator whose sprite is marked for removal but not
yet due at time 10. -/
def cW3 : Coordinator :=
  ⟨[⟨true, LifecyclePhase.Rest, false, some ⟨20, [7]⟩, some 0⟩],
    ⟨some (0, 0)⟩, ⟨some (20, 20)⟩, ⟨none⟩, 0, 0⟩

theorem runRemoval_preserves_pending_rest_sprites_witness :
    cW3.toBeRemovedIndexRange.bounds = some (0, 0) ∧
    cW3.toBeRemovedTsRange.bounds = some (20, 20) ∧
    SpanWellFormed cW3.sprites 0 0 ∧
    cW3.toBeRemovedTsRange.containsVal
        (⟨20, [7]⟩ : SpriteView).TransitionTimeMs = true ∧
    cW3.sprites[0]?
      = some ⟨true, LifecyclePhase.Rest, false, some ⟨20, [7]⟩, some 0⟩ ∧
    matchesRemoval
        (⟨true, LifecyclePhase.Rest, false, some ⟨20, [7]⟩, some 0⟩ :
          SpriteProperties) = true ∧
    ((10 : Int) < (⟨20, [7]⟩ : SpriteView).TransitionTimeMs) ∧
    ((runRemoval cW3 (fun _ => 1) 10 10).1.toBeRemovedIndexRange.containsVal 0
        = true ∧
      (runRemoval cW3 (fun _ => 1) 10
        10).1.toBeRemovedTsRange.containsVal
          (⟨20, [7]⟩ : SpriteView).TransitionTimeMs = true ∧
      (runRemoval cW3 (fun _ => 1) 10 10).1.queuedRemovalTasks
        = cW3.queuedRemovalTasks + 1) := by
  have hwf : SpanWellFormed cW3.sprites 0 0 := by
    intro k hk1 hk2
    have hk : k = 0 := by omega
    subst hk
    exact ⟨_, rfl, fun _ => ⟨rfl, rfl⟩⟩
  exact ⟨rfl, rfl, hwf, by decide, rfl, rfl, by norm_num,
    runRemoval_preserves_pending_rest_sprites cW3 (fun _ => 1) 10 10 0 0 20
      20 0 _ _ rfl rfl hwf le_rfl le_rfl (by decide) rfl rfl rfl
      (by norm_num)⟩


/-- C7: when the scan reaches a to-be-removed resting sprite that lacks
its sprite view or its swatch index, the invocation throws
`InternalError` rather than skipping the sprite; the zeroing work
committed before the fault remains committed, and the cleanup pass still
re-adds the unvisited pending sprites to the removal ranges. -/
theorem runRemoval_missing_properties_fatal (c0 : Coordinator)
    (remaining : Nat → Int) (sbc : Nat) (now : Int) (lo hi : Nat)
    (lowTs hiTs : Int) (j : Nat) (q : SpriteProperties)
    (hb1 : c0.toBeRemovedIndexRange.bounds = some (lo, hi))
    (hb2 : c0.toBeRemovedTsRange.bounds = some (lowTs, hiTs))
    (hnow : lowTs ≤ now)
    (hrem : ∀ n, 0 < remaining n)
    (hj1 : lo ≤ j) (hj2 : j ≤ hi)
    (hwfb : ∀ k, lo ≤ k → k < j → ∃ w, c0.sprites[k]? = some w ∧
      (matchesRemoval w = true →
        w.spriteView.isSome = true ∧ w.index.isSome = true))
    (hwfa : SpanWellFormed c0.sprites (j + 1) hi)
    (hq : c0.sprites[j]? = some q) (hm : matchesRemoval q = true)
    (hfault : q.spriteView = none ∨ q.index = none) :
    (runRemoval c0 remaining sbc now).2
        = some RunError.missingProperties ∧
      (∀ (k : Nat) (w : SpriteProperties) (sv : SpriteView) (pidx : Nat),
        lo ≤ k → k < j → c0.sprites[k]? = some w →
        matchesRemoval w = true → w.spriteView = some sv →
        sv.TransitionTimeMs ≤ now → w.index = some pidx →
        (runRemoval c0 remaining sbc now).1.sprites[k]?
          = some (zeroSprite w sv)) ∧
      (∀ (k : Nat) (w : SpriteProperties) (sv : SpriteView),
        j < k → k ≤ hi → c0.sprites[k]? = some w →
        matchesRemoval w = true → w.spriteView = some sv →
        (runRemoval c0 remaining sbc now).1.toBeRemovedIndexRange.containsVal k
          = true) := by
  have hnow2 : ¬ now < lowTs := not_lt.mpr hnow
  have hq1 : ({ c0 with
      toBeRemovedIndexRange := NumericRange.empty,
      toBeRemovedTsRange := NumericRange.empty } :
      Coordinator).sprites[j]? = some q := hq
  have hwfb1 : ∀ k, lo ≤ k → k < j →
      ∃ w, ({ c0 with
        toBeRemovedIndexRange := NumericRange.empty,
        toBeRemovedTsRange := NumericRange.empty } :
        Coordinator).sprites[k]? = some w ∧
        (matchesRemoval w = true →
          w.spriteView.isSome = true ∧ w.index.isSome = true) := hwfb
  have herr := mainLoop_err_at remaining sbc now hi hrem
    { c0 with
      toBeRemovedIndexRange := NumericRange.empty,
      toBeRemovedTsRange := NumericRange.empty } lo 1 0 j q hj1 hj2 hwfb1
    hq1 hm hfault
  have hwfB : SpanWellFormed
      (mainLoop remaining sbc now hi
        { c0 with
          toBeRemovedIndexRange := NumericRange.empty,
          toBeRemovedTsRange := NumericRange.empty } lo 1 0).coord.sprites
      (mainLoop remaining sbc now hi
        { c0 with
          toBeRemovedIndexRange := NumericRange.empty,
          toBeRemovedTsRange := NumericRange.empty } lo 1 0).idx hi := by
    intro k hk1 hk2
    have hk1' : j + 1 ≤ k := by
      rw [herr.2] at hk1
      exact hk1
    obtain ⟨w, hw, hreq⟩ := hwfa k hk1' hk2
    refine ⟨w, ?_, hreq⟩
    rw [mainLoop_sprites_preserved remaining sbc now hi _ lo 1 0 k
      (Or.inr hk1)]
    exact hw
  have hclerr := cleanupLoop_noerr hi
    (mainLoop remaining sbc now hi
      { c0 with
        toBeRemovedIndexRange := NumericRange.empty,
        toBeRemovedTsRange := NumericRange.empty } lo 1 0).coord
    (mainLoop remaining sbc now hi
      { c0 with
        toBeRemovedIndexRange := NumericRange.empty,
        toBeRemovedTsRange := NumericRange.empty } lo 1 0).idx hwfB
  rcases hcl : cleanupLoop hi
      (mainLoop remaining sbc now hi
        { c0 with
          toBeRemovedIndexRange := NumericRange.empty,
          toBeRemovedTsRange := NumericRange.empty } lo 1 0).coord
      (mainLoop remaining sbc now hi
        { c0 with
          toBeRemovedIndexRange := NumericRange.empty,
          toBeRemovedTsRange := NumericRange.empty } lo 1 0).idx
    with ⟨c3, e⟩
  rw [hcl] at hclerr
  have he : e = none := hclerr
  subst he
  refine ⟨?_, ?_, ?_⟩
  · rw [runRemoval_eq_main c0 remaining sbc now lo hi lowTs hiTs c3 hb1 hb2
      hnow2 hcl]
    show (mainLoop remaining sbc now hi
      { c0 with
        toBeRemovedIndexRange := NumericRange.empty,
        toBeRemovedTsRange := NumericRange.empty } lo 1 0).err
      = some RunError.missingProperties
    exact herr.1
  · intro k w sv pidx hk1 hk2 hw hmw hsvw hduew hixw
    rw [runRemoval_sprites_eq_mainLoop c0 remaining sbc now lo hi lowTs hiTs
      hb1 hb2 hnow2]
    have hw1 : ({ c0 with
        toBeRemovedIndexRange := NumericRange.empty,
        toBeRemovedTsRange := NumericRange.empty } :
        Coordinator).sprites[k]? = some w := hw
    have hwfk : SpanWellFormed ({ c0 with
        toBeRemovedIndexRange := NumericRange.empty,
        toBeRemovedTsRange := NumericRange.empty } :
        Coordinator).sprites lo k := by
      intro k2 hk21 hk22
      exact hwfb k2 hk21 (by omega)
    exact (mainLoop_zeroes_due remaining sbc now hi hrem
      { c0 with
        toBeRemovedIndexRange := NumericRange.empty,
        toBeRemovedTsRange := NumericRange.empty } lo 1 0 k w sv pidx hk1
      (by omega) hwfk hw1 hmw hsvw hduew hixw).1
  · intro k w sv hk1 hk2 hw hmw hsvw
    have hBidx : (mainLoop remaining sbc now hi
        { c0 with
          toBeRemovedIndexRange := NumericRange.empty,
          toBeRemovedTsRange := NumericRange.empty } lo 1 0).idx ≤ k := by
      rw [herr.2]
      omega
    have hqB : (mainLoop remaining sbc now hi
        { c0 with
          toBeRemovedIndexRange := NumericRange.empty,
          toBeRemovedTsRange := NumericRange.empty } lo 1
        0).coord.sprites[k]? = some w := by
      rw [mainLoop_sprites_preserved remaining sbc now hi _ lo 1 0 k
        (Or.inr hBidx)]
      exact hw
    have hwfB2 : SpanWellFormed
        (mainLoop remaining sbc now hi
          { c0 with
            toBeRemovedIndexRange := NumericRange.empty,
            toBeRemovedTsRange := NumericRange.empty } lo 1 0).coord.sprites
        (mainLoop remaining sbc now hi
          { c0 with
            toBeRemovedIndexRange := NumericRange.empty,
            toBeRemovedTsRange := NumericRange.empty } lo 1 0).idx k :=
      spanWF_mono_hi hwfB hk2
    have t := cleanupLoop_pending hi
      (mainLoop remaining sbc now hi
        { c0 with
          toBeRemovedIndexRange := NumericRange.empty,
          toBeRemovedTsRange := NumericRange.empty } lo 1 0).coord
      (mainLoop remaining sbc now hi
        { c0 with
          toBeRemovedIndexRange := NumericRange.empty,
          toBeRemovedTsRange := NumericRange.empty } lo 1 0).idx k w sv
      hBidx hk2 hwfB2 hqB hmw hsvw
    rw [hcl] at t
    rw [runRemoval_eq_main c0 remaining sbc now lo hi lowTs hiTs c3 hb1 hb2
      hnow2 hcl]
    show (queueChecks c3).toBeRemovedIndexRange.containsVal k = true
    rw [queueChecks_tbrIdx]
    exact t.1

/-- A two-sprite coordinator: sprite 0 is not marked for removal; sprite 1
is a to-be-removed resting sprite that lacks its sprite view — an
internal invariant violation. -/
def cW7 : Coordinator :=
  ⟨[⟨false, LifecyclePhase.Rest, false, some ⟨5, [1]⟩, some 0⟩,
      ⟨true, LifecyclePhase.Rest, false, none, some 1⟩],
    ⟨some (0, 1)⟩, ⟨some (5, 5)⟩, ⟨none⟩, 0, 0⟩

theorem runRemoval_missing_properties_fatal_witness :
    cW7.toBeRemovedIndexRange.bounds = some (0, 1) ∧
    cW7.toBeRemovedTsRange.bounds = some (5, 5) ∧
    ((5 : Int) ≤ 10) ∧
    cW7.sprites[1]? = some ⟨true, LifecyclePhase.Rest, false, none, some 1⟩ ∧
    matchesRemoval
        (⟨true, LifecyclePhase.Rest, false, none, some 1⟩ :
          SpriteProperties) = true ∧
    (runRemoval cW7 (fun _ => 1) 10 10).2
      = some RunError.missingProperties := by
  have hwfb : ∀ k, 0 ≤ k → k < 1 → ∃ w, cW7.sprites[k]? = some w ∧
      (matchesRemoval w = true →
        w.spriteView.isSome = true ∧ w.index.isSome = true) := by
    intro k hk1 hk2
    have hk : k = 0 := by omega
    subst hk
    exact ⟨_, rfl, fun hmf => Bool.noConfusion hmf⟩
  have hwfa : SpanWellFormed cW7.sprites 2 1 := by
    intro k hk1 hk2
    omega
  exact ⟨rfl, rfl, by norm_num, rfl, rfl,
    (runRemoval_missing_properties_fatal cW7 (fun _ => 1) 10 10 0 1 5 5 1 _
      rfl rfl (by norm_num) (fun n => by norm_num) (by omega) (by omega)
      hwfb hwfa rfl rfl (Or.inl rfl)).1⟩


/-! ## Instrumentation: the indices each scan touches -/

/-- The indices that the main loop's body handles in one invocation: the
same recursion as `mainLoop`, recording the value of `currentIndex` for
each turn of the loop (including the turn that breaks or throws). -/
def mainLoopVisited (remaining : Nat → Int) (sbc : Nat) (now : Int)
    (highIndex : Nat) (c : Coordinator) (index step calls : Nat) :
    List Nat :=
  if _h : index ≤ highIndex then
    match c.sprites[index]? with
    | none => [index]
    | some p =>
      if !p.toBeRemoved || p.lifecyclePhase != LifecyclePhase.Rest then
        index ::
          mainLoopVisited remaining sbc now highIndex c (index + 1) step
            calls
      else
        match p.spriteView, p.index with
        | some sv, some pidx =>
          if sv.TransitionTimeMs > now then
            index ::
              mainLoopVisited remaining sbc now highIndex
                { c with
                  toBeRemovedIndexRange :=
                    c.toBeRemovedIndexRange.expandToInclude index,
                  toBeRemovedTsRange :=
                    c.toBeRemovedTsRange.expandToInclude
                      sv.TransitionTimeMs }
                (index + 1) step calls
          else
            let c' : Coordinator :=
              { c with
                sprites := c.sprites.set index
                  { p with
                    spriteView := some sv.fillZero,
                    zeroed := true,
                    lifecyclePhase := LifecyclePhase.NeedsTextureSync },
                needsTextureSyncIndexRange :=
                  c.needsTextureSyncIndexRange.expandToInclude pidx }
            if step % sbc = 0 then
              if remaining calls ≤ 0 then [index]
              else
                index ::
                  mainLoopVisited remaining sbc now highIndex c'
                    (index + 1) (step + 1) (calls + 1)
            else
              index ::
                mainLoopVisited remaining sbc now highIndex c' (index + 1)
                  (step + 1) calls
        | _, _ => [index]
  else []
termination_by highIndex + 1 - index

section VisitedEqs

variable (remaining : Nat → Int) (sbc : Nat) (now : Int) (highIndex : Nat)

theorem mainLoopVisited_eq_exit (c : Coordinator) (index step calls : Nat)
    (h : ¬ index ≤ highIndex) :
    mainLoopVisited remaining sbc now highIndex c index step calls = [] := by
  rw [mainLoopVisited, dif_neg h]

theorem mainLoopVisited_eq_oob (c : Coordinator) (index step calls : Nat)
    (h : index ≤ highIndex) (hp : c.sprites[index]? = none) :
    mainLoopVisited remaining sbc now highIndex c index step calls
      = [index] := by
  rw [mainLoopVisited, dif_pos h]
  simp only [hp]

theorem mainLoopVisited_eq_skip (c : Coordinator) (index step calls : Nat)
    (p : SpriteProperties) (h : index ≤ highIndex)
    (hp : c.sprites[index]? = some p) (hm : matchesRemoval p = false) :
    mainLoopVisited remaining sbc now highIndex c index step calls
      = index
        :: mainLoopVisited remaining sbc now highIndex c (index + 1) step
          calls := by
  rw [mainLoopVisited, dif_pos h]
  simp only [hp]
  simp only [skipCond_eq_not_matches, hm, Bool.not_false, if_true]

theorem mainLoopVisited_eq_missing (c : Coordinator)
    (index step calls : Nat) (p : SpriteProperties) (h : index ≤ highIndex)
    (hp : c.sprites[index]? = some p) (hm : matchesRemoval p = true)
    (hv : p.spriteView = none ∨ p.index = none) :
    mainLoopVisited remaining sbc now highIndex c index step calls
      = [index] := by
  rw [mainLoopVisited, dif_pos h]
  simp only [hp]
  simp only [skipCond_eq_not_matches, hm, Bool.not_true, Bool.false_eq_true,
    if_false]
  rcases hv with hv | hv <;>
    rcases hsv : p.spriteView with _ | sv <;>
    rcases hix : p.index with _ | pidx <;>
    simp_all

theorem mainLoopVisited_eq_readd (c : Coordinator) (index step calls : Nat)
    (p : SpriteProperties) (sv : SpriteView) (pidx : Nat)
    (h : index ≤ highIndex) (hp : c.sprites[index]? = some p)
    (hm : matchesRemoval p = true) (hsv : p.spriteView = some sv)
    (hix : p.index = some pidx) (ht : now < sv.TransitionTimeMs) :
    mainLoopVisited remaining sbc now highIndex c index step calls
      = index
        :: mainLoopVisited remaining sbc now highIndex
          { c with
            toBeRemovedIndexRange :=
              c.toBeRemovedIndexRange.expandToInclude index,
            toBeRemovedTsRange :=
              c.toBeRemovedTsRange.expandToInclude sv.TransitionTimeMs }
          (index + 1) step calls := by
  rw [mainLoopVisited, dif_pos h]
  simp only [hp]
  simp only [skipCond_eq_not_matches, hm, Bool.not_true, Bool.false_eq_true,
    if_false]
  simp only [hsv, hix]
  rw [if_pos ht]

theorem mainLoopVisited_eq_break (c : Coordinator) (index step calls : Nat)
    (p : SpriteProperties) (sv : SpriteView) (pidx : Nat)
    (h : index ≤ highIndex) (hp : c.sprites[index]? = some p)
    (hm : matchesRemoval p = true) (hsv : p.spriteView = some sv)
    (hix : p.index = some pidx) (ht : ¬ now < sv.TransitionTimeMs)
    (hstep : step % sbc = 0) (hrem : remaining calls ≤ 0) :
    mainLoopVisited remaining sbc now highIndex c index step calls
      = [index] := by
  rw [mainLoopVisited, dif_pos h]
  simp only [hp]
  simp only [skipCond_eq_not_matches, hm, Bool.not_true, Bool.false_eq_true,
    if_false]
  simp only [hsv, hix]
  rw [if_neg ht, if_pos hstep, if_pos hrem]

theorem mainLoopVisited_eq_zero_checked (c : Coordinator)
    (index step calls : Nat) (p : SpriteProperties) (sv : SpriteView)
    (pidx : Nat) (h : index ≤ highIndex) (hp : c.sprites[index]? = some p)
    (hm : matchesRemoval p = true) (hsv : p.spriteView = some sv)
    (hix : p.index = some pidx) (ht : ¬ now < sv.TransitionTimeMs)
    (hstep : step % sbc = 0) (hrem : ¬ remaining calls ≤ 0) :
    mainLoopVisited remaining sbc now highIndex c index step calls
      = index
        :: mainLoopVisited remaining sbc now highIndex
          (zeroStep c index p sv pidx) (index + 1) (step + 1) (calls + 1) := by
  rw [mainLoopVisited, dif_pos h]
  simp only [hp]
  simp only [skipCond_eq_not_matches, hm, Bool.not_true, Bool.false_eq_true,
    if_false]
  simp only [hsv, hix]
  rw [if_neg ht, if_pos hstep, if_neg hrem]
  simp [zeroStep, zeroSprite, hix]

theorem mainLoopVisited_eq_zero (c : Coordinator) (index step calls : Nat)
    (p : SpriteProperties) (sv : SpriteView) (pidx : Nat)
    (h : index ≤ highIndex) (hp : c.sprites[index]? = some p)
    (hm : matchesRemoval p = true) (hsv : p.spriteView = some sv)
    (hix : p.index = some pidx) (ht : ¬ now < sv.TransitionTimeMs)
    (hstep : ¬ step % sbc = 0) :
    mainLoopVisited remaining sbc now highIndex c index step calls
      = index
        :: mainLoopVisited remaining sbc now highIndex
          (zeroStep c index p sv pidx) (index + 1) (step + 1) calls := by
  rw [mainLoopVisited, dif_pos h]
  simp only [hp]
  simp only [skipCond_eq_not_matches, hm, Bool.not_true, Bool.false_eq_true,
    if_false]
  simp only [hsv, hix]
  rw [if_neg ht, if_neg hstep]
  simp [zeroStep, zeroSprite, hix]

end VisitedEqs


/-- `List.range'` over `[s, m)` written with truncated subtraction. -/
theorem range'_cons_of_lt {s m : Nat} (h : s < m) :
    List.range' s (m - s) = s :: List.range' (s + 1) (m - (s + 1)) := by
  have h1 : m - s = (m - (s + 1)) + 1 := by omega
  rw [h1]
  have h2 := List.range'_succ s (m - (s + 1)) 1
  simpa using h2

/-- The main loop's body handles exactly the consecutive indices from the
starting index up to (excluding) the exit value of the shared `index`
variable. -/
theorem mainLoopVisited_eq_range' (remaining : Nat → Int) (sbc : Nat)
    (now : Int) (highIndex : Nat) (c : Coordinator)
    (index step calls : Nat) :
    mainLoopVisited remaining sbc now highIndex c index step calls
      = List.range' index
        ((mainLoop remaining sbc now highIndex c index step calls).idx
          - index) := by
  induction c, index, step, calls using mainLoop.induct remaining sbc now highIndex with
  | case1 c index step calls h hp =>
    rw [mainLoop_eq_oob remaining sbc now highIndex c index step calls h hp,
      mainLoopVisited_eq_oob remaining sbc now highIndex c index step calls
        h hp]
    show [index] = List.range' index (index + 1 - index)
    have h1 : index + 1 - index = 1 := by omega
    rw [h1, List.range'_one]
  | case2 c index step calls h p hp hskip ih =>
    rw [mainLoop_eq_skip remaining sbc now highIndex c index step calls p h
      hp (not_matches_of_skip hskip),
      mainLoopVisited_eq_skip remaining sbc now highIndex c index step calls
        p h hp (not_matches_of_skip hskip)]
    have hlb := mainLoop_idx_lb remaining sbc now highIndex c (index + 1)
      step calls
    rw [ih]
    exact (range'_cons_of_lt (by omega)).symm
  | case3 c index step calls h p hp hskip sv pidx hix hsv ht ih =>
    rw [mainLoop_eq_readd remaining sbc now highIndex c index step calls p
      sv pidx h hp (matches_of_not_skip hskip) hsv hix ht,
      mainLoopVisited_eq_readd remaining sbc now highIndex c index step
        calls p sv pidx h hp (matches_of_not_skip hskip) hsv hix ht]
    have hlb := mainLoop_idx_lb remaining sbc now highIndex
      { c with
        toBeRemovedIndexRange :=
          c.toBeRemovedIndexRange.expandToInclude index,
        toBeRemovedTsRange :=
          c.toBeRemovedTsRange.expandToInclude sv.TransitionTimeMs }
      (index + 1) step calls
    rw [ih]
    exact (range'_cons_of_lt (by omega)).symm
  | case4 c index step calls h p hp hskip sv pidx hix hsv ht hstep hrem =>
    rw [mainLoop_eq_break remaining sbc now highIndex c index step calls p
      sv pidx h hp (matches_of_not_skip hskip) hsv hix ht hstep hrem,
      mainLoopVisited_eq_break remaining sbc now highIndex c index step
        calls p sv pidx h hp (matches_of_not_skip hskip) hsv hix ht hstep
        hrem]
    show [index] = List.range' index (index + 1 - index)
    have h1 : index + 1 - index = 1 := by omega
    rw [h1, List.range'_one]
  | case5 c index step calls h p hp hskip sv pidx hix hsv ht c' hstep hrem ih =>
    rw [mainLoop_eq_zero_checked remaining sbc now highIndex c index step
      calls p sv pidx h hp (matches_of_not_skip hskip) hsv hix ht hstep
      hrem,
      mainLoopVisited_eq_zero_checked remaining sbc now highIndex c index
        step calls p sv pidx h hp (matches_of_not_skip hskip) hsv hix ht
        hstep hrem]
    have ihz : mainLoopVisited remaining sbc now highIndex
        (zeroStep c index p sv pidx) (index + 1) (step + 1) (calls + 1)
        = List.range' (index + 1)
          ((mainLoop remaining sbc now highIndex (zeroStep c index p sv pidx)
            (index + 1) (step + 1) (calls + 1)).idx - (index + 1)) := ih
    have hlb := mainLoop_idx_lb remaining sbc now highIndex
      (zeroStep c index p sv pidx) (index + 1) (step + 1) (calls + 1)
    rw [ihz]
    exact (range'_cons_of_lt (by omega)).symm
  | case6 c index step calls h p hp hskip sv pidx hix hsv ht c' hstep ih =>
    rw [mainLoop_eq_zero remaining sbc now highIndex c index step calls p sv
      pidx h hp (matches_of_not_skip hskip) hsv hix ht hstep,
      mainLoopVisited_eq_zero remaining sbc now highIndex c index step calls
        p sv pidx h hp (matches_of_not_skip hskip) hsv hix ht hstep]
    have ihz : mainLoopVisited remaining sbc now highIndex
        (zeroStep c index p sv pidx) (index + 1) (step + 1) calls
        = List.range' (index + 1)
          ((mainLoop remaining sbc now highIndex (zeroStep c index p sv pidx)
            (index + 1) (step + 1) calls).idx - (index + 1)) := ih
    have hlb := mainLoop_idx_lb remaining sbc now highIndex
      (zeroStep c index p sv pidx) (index + 1) (step + 1) calls
    rw [ihz]
    exact (range'_cons_of_lt (by omega)).symm
  | case7 c index step calls h p hp hskip hcontra =>
    have hm := matches_of_not_skip hskip
    have hv : p.spriteView = none ∨ p.index = none := by
      rcases hsv : p.spriteView with _ | sv
      · exact Or.inl rfl
      · rcases hix : p.index with _ | pidx
        · exact Or.inr rfl
        · exact absurd trivial (fun _ => hcontra sv pidx hsv hix)
    rw [mainLoop_eq_missing remaining sbc now highIndex c index step calls p
      h hp hm hv,
      mainLoopVisited_eq_missing remaining sbc now highIndex c index step
        calls p h hp hm hv]
    show [index] = List.range' index (index + 1 - index)
    have h1 : index + 1 - index = 1 := by omega
    rw [h1, List.range'_one]
  | case8 c index step calls h =>
    rw [mainLoop_eq_exit remaining sbc now highIndex c index step calls h,
      mainLoopVisited_eq_exit remaining sbc now highIndex c index step calls
        h]
    show ([] : List Nat) = List.range' index (index - index)
    have h1 : index - index = 0 := by omega
    rw [h1, List.range'_zero]

/-- The indices examined by the cleanup pass: the same recursion as
`cleanupLoop`, recording each loop variable value it reads (including the
one whose missing sprite view aborts the pass). -/
def cleanupScanned (highIndex : Nat) (sprites : List SpriteProperties)
    (i : Nat) : List Nat :=
  if _h : i ≤ highIndex then
    match sprites[i]? with
    | none => [i]
    | some p =>
      if !p.toBeRemoved || p.lifecyclePhase != LifecyclePhase.Rest then
        i :: cleanupScanned highIndex sprites (i + 1)
      else
        match p.spriteView with
        | none => [i]
        | some _ => i :: cleanupScanned highIndex sprites (i + 1)
  else []
termination_by highIndex + 1 - i

/-- Every index the cleanup pass examines is at least its start index. -/
theorem cleanupScanned_ge (highIndex : Nat)
    (sprites : List SpriteProperties) (i : Nat) :
    ∀ k ∈ cleanupScanned highIndex sprites i, i ≤ k := by
  induction i using cleanupScanned.induct highIndex sprites with
  | case1 i h hp =>
    rw [cleanupScanned, dif_pos h]
    simp only [hp]
    intro k hk
    rw [List.mem_singleton] at hk
    omega
  | case2 i h p hp hskip ih =>
    rw [cleanupScanned, dif_pos h]
    simp only [hp]
    simp only [hskip, if_true]
    intro k hk
    rcases List.mem_cons.mp hk with hk | hk
    · omega
    · have := ih k hk
      omega
  | case3 i h p hp hskip hv =>
    rw [cleanupScanned, dif_pos h]
    simp only [hp]
    simp only [skipCond_eq_not_matches, matches_of_not_skip hskip,
      Bool.not_true, Bool.false_eq_true, if_false]
    simp only [hv]
    intro k hk
    rw [List.mem_singleton] at hk
    omega
  | case4 i h p hp hskip sv hsv ih =>
    rw [cleanupScanned, dif_pos h]
    simp only [hp]
    simp only [skipCond_eq_not_matches, matches_of_not_skip hskip,
      Bool.not_true, Bool.false_eq_true, if_false]
    simp only [hsv]
    intro k hk
    rcases List.mem_cons.mp hk with hk | hk
    · omega
    · have := ih k hk
      omega
  | case5 i h =>
    rw [cleanupScanned, dif_neg h]
    intro k hk
    exact absurd hk (List.not_mem_nil k)


/-- C4: no sprite index is both handled by the main loop's body and
examined by the `finally` cleanup pass: the loop handles exactly the
indices below the exit value of the shared `index` variable, and the
cleanup scans only from that value upward, so the two sets are
disjoint. -/
theorem runRemoval_loop_cleanup_disjoint (remaining : Nat → Int)
    (sbc : Nat) (now : Int) (highIndex : Nat) (c : Coordinator)
    (index step calls : Nat) :
    mainLoopVisited remaining sbc now highIndex c index step calls
      = List.range' index
        ((mainLoop remaining sbc now highIndex c index step calls).idx
          - index) ∧
    List.Disjoint
      (mainLoopVisited remaining sbc now highIndex c index step calls)
      (cleanupScanned highIndex
        (mainLoop remaining sbc now highIndex c index step calls).coord.sprites
        (mainLoop remaining sbc now highIndex c index step calls).idx) := by
  refine ⟨mainLoopVisited_eq_range' remaining sbc now highIndex c index
    step calls, ?_⟩
  intro a ha hscan
  rw [mainLoopVisited_eq_range' remaining sbc now highIndex c index step
    calls] at ha
  have h1 := List.mem_range'_1.mp ha
  have h2 := cleanupScanned_ge highIndex
    (mainLoop remaining sbc now highIndex c index step calls).coord.sprites
    (mainLoop remaining sbc now highIndex c index step calls).idx a hscan
  omega

/-- The indices that the cleanup pass re-adds to the removal ranges: the
same recursion as `cleanupLoop`, recording each index for which it calls
`expandToInclude`. -/
def cleanupReadded (highIndex : Nat) (sprites : List SpriteProperties)
    (i : Nat) : List Nat :=
  if _h : i ≤ highIndex then
    match sprites[i]? with
    | none => []
    | some p =>
      if !p.toBeRemoved || p.lifecyclePhase != LifecyclePhase.Rest then
        cleanupReadded highIndex sprites (i + 1)
      else
        match p.spriteView with
        | none => []
        | some _ => i :: cleanupReadded highIndex sprites (i + 1)
  else []
termination_by highIndex + 1 - i

/-- The cleanup loop calls `expandToInclude` on the to-be-removed index
range exactly at the indices recorded by `cleanupReadded`, in order. -/
theorem cleanupLoop_expands_exactly_readded (highIndex : Nat)
    (c : Coordinator) (i : Nat) :
    (cleanupLoop highIndex c i).1.toBeRemovedIndexRange
      = List.foldl NumericRange.expandToInclude c.toBeRemovedIndexRange
        (cleanupReadded highIndex c.sprites i) := by
  induction c, i using cleanupLoop.induct highIndex with
  | case1 c i h hp =>
    rw [cleanupLoop_eq_oob highIndex c i h hp]
    rw [cleanupReadded, dif_pos h]
    simp only [hp]
    rfl
  | case2 c i h p hp hskip ih =>
    rw [cleanupLoop_eq_skip highIndex c i p h hp (not_matches_of_skip hskip)]
    rw [cleanupReadded, dif_pos h]
    simp only [hp]
    simp only [hskip, if_true]
    exact ih
  | case3 c i h p hp hskip hv =>
    rw [cleanupLoop_eq_missing highIndex c i p h hp
      (matches_of_not_skip hskip) hv]
    rw [cleanupReadded, dif_pos h]
    simp only [hp]
    simp only [skipCond_eq_not_matches, matches_of_not_skip hskip,
      Bool.not_true, Bool.false_eq_true, if_false]
    simp only [hv]
    rfl
  | case4 c i h p hp hskip sv hsv ih =>
    rw [cleanupLoop_eq_readd highIndex c i p sv h hp
      (matches_of_not_skip hskip) hsv]
    rw [cleanupReadded, dif_pos h]
    simp only [hp]
    simp only [skipCond_eq_not_matches, matches_of_not_skip hskip,
      Bool.not_true, Bool.false_eq_true, if_false]
    simp only [hsv]
    rw [List.foldl_cons]
    exact ih
  | case5 c i h =>
    rw [cleanupLoop_eq_exit highIndex c i h]
    rw [cleanupReadded, dif_neg h]
    rfl

/-- The sprites of the span `[i, highIndex]` that match the removal
task's responsibility (candidates the cleanup pass is required to
re-add). -/
def unvisitedMatching (sprites : List SpriteProperties)
    (i highIndex : Nat) : List Nat :=
  (List.range' i (highIndex + 1 - i)).filter fun k =>
    match sprites[k]? with
    | some p => matchesRemoval p
    | none => false

/-- On a well-formed tail of the span, the cleanup pass re-adds exactly
the matching sprites among the unvisited indices. -/
theorem cleanupReadded_eq_unvisited (highIndex : Nat)
    (sprites : List SpriteProperties) (i : Nat)
    (hwf : ∀ k, i ≤ k → k ≤ highIndex → ∃ w, sprites[k]? = some w ∧
      (matchesRemoval w = true → w.spriteView.isSome = true)) :
    cleanupReadded highIndex sprites i
      = unvisitedMatching sprites i highIndex := by
  induction i using cleanupReadded.induct highIndex sprites with
  | case1 i h hp =>
    obtain ⟨w, hw, _⟩ := hwf i le_rfl h
    rw [hp] at hw
    exact Option.noConfusion hw
  | case2 i h p hp hskip ih =>
    rw [cleanupReadded, dif_pos h]
    simp only [hp]
    simp only [hskip, if_true]
    rw [ih (fun k hk1 hk2 => hwf k (by omega) hk2)]
    unfold unvisitedMatching
    rw [range'_cons_of_lt (by omega : i < highIndex + 1)]
    rw [List.filter_cons]
    have hmf : matchesRemoval p = false := not_matches_of_skip hskip
    simp only [hp, hmf]
    rfl
  | case3 i h p hp hskip hv =>
    obtain ⟨w, hw, hreq⟩ := hwf i le_rfl h
    rw [hp] at hw
    have hpw : p = w := Option.some.inj hw
    subst hpw
    have h1 := hreq (matches_of_not_skip hskip)
    rw [hv] at h1
    exact Bool.noConfusion h1
  | case4 i h p hp hskip sv hsv ih =>
    rw [cleanupReadded, dif_pos h]
    simp only [hp]
    simp only [skipCond_eq_not_matches, matches_of_not_skip hskip,
      Bool.not_true, Bool.false_eq_true, if_false]
    simp only [hsv]
    rw [ih (fun k hk1 hk2 => hwf k (by omega) hk2)]
    unfold unvisitedMatching
    rw [range'_cons_of_lt (by omega : i < highIndex + 1)]
    rw [List.filter_cons]
    have hmt : matchesRemoval p = true := matches_of_not_skip hskip
    simp only [hp, hmt]
    rfl
  | case5 i h =>
    rw [cleanupReadded, dif_neg h]
    unfold unvisitedMatching
    have h1 : highIndex + 1 - i = 0 := by omega
    rw [h1, List.range'_zero]
    rfl

/-- `unvisitedMatching` only looks at slots from its start index up. -/
theorem unvisitedMatching_congr (s1 s2 : List SpriteProperties)
    (i highIndex : Nat) (h : ∀ k, i ≤ k → s1[k]? = s2[k]?) :
    unvisitedMatching s1 i highIndex = unvisitedMatching s2 i highIndex := by
  unfold unvisitedMatching
  refine List.filter_congr ?_
  intro k hk
  have hk1 := (List.mem_range'_1.mp hk).1
  rw [h k hk1]


theorem runRemoval_loop_cleanup_disjoint_witness :
    mainLoopVisited (fun _ => 1) 10 10 1 cexC3 0 1 0
        = List.range' 0
          ((mainLoop (fun _ => 1) 10 10 1 cexC3 0 1 0).idx - 0) ∧
    List.Disjoint (mainLoopVisited (fun _ => 1) 10 10 1 cexC3 0 1 0)
      (cleanupScanned 1
        (mainLoop (fun _ => 1) 10 10 1 cexC3 0 1 0).coord.sprites
        (mainLoop (fun _ => 1) 10 10 1 cexC3 0 1 0).idx) :=
  runRemoval_loop_cleanup_disjoint (fun _ => 1) 10 10 1 cexC3 0 1 0

/-- C2: with a budget that is exhausted from the first check onward, one
invocation of `runRemoval` mutates at most `stepsBetweenChecks` sprites,
and the cleanup pass re-adds exactly the to-be-removed resting sprites
among the indices the loop did not visit. -/
theorem runRemoval_budget_respect (c0 : Coordinator)
    (remaining : Nat → Int) (sbc : Nat) (now : Int) (lo hi : Nat)
    (lowTs hiTs : Int)
    (hb1 : c0.toBeRemovedIndexRange.bounds = some (lo, hi))
    (hb2 : c0.toBeRemovedTsRange.bounds = some (lowTs, hiTs))
    (hnow : lowTs ≤ now)
    (hneg : ∀ n, remaining n ≤ 0) (hsbc : 1 ≤ sbc)
    (hwf : SpanWellFormed c0.sprites lo hi) :
    (∃ l : List Nat, l.length ≤ sbc ∧
      ∀ j : Nat, (runRemoval c0 remaining sbc now).1.sprites[j]?
        ≠ c0.sprites[j]? → j ∈ l) ∧
    cleanupReadded hi
        (mainLoop remaining sbc now hi
          { c0 with
            toBeRemovedIndexRange := NumericRange.empty,
            toBeRemovedTsRange := NumericRange.empty } lo 1 0).coord.sprites
        (mainLoop remaining sbc now hi
          { c0 with
            toBeRemovedIndexRange := NumericRange.empty,
            toBeRemovedTsRange := NumericRange.empty } lo 1 0).idx
      = unvisitedMatching c0.sprites
        (mainLoop remaining sbc now hi
          { c0 with
            toBeRemovedIndexRange := NumericRange.empty,
            toBeRemovedTsRange := NumericRange.empty } lo 1 0).idx hi := by
  have hnow2 : ¬ now < lowTs := not_lt.mpr hnow
  constructor
  · obtain ⟨l, hlen, hmem⟩ := mainLoop_mutation_bound remaining sbc now hi
      hneg
      { c0 with
        toBeRemovedIndexRange := NumericRange.empty,
        toBeRemovedTsRange := NumericRange.empty } lo 1 0 le_rfl hsbc
    refine ⟨l, by omega, ?_⟩
    intro j hj
    rw [runRemoval_sprites_eq_mainLoop c0 remaining sbc now lo hi lowTs hiTs
      hb1 hb2 hnow2] at hj
    exact hmem j hj
  · have hlb := mainLoop_idx_lb remaining sbc now hi
      { c0 with
        toBeRemovedIndexRange := NumericRange.empty,
        toBeRemovedTsRange := NumericRange.empty } lo 1 0
    have hpres : ∀ k,
        (mainLoop remaining sbc now hi
          { c0 with
            toBeRemovedIndexRange := NumericRange.empty,
            toBeRemovedTsRange := NumericRange.empty } lo 1 0).idx ≤ k →
        (mainLoop remaining sbc now hi
          { c0 with
            toBeRemovedIndexRange := NumericRange.empty,
            toBeRemovedTsRange := NumericRange.empty } lo 1
          0).coord.sprites[k]? = c0.sprites[k]? :=
      fun k hk => mainLoop_sprites_preserved remaining sbc now hi _ lo 1 0 k
        (Or.inr hk)
    rw [cleanupReadded_eq_unvisited hi
      (mainLoop remaining sbc now hi
        { c0 with
          toBeRemovedIndexRange := NumericRange.empty,
          toBeRemovedTsRange := NumericRange.empty } lo 1 0).coord.sprites
      (mainLoop remaining sbc now hi
        { c0 with
          toBeRemovedIndexRange := NumericRange.empty,
          toBeRemovedTsRange := NumericRange.empty } lo 1 0).idx ?hwf2]
    case hwf2 =>
      intro k hk1 hk2
      obtain ⟨w, hw, hreq⟩ := hwf k (by omega) hk2
      refine ⟨w, ?_, fun hmw => (hreq hmw).1⟩
      rw [hpres k hk1]
      exact hw
    exact unvisitedMatching_congr _ _ _ hi hpres

/-- A two-sprite coordinator in which both sprites are due for removal. -/
def cW2 : Coordinator :=
  ⟨[⟨true, LifecyclePhase.Rest, false, some ⟨5, [1]⟩, some 0⟩,
      ⟨true, LifecyclePhase.Rest, false, some ⟨6, [2]⟩, some 1⟩],
    ⟨some (0, 1)⟩, ⟨some (5, 6)⟩, ⟨none⟩, 0, 0⟩

theorem runRemoval_budget_respect_witness :
    cW2.toBeRemovedIndexRange.bounds = some (0, 1) ∧
    cW2.toBeRemovedTsRange.bounds = some (5, 6) ∧
    ((5 : Int) ≤ 10) ∧
    (∀ n : Nat, (fun _ : Nat => (0 : Int)) n ≤ 0) ∧
    (1 ≤ 1) ∧
    SpanWellFormed cW2.sprites 0 1 ∧
    ((∃ l : List Nat, l.length ≤ 1 ∧
      ∀ j : Nat, (runRemoval cW2 (fun _ => 0) 1 10).1.sprites[j]?
        ≠ cW2.sprites[j]? → j ∈ l) ∧
    cleanupReadded 1
        (mainLoop (fun _ => 0) 1 10 1
          { cW2 with
            toBeRemovedIndexRange := NumericRange.empty,
            toBeRemovedTsRange := NumericRange.empty } 0 1 0).coord.sprites
        (mainLoop (fun _ => 0) 1 10 1
          { cW2 with
            toBeRemovedIndexRange := NumericRange.empty,
            toBeRemovedTsRange := NumericRange.empty } 0 1 0).idx
      = unvisitedMatching cW2.sprites
        (mainLoop (fun _ => 0) 1 10 1
          { cW2 with
            toBeRemovedIndexRange := NumericRange.empty,
            toBeRemovedTsRange := NumericRange.empty } 0 1 0).idx 1) := by
  have hwf : SpanWellFormed cW2.sprites 0 1 := by
    intro k hk1 hk2
    match k, hk2 with
    | 0, _ => exact ⟨_, rfl, fun _ => ⟨rfl, rfl⟩⟩
    | 1, _ => exact ⟨_, rfl, fun _ => ⟨rfl, rfl⟩⟩
  exact ⟨rfl, rfl, by norm_num, fun n => le_rfl, le_rfl, hwf,
    runRemoval_budget_respect cW2 (fun _ => 0) 1 10 0 1 5 6 rfl rfl
      (by norm_num) (fun n => le_rfl) le_rfl hwf⟩


/-! ## Claim theorems -/

/-- C5: invoking `runRemoval` while either to-be-removed dirty range is
undefined throws `InternalError` immediately and leaves the coordinator
state unchanged; in particular a second invocation right after a run that
fully drained the dirty ranges is exactly this precondition failure. -/
theorem runRemoval_undefined_range_errors (c0 : Coordinator)
    (remaining : Nat → Int) (sbc : Nat) (now : Int)
    (h : c0.toBeRemovedIndexRange.isDefined = false ∨
      c0.toBeRemovedTsRange.isDefined = false) :
    runRemoval c0 remaining sbc now = (c0, some RunError.noSpritesQueued) :=
  runRemoval_eq_norange c0 remaining sbc now h

theorem runRemoval_undefined_range_errors_witness :
    ((⟨[], ⟨some (0, 0)⟩, ⟨none⟩, ⟨none⟩, 0, 0⟩ :
        Coordinator).toBeRemovedIndexRange.isDefined = false ∨
      (⟨[], ⟨some (0, 0)⟩, ⟨none⟩, ⟨none⟩, 0, 0⟩ :
        Coordinator).toBeRemovedTsRange.isDefined = false) ∧
    runRemoval (⟨[], ⟨some (0, 0)⟩, ⟨none⟩, ⟨none⟩, 0, 0⟩ : Coordinator)
        (fun _ => 1) 10 0
      = ((⟨[], ⟨some (0, 0)⟩, ⟨none⟩, ⟨none⟩, 0, 0⟩ : Coordinator),
        some RunError.noSpritesQueued) :=
  ⟨Or.inr rfl,
    runRemoval_undefined_range_errors _ (fun _ => 1) 10 0 (Or.inr rfl)⟩

/-- C10: `runRemoval` preserves the invariant that the to-be-removed index
range and the to-be-removed timestamp range are defined or undefined
together, at every exit (normal or exceptional). -/
theorem runRemoval_ranges_defined_together (c0 : Coordinator)
    (remaining : Nat → Int) (sbc : Nat) (now : Int)
    (h : c0.toBeRemovedIndexRange.isDefined
      = c0.toBeRemovedTsRange.isDefined) :
    (runRemoval c0 remaining sbc now).1.toBeRemovedIndexRange.isDefined
      = (runRemoval c0 remaining sbc now).1.toBeRemovedTsRange.isDefined := by
  rcases hb1 : c0.toBeRemovedIndexRange.bounds with _ | lh1
  · rw [runRemoval_eq_norange c0 remaining sbc now
      (Or.inl (by simp [NumericRange.isDefined, hb1]))]
    exact h
  · obtain ⟨lo, hi⟩ := lh1
    rcases hb2 : c0.toBeRemovedTsRange.bounds with _ | lh2
    · rw [runRemoval_eq_norange c0 remaining sbc now
        (Or.inr (by simp [NumericRange.isDefined, hb2]))]
      exact h
    · obtain ⟨lowTs, hiTs⟩ := lh2
      by_cases hnow : now < lowTs
      · rw [runRemoval_eq_early c0 remaining sbc now lo hi lowTs hiTs hb1 hb2
          hnow]
        exact h
      · have hmain := mainLoop_defined_together remaining sbc now hi
          { c0 with
            toBeRemovedIndexRange := NumericRange.empty,
            toBeRemovedTsRange := NumericRange.empty } lo 1 0 rfl
        have hcl2 := cleanupLoop_defined_together hi
          (mainLoop remaining sbc now hi
            { c0 with
              toBeRemovedIndexRange := NumericRange.empty,
              toBeRemovedTsRange := NumericRange.empty } lo 1 0).coord
          (mainLoop remaining sbc now hi
            { c0 with
              toBeRemovedIndexRange := NumericRange.empty,
              toBeRemovedTsRange := NumericRange.empty } lo 1 0).idx hmain
        rcases hcl : cleanupLoop hi
            (mainLoop remaining sbc now hi
              { c0 with
                toBeRemovedIndexRange := NumericRange.empty,
                toBeRemovedTsRange := NumericRange.empty } lo 1 0).coord
            (mainLoop remaining sbc now hi
              { c0 with
                toBeRemovedIndexRange := NumericRange.empty,
                toBeRemovedTsRange := NumericRange.empty } lo 1 0).idx
          with ⟨c3, _ | e⟩
        · rw [hcl] at hcl2
          rw [runRemoval_eq_main c0 remaining sbc now lo hi lowTs hiTs c3 hb1
            hb2 hnow hcl]
          show (queueChecks c3).toBeRemovedIndexRange.isDefined
            = (queueChecks c3).toBeRemovedTsRange.isDefined
          rw [queueChecks_tbrIdx, queueChecks_tbrTs]
          exact hcl2
        · rw [hcl] at hcl2
          rw [runRemoval_eq_cleanup_fault c0 remaining sbc now lo hi lowTs
            hiTs c3 e hb1 hb2 hnow hcl]
          exact hcl2

theorem runRemoval_ranges_defined_together_witness :
    ((⟨[⟨true, LifecyclePhase.Rest, false, some ⟨5, [1, 2]⟩, some 0⟩],
        ⟨some (0, 0)⟩, ⟨some (5, 5)⟩, ⟨none⟩, 0, 0⟩ :
        Coordinator).toBeRemovedIndexRange.isDefined
      = (⟨[⟨true, LifecyclePhase.Rest, false, some ⟨5, [1, 2]⟩, some 0⟩],
        ⟨some (0, 0)⟩, ⟨some (5, 5)⟩, ⟨none⟩, 0, 0⟩ :
        Coordinator).toBeRemovedTsRange.isDefined) ∧
    (runRemoval
        (⟨[⟨true, LifecyclePhase.Rest, false, some ⟨5, [1, 2]⟩, some 0⟩],
          ⟨some (0, 0)⟩, ⟨some (5, 5)⟩, ⟨none⟩, 0, 0⟩ : Coordinator)
        (fun _ => 1) 10 9).1.toBeRemovedIndexRange.isDefined
      = (runRemoval
        (⟨[⟨true, LifecyclePhase.Rest, false, some ⟨5, [1, 2]⟩, some 0⟩],
          ⟨some (0, 0)⟩, ⟨some (5, 5)⟩, ⟨none⟩, 0, 0⟩ : Coordinator)
        (fun _ => 1) 10 9).1.toBeRemovedTsRange.isDefined :=
  ⟨rfl, runRemoval_ranges_defined_together _ (fun _ => 1) 10 9 rfl⟩

end Megaplot
